import Mathlib

/-!
Input decoder and character renderer of the PTY shell host.

A shallow embedding of the key-translation table, the escape-sequence decoder
(`FindKeyTransByMask`, `ProcessModifierKeySequence`, `CheckKeyTranslations`,
`ProcessIncomingKeys`) and the character renderer (`SendCharacter`) of
`contrib/win32/win32compat/shell-host.c`.

Conventions of the embedding:

* a NUL-terminated wide string (`wchar_t *`) is the list of its UTF-16 units up
  to, and not including, the terminator; reading a unit at or past the end of
  the list yields the terminator `0` (`wcharAt`); advancing a pointer by `n`
  units is `List.drop n`;
* the process-wide table `keys` is passed explicitly, so that the effect of
  `initialize_keylen` is visible in the statements;
* writes to the child console input (`WriteConsoleInputW`,
  `GenerateConsoleCtrlEvent`) are collected, in order, in a list of
  `ConsoleInput` values;
* writes to the output pipe (`WriteFile`) are collected, in order, as a list
  of byte strings, one per call.
-/

namespace ShellHost

/-! ## Constants of the console API used by the decoder -/

def VK_BACK : Nat := 0x08
def VK_TAB : Nat := 0x09
def VK_RETURN : Nat := 0x0D
def VK_ESCAPE : Nat := 0x1B
def VK_PRIOR : Nat := 0x21
def VK_NEXT : Nat := 0x22
def VK_END : Nat := 0x23
def VK_HOME : Nat := 0x24
def VK_LEFT : Nat := 0x25
def VK_UP : Nat := 0x26
def VK_RIGHT : Nat := 0x27
def VK_DOWN : Nat := 0x28
def VK_INSERT : Nat := 0x2D
def VK_DELETE : Nat := 0x2E
def VK_F1 : Nat := 0x70
def VK_F2 : Nat := 0x71
def VK_F3 : Nat := 0x72
def VK_F4 : Nat := 0x73
def VK_F5 : Nat := 0x74
def VK_F6 : Nat := 0x75
def VK_F7 : Nat := 0x76
def VK_F8 : Nat := 0x77
def VK_F9 : Nat := 0x78
def VK_F10 : Nat := 0x79
def VK_F11 : Nat := 0x7A
def VK_F12 : Nat := 0x7B

def VK_A : Nat := 0x41
def VK_B : Nat := 0x42
def VK_C : Nat := 0x43
def VK_D : Nat := 0x44
def VK_E : Nat := 0x45
def VK_F : Nat := 0x46
def VK_G : Nat := 0x47
def VK_H : Nat := 0x48
def VK_I : Nat := 0x49
def VK_J : Nat := 0x4A
def VK_K : Nat := 0x4B
def VK_L : Nat := 0x4C
def VK_M : Nat := 0x4D
def VK_N : Nat := 0x4E
def VK_O : Nat := 0x4F
def VK_P : Nat := 0x50
def VK_Q : Nat := 0x51
def VK_R : Nat := 0x52
def VK_S : Nat := 0x53
def VK_T : Nat := 0x54
def VK_U : Nat := 0x55
def VK_V : Nat := 0x56
def VK_W : Nat := 0x57
def VK_X : Nat := 0x58
def VK_Y : Nat := 0x59
def VK_Z : Nat := 0x5A
def VK_0 : Nat := 0x30
def VK_1 : Nat := 0x31
def VK_2 : Nat := 0x32
def VK_3 : Nat := 0x33
def VK_4 : Nat := 0x34
def VK_5 : Nat := 0x35
def VK_6 : Nat := 0x36
def VK_7 : Nat := 0x37
def VK_8 : Nat := 0x38
def VK_9 : Nat := 0x39

def LEFT_ALT_PRESSED : Nat := 0x0002
def LEFT_CTRL_PRESSED : Nat := 0x0008
def SHIFT_PRESSED : Nat := 0x0010

def CTRL_C_EVENT : Nat := 0

def MAX_CTRL_SEQ_LEN : Nat := 7
def MIN_CTRL_SEQ_LEN : Nat := 6

/-- The escape unit, written as octal 033 and as hexadecimal 1b in the source. -/
def ESC : Nat := 0x1B

/-! ## Data model -/

/-- One row of the table `keys`: `struct key_translation`.  The array `in` is
the list of its units before the zero padding. -/
structure key_translation where
  in_ : List Nat
  vk : Nat
  out : Nat
  in_key_len : Nat
  ctrlState : Nat
deriving DecidableEq

/-- The `KEY_EVENT` input record filled in by `SendKeyStrokeEx`.  The scan
code is `MapVirtualKeyA` of the virtual key, an operating-system function of
`wVirtualKeyCode` alone, and is not recorded. -/
structure KEY_EVENT_RECORD where
  bKeyDown : Bool
  wRepeatCount : Nat
  wVirtualKeyCode : Nat
  UnicodeChar : Nat
  dwControlKeyState : Nat
deriving DecidableEq

/-- What the decoder delivers to the child console: an input record written
with `WriteConsoleInputW`, or a control event raised with
`GenerateConsoleCtrlEvent`. -/
inductive ConsoleInput where
  | WriteConsoleInputW (ir : KEY_EVENT_RECORD)
  | GenerateConsoleCtrlEvent (dwCtrlEvent : Nat) (dwProcessGroupId : Nat)
deriving DecidableEq

/-- The table `keys` as it is initialised in the source, every `in_key_len`
still `0`. -/
def keys : List key_translation := [
  key_translation.mk [0x0D] VK_RETURN 0x0D 0 0,  -- 0x0D
  key_translation.mk [0x0A] VK_RETURN 0x0D 0 0,  -- 0x0A
  key_translation.mk [0x08] VK_BACK 0x08 0 0,  -- 0x08
  key_translation.mk [0x7F] VK_BACK 0x08 0 0,  -- 0x7F
  key_translation.mk [0x09] VK_TAB 0x09 0 0,  -- 0x09
  key_translation.mk [0x1B, 0x5B, 0x41] VK_UP 0x00 0 0,  -- ESC [ A
  key_translation.mk [0x1B, 0x5B, 0x42] VK_DOWN 0x00 0 0,  -- ESC [ B
  key_translation.mk [0x1B, 0x5B, 0x43] VK_RIGHT 0x00 0 0,  -- ESC [ C
  key_translation.mk [0x1B, 0x5B, 0x44] VK_LEFT 0x00 0 0,  -- ESC [ D
  key_translation.mk [0x1B, 0x5B, 0x46] VK_END 0x00 0 0,  -- ESC [ F
  key_translation.mk [0x1B, 0x5B, 0x48] VK_HOME 0x00 0 0,  -- ESC [ H
  key_translation.mk [0x1B, 0x5B, 0x5A] VK_TAB 0x09 0 SHIFT_PRESSED,  -- ESC [ Z
  key_translation.mk [0x1B, 0x5B, 0x31, 0x7E] VK_HOME 0x00 0 0,  -- ESC [ 1 ~
  key_translation.mk [0x1B, 0x5B, 0x32, 0x7E] VK_INSERT 0x00 0 0,  -- ESC [ 2 ~
  key_translation.mk [0x1B, 0x5B, 0x33, 0x7E] VK_DELETE 0x00 0 0,  -- ESC [ 3 ~
  key_translation.mk [0x1B, 0x5B, 0x34, 0x7E] VK_END 0x00 0 0,  -- ESC [ 4 ~
  key_translation.mk [0x1B, 0x5B, 0x35, 0x7E] VK_PRIOR 0x00 0 0,  -- ESC [ 5 ~
  key_translation.mk [0x1B, 0x5B, 0x36, 0x7E] VK_NEXT 0x00 0 0,  -- ESC [ 6 ~
  key_translation.mk [0x1B, 0x5B, 0x31, 0x31, 0x7E] VK_F1 0x00 0 0,  -- ESC [ 1 1 ~
  key_translation.mk [0x1B, 0x5B, 0x31, 0x32, 0x7E] VK_F2 0x00 0 0,  -- ESC [ 1 2 ~
  key_translation.mk [0x1B, 0x5B, 0x31, 0x33, 0x7E] VK_F3 0x00 0 0,  -- ESC [ 1 3 ~
  key_translation.mk [0x1B, 0x5B, 0x31, 0x34, 0x7E] VK_F4 0x00 0 0,  -- ESC [ 1 4 ~
  key_translation.mk [0x1B, 0x5B, 0x31, 0x35, 0x7E] VK_F5 0x00 0 0,  -- ESC [ 1 5 ~
  key_translation.mk [0x1B, 0x5B, 0x31, 0x37, 0x7E] VK_F6 0x00 0 0,  -- ESC [ 1 7 ~
  key_translation.mk [0x1B, 0x5B, 0x31, 0x38, 0x7E] VK_F7 0x00 0 0,  -- ESC [ 1 8 ~
  key_translation.mk [0x1B, 0x5B, 0x31, 0x39, 0x7E] VK_F8 0x00 0 0,  -- ESC [ 1 9 ~
  key_translation.mk [0x1B, 0x5B, 0x32, 0x30, 0x7E] VK_F9 0x00 0 0,  -- ESC [ 2 0 ~
  key_translation.mk [0x1B, 0x5B, 0x32, 0x31, 0x7E] VK_F10 0x00 0 0,  -- ESC [ 2 1 ~
  key_translation.mk [0x1B, 0x5B, 0x32, 0x33, 0x7E] VK_F11 0x00 0 0,  -- ESC [ 2 3 ~
  key_translation.mk [0x1B, 0x5B, 0x32, 0x34, 0x7E] VK_F12 0x00 0 0,  -- ESC [ 2 4 ~
  key_translation.mk [0x1B, 0x4F, 0x41] VK_UP 0x00 0 0,  -- ESC O A
  key_translation.mk [0x1B, 0x4F, 0x42] VK_DOWN 0x00 0 0,  -- ESC O B
  key_translation.mk [0x1B, 0x4F, 0x43] VK_RIGHT 0x00 0 0,  -- ESC O C
  key_translation.mk [0x1B, 0x4F, 0x44] VK_LEFT 0x00 0 0,  -- ESC O D
  key_translation.mk [0x1B, 0x4F, 0x46] VK_END 0x00 0 0,  -- ESC O F
  key_translation.mk [0x1B, 0x4F, 0x48] VK_HOME 0x00 0 0,  -- ESC O H
  key_translation.mk [0x1B, 0x4F, 0x50] VK_F1 0x00 0 0,  -- ESC O P
  key_translation.mk [0x1B, 0x4F, 0x51] VK_F2 0x00 0 0,  -- ESC O Q
  key_translation.mk [0x1B, 0x4F, 0x52] VK_F3 0x00 0 0,  -- ESC O R
  key_translation.mk [0x1B, 0x4F, 0x53] VK_F4 0x00 0 0,  -- ESC O S
  key_translation.mk [0x01] VK_A 0x01 0 LEFT_CTRL_PRESSED,  -- 0x01
  key_translation.mk [0x02] VK_B 0x02 0 LEFT_CTRL_PRESSED,  -- 0x02
  key_translation.mk [0x04] VK_D 0x04 0 LEFT_CTRL_PRESSED,  -- 0x04
  key_translation.mk [0x05] VK_E 0x05 0 LEFT_CTRL_PRESSED,  -- 0x05
  key_translation.mk [0x06] VK_F 0x06 0 LEFT_CTRL_PRESSED,  -- 0x06
  key_translation.mk [0x07] VK_G 0x07 0 LEFT_CTRL_PRESSED,  -- 0x07
  key_translation.mk [0x08] VK_H 0x08 0 LEFT_CTRL_PRESSED,  -- 0x08
  key_translation.mk [0x09] VK_I 0x09 0 LEFT_CTRL_PRESSED,  -- 0x09
  key_translation.mk [0x0A] VK_J 0x0A 0 LEFT_CTRL_PRESSED,  -- 0x0A
  key_translation.mk [0x0B] VK_K 0x0B 0 LEFT_CTRL_PRESSED,  -- 0x0B
  key_translation.mk [0x0C] VK_L 0x0C 0 LEFT_CTRL_PRESSED,  -- 0x0C
  key_translation.mk [0x0D] VK_M 0x0D 0 LEFT_CTRL_PRESSED,  -- 0x0D
  key_translation.mk [0x0E] VK_N 0x0E 0 LEFT_CTRL_PRESSED,  -- 0x0E
  key_translation.mk [0x0F] VK_O 0x0F 0 LEFT_CTRL_PRESSED,  -- 0x0F
  key_translation.mk [0x10] VK_P 0x10 0 LEFT_CTRL_PRESSED,  -- 0x10
  key_translation.mk [0x11] VK_Q 0x11 0 LEFT_CTRL_PRESSED,  -- 0x11
  key_translation.mk [0x12] VK_R 0x12 0 LEFT_CTRL_PRESSED,  -- 0x12
  key_translation.mk [0x13] VK_S 0x13 0 LEFT_CTRL_PRESSED,  -- 0x13
  key_translation.mk [0x14] VK_T 0x14 0 LEFT_CTRL_PRESSED,  -- 0x14
  key_translation.mk [0x15] VK_U 0x15 0 LEFT_CTRL_PRESSED,  -- 0x15
  key_translation.mk [0x16] VK_V 0x16 0 LEFT_CTRL_PRESSED,  -- 0x16
  key_translation.mk [0x17] VK_W 0x17 0 LEFT_CTRL_PRESSED,  -- 0x17
  key_translation.mk [0x18] VK_X 0x18 0 LEFT_CTRL_PRESSED,  -- 0x18
  key_translation.mk [0x19] VK_Y 0x19 0 LEFT_CTRL_PRESSED,  -- 0x19
  key_translation.mk [0x1A] VK_Z 0x1A 0 LEFT_CTRL_PRESSED,  -- 0x1A
  key_translation.mk [0x1B, 0x61] VK_A 0x61 0 LEFT_ALT_PRESSED,  -- ESC a
  key_translation.mk [0x1B, 0x62] VK_B 0x62 0 LEFT_ALT_PRESSED,  -- ESC b
  key_translation.mk [0x1B, 0x63] VK_C 0x63 0 LEFT_ALT_PRESSED,  -- ESC c
  key_translation.mk [0x1B, 0x64] VK_D 0x64 0 LEFT_ALT_PRESSED,  -- ESC d
  key_translation.mk [0x1B, 0x65] VK_E 0x65 0 LEFT_ALT_PRESSED,  -- ESC e
  key_translation.mk [0x1B, 0x66] VK_F 0x66 0 LEFT_ALT_PRESSED,  -- ESC f
  key_translation.mk [0x1B, 0x67] VK_G 0x67 0 LEFT_ALT_PRESSED,  -- ESC g
  key_translation.mk [0x1B, 0x68] VK_H 0x68 0 LEFT_ALT_PRESSED,  -- ESC h
  key_translation.mk [0x1B, 0x69] VK_I 0x69 0 LEFT_ALT_PRESSED,  -- ESC i
  key_translation.mk [0x1B, 0x6A] VK_J 0x6A 0 LEFT_ALT_PRESSED,  -- ESC j
  key_translation.mk [0x1B, 0x6B] VK_K 0x6B 0 LEFT_ALT_PRESSED,  -- ESC k
  key_translation.mk [0x1B, 0x6C] VK_L 0x6C 0 LEFT_ALT_PRESSED,  -- ESC l
  key_translation.mk [0x1B, 0x6D] VK_M 0x6D 0 LEFT_ALT_PRESSED,  -- ESC m
  key_translation.mk [0x1B, 0x6E] VK_N 0x6E 0 LEFT_ALT_PRESSED,  -- ESC n
  key_translation.mk [0x1B, 0x6F] VK_O 0x6F 0 LEFT_ALT_PRESSED,  -- ESC o
  key_translation.mk [0x1B, 0x70] VK_P 0x70 0 LEFT_ALT_PRESSED,  -- ESC p
  key_translation.mk [0x1B, 0x71] VK_Q 0x71 0 LEFT_ALT_PRESSED,  -- ESC q
  key_translation.mk [0x1B, 0x72] VK_R 0x72 0 LEFT_ALT_PRESSED,  -- ESC r
  key_translation.mk [0x1B, 0x73] VK_S 0x73 0 LEFT_ALT_PRESSED,  -- ESC s
  key_translation.mk [0x1B, 0x74] VK_T 0x74 0 LEFT_ALT_PRESSED,  -- ESC t
  key_translation.mk [0x1B, 0x75] VK_U 0x75 0 LEFT_ALT_PRESSED,  -- ESC u
  key_translation.mk [0x1B, 0x76] VK_V 0x76 0 LEFT_ALT_PRESSED,  -- ESC v
  key_translation.mk [0x1B, 0x77] VK_W 0x77 0 LEFT_ALT_PRESSED,  -- ESC w
  key_translation.mk [0x1B, 0x78] VK_X 0x78 0 LEFT_ALT_PRESSED,  -- ESC x
  key_translation.mk [0x1B, 0x79] VK_Y 0x79 0 LEFT_ALT_PRESSED,  -- ESC y
  key_translation.mk [0x1B, 0x7A] VK_Z 0x7A 0 LEFT_ALT_PRESSED,  -- ESC z
  key_translation.mk [0x1B, 0x30] VK_0 0x30 0 LEFT_ALT_PRESSED,  -- ESC 0
  key_translation.mk [0x1B, 0x31] VK_1 0x31 0 LEFT_ALT_PRESSED,  -- ESC 1
  key_translation.mk [0x1B, 0x32] VK_2 0x32 0 LEFT_ALT_PRESSED,  -- ESC 2
  key_translation.mk [0x1B, 0x33] VK_3 0x33 0 LEFT_ALT_PRESSED,  -- ESC 3
  key_translation.mk [0x1B, 0x34] VK_4 0x34 0 LEFT_ALT_PRESSED,  -- ESC 4
  key_translation.mk [0x1B, 0x35] VK_5 0x35 0 LEFT_ALT_PRESSED,  -- ESC 5
  key_translation.mk [0x1B, 0x36] VK_6 0x36 0 LEFT_ALT_PRESSED,  -- ESC 6
  key_translation.mk [0x1B, 0x37] VK_7 0x37 0 LEFT_ALT_PRESSED,  -- ESC 7
  key_translation.mk [0x1B, 0x38] VK_8 0x38 0 LEFT_ALT_PRESSED,  -- ESC 8
  key_translation.mk [0x1B, 0x39] VK_9 0x39 0 LEFT_ALT_PRESSED,  -- ESC 9
  key_translation.mk [0x1B, 0x21] VK_1 0x21 0 (LEFT_ALT_PRESSED ||| SHIFT_PRESSED),  -- ESC !
  key_translation.mk [0x1B, 0x40] VK_2 0x40 0 (LEFT_ALT_PRESSED ||| SHIFT_PRESSED),  -- ESC @
  key_translation.mk [0x1B, 0x23] VK_3 0x23 0 (LEFT_ALT_PRESSED ||| SHIFT_PRESSED),  -- ESC #
  key_translation.mk [0x1B, 0x24] VK_4 0x24 0 (LEFT_ALT_PRESSED ||| SHIFT_PRESSED),  -- ESC $
  key_translation.mk [0x1B, 0x25] VK_5 0x25 0 (LEFT_ALT_PRESSED ||| SHIFT_PRESSED),  -- ESC %
  key_translation.mk [0x1B, 0x5E] VK_6 0x5E 0 (LEFT_ALT_PRESSED ||| SHIFT_PRESSED),  -- ESC ^
  key_translation.mk [0x1B, 0x26] VK_7 0x26 0 (LEFT_ALT_PRESSED ||| SHIFT_PRESSED),  -- ESC &
  key_translation.mk [0x1B, 0x2A] VK_8 0x2A 0 (LEFT_ALT_PRESSED ||| SHIFT_PRESSED),  -- ESC *
  key_translation.mk [0x1B, 0x28] VK_9 0x28 0 (LEFT_ALT_PRESSED ||| SHIFT_PRESSED),  -- ESC (
  key_translation.mk [0x1B, 0x29] VK_0 0x29 0 (LEFT_ALT_PRESSED ||| SHIFT_PRESSED)  -- ESC )
]

/-! ## Wide-string primitives -/

/-- Unit `i` of a wide string; the terminator at or past its end. -/
def wcharAt (s : List Nat) (i : Nat) : Nat := s.getD i 0

/-- Length of a wide string: `wcslen`. -/
def wcslen (s : List Nat) : Nat := s.length

/-- Length of a wide string, capped at `n`: `wcsnlen`. -/
def wcsnlen (s : List Nat) (n : Nat) : Nat := min (wcslen s) n

/-- Comparison of at most `n` units, stopping after a common terminator:
`wcsncmp`.  The result is negative, zero or positive. -/
def wcsncmp : List Nat → List Nat → Nat → Int
  | _, _, 0 => 0
  | a, b, n + 1 =>
    if wcharAt a 0 < wcharAt b 0 then -1
    else if wcharAt a 0 > wcharAt b 0 then 1
    else if wcharAt a 0 = 0 then 0
    else wcsncmp a.tail b.tail n

/-- White space of the C locale: `iswspace` on the units the parser can
meet. -/
def iswspace (c : Nat) : Bool := c == 0x20 || (0x09 ≤ c && c ≤ 0x0D)

/-- Value of the leading run of decimal digits, `acc` being the value read so
far. -/
def wtoiDigits : List Nat → Nat → Nat
  | [], acc => acc
  | c :: cs, acc =>
    if 0x30 ≤ c ∧ c ≤ 0x39 then wtoiDigits cs (acc * 10 + (c - 0x30)) else acc

/-- Conversion of the leading integer of a wide string: `_wtoi`.  White space
is skipped, one sign is accepted, then decimal digits are read up to the first
other unit.  Saturation of values that do not fit an `int` is not modelled. -/
def _wtoi (s : List Nat) : Int :=
  match s.dropWhile iswspace with
  | 0x2D :: r => - (wtoiDigits r 0 : Int)
  | 0x2B :: r => (wtoiDigits r 0 : Int)
  | r => (wtoiDigits r 0 : Int)

/-- Letters of the C locale: `isalpha`. -/
def isalpha (c : Nat) : Bool := (0x41 ≤ c && c ≤ 0x5A) || (0x61 ≤ c && c ≤ 0x7A)

/-! ## Key table lookup -/

/-- The loop of `initialize_keylen`: every `in_key_len` becomes
`wcsnlen(keys[i].in, _countof(keys[i].in))`, the array holding 8 units. -/
def initialize_keylen (ks : List key_translation) : List key_translation :=
  ks.map fun k => { k with in_key_len := wcsnlen k.in_ 8 }

/-- Scan of `FindKeyTransByMask`, one table row per step, the `continue`
tests in the order of the source. -/
def FindKeyTransByMask (ks : List key_translation) (prefix_ : Nat) (value : List Nat)
    (vlen : Nat) (suffix : Nat) : Option key_translation :=
  match ks with
  | [] => none
  | k :: rest =>
    if k.in_key_len < vlen + 2 then FindKeyTransByMask rest prefix_ value vlen suffix
    else if wcharAt k.in_ 0 ≠ ESC then FindKeyTransByMask rest prefix_ value vlen suffix
    else if wcharAt k.in_ 1 ≠ prefix_ then FindKeyTransByMask rest prefix_ value vlen suffix
    else if wcharAt k.in_ (vlen + 2) ≠ suffix then
      FindKeyTransByMask rest prefix_ value vlen suffix
    else if vlen ≤ 1 ∧ wcharAt value 0 = wcharAt k.in_ 2 then some k
    else if vlen > 1 ∧ wcsncmp (k.in_.drop 2) value vlen = 0 then some k
    else FindKeyTransByMask rest prefix_ value vlen suffix

/-- Virtual key of the row found by `FindKeyTransByMask`, `0` without one:
`GetVirtualKeyByMask`. -/
def GetVirtualKeyByMask (ks : List key_translation) (prefix_ : Nat) (value : List Nat)
    (vlen : Nat) (suffix : Nat) : Nat :=
  match FindKeyTransByMask ks prefix_ value vlen suffix with
  | some pk => pk.vk
  | none => 0

/-! ## Key strokes -/

/-- One input record written to the child: `SendKeyStrokeEx`.  The virtual
key is stored in a 16-bit field. -/
def SendKeyStrokeEx (vKey : Nat) (character : Nat) (ctrlState : Nat) (keyDown : Bool) :
    List ConsoleInput :=
  [ConsoleInput.WriteConsoleInputW
    { bKeyDown := keyDown, wRepeatCount := 1, wVirtualKeyCode := vKey % 2 ^ 16,
      UnicodeChar := character, dwControlKeyState := ctrlState }]

/-- A key-down record followed by the matching key-up record:
`SendKeyStroke`. -/
def SendKeyStroke (keyStroke : Nat) (character : Nat) (ctrlState : Nat) : List ConsoleInput :=
  SendKeyStrokeEx keyStroke character ctrlState true ++
    SendKeyStrokeEx keyStroke character ctrlState false

/-! ## Escape-sequence decoder -/

/-- Decoder of the modifier-suffixed forms: `ProcessModifierKeySequence`.
Returns the records sent to the child and the function result `vkey`. -/
def ProcessModifierKeySequence (ks : List key_translation) (buf : List Nat) (buf_len : Nat) :
    List ConsoleInput × Nat :=
  if buf_len < MIN_CTRL_SEQ_LEN then ([], 0)
  else
    let modifier_key := _wtoi (buf.drop (buf_len - 2))
    if modifier_key < 2 ∧ modifier_key > 7 then ([], 0)
    else if wcharAt buf 0 = ESC ∧ wcharAt buf 1 = 0x5B ∧ wcharAt buf (buf_len - 3) = 0x3B then
      let vkey :=
        if wcharAt buf (buf_len - 1) = 0x7E then
          let v1 := if buf_len = 6 then GetVirtualKeyByMask ks 0x5B (buf.drop 2) 1 0x7E else 0
          if v1 = 0 ∧ buf_len = 7 then GetVirtualKeyByMask ks 0x5B (buf.drop 2) 2 0x7E else v1
        else
          let v1 :=
            if buf_len = 6 ∧ wcharAt buf 2 = 0x31 then
              GetVirtualKeyByMask ks 0x5B (buf.drop 5) 1 0
            else 0
          if v1 = 0 ∧ buf_len = 6 ∧ wcharAt buf 2 = 0x31 ∧ isalpha (wcharAt buf 5) = true then
            GetVirtualKeyByMask ks 0x4F (buf.drop 5) 1 0
          else v1
      let sent :=
        if vkey ≠ 0 then
          if modifier_key = 2 then SendKeyStroke vkey 0 SHIFT_PRESSED
          else if modifier_key = 3 then SendKeyStroke vkey 0 LEFT_ALT_PRESSED
          else if modifier_key = 4 then SendKeyStroke vkey 0 (SHIFT_PRESSED ||| LEFT_ALT_PRESSED)
          else if modifier_key = 5 then SendKeyStroke vkey 0 LEFT_CTRL_PRESSED
          else if modifier_key = 6 then SendKeyStroke vkey 0 (SHIFT_PRESSED ||| LEFT_CTRL_PRESSED)
          else if modifier_key = 7 then
            SendKeyStroke vkey 0 (LEFT_CTRL_PRESSED ||| LEFT_ALT_PRESSED)
          else []
        else []
      (sent, vkey)
    else ([], 0)

/-- Scan of `CheckKeyTranslations` from row `j` on: the index of the first
row whose `in_key_len` units open the buffer. -/
def CheckKeyTranslationsFrom (buf : List Nat) (buf_len : Nat) :
    List key_translation → Nat → Option Nat
  | [], _ => none
  | k :: rest, j =>
    if buf_len ≥ k.in_key_len ∧ wcsncmp buf k.in_ k.in_key_len = 0 then some j
    else CheckKeyTranslationsFrom buf buf_len rest (j + 1)

/-- Table match at the head of the buffer: `CheckKeyTranslations`.  The
result `some j` stands for the return value 1 with `*index = j`, `none` for
the return value 0. -/
def CheckKeyTranslations (ks : List key_translation) (buf : List Nat) (buf_len : Nat) :
    Option Nat :=
  CheckKeyTranslationsFrom buf buf_len ks 0

/-- Row `j` of the table: `keys[j]`. -/
def keyAt (ks : List key_translation) (j : Nat) : key_translation :=
  ks.getD j { in_ := [], vk := 0, out := 0, in_key_len := 0, ctrlState := 0 }

/-- One pass through the body of the `while` loop of `ProcessIncomingKeys` on
a non-empty buffer: the records sent to the child and the buffer left after
the pointer has advanced. -/
def ProcessIncomingKeysStep (ks : List key_translation) (buf : List Nat) :
    List ConsoleInput × List Nat :=
  let buf_len := wcslen buf
  match CheckKeyTranslations ks buf buf_len with
  | some j =>
    (SendKeyStroke (keyAt ks j).vk (keyAt ks j).out (keyAt ks j).ctrlState,
      buf.drop (keyAt ks j).in_key_len)
  | none =>
    let r7 :=
      if buf_len ≥ MAX_CTRL_SEQ_LEN then ProcessModifierKeySequence ks buf MAX_CTRL_SEQ_LEN
      else ([], 0)
    if r7.2 ≠ 0 then (r7.1, buf.drop MAX_CTRL_SEQ_LEN)
    else
      let r6 :=
        if buf_len ≥ MAX_CTRL_SEQ_LEN - 1 then
          ProcessModifierKeySequence ks buf (MAX_CTRL_SEQ_LEN - 1)
        else ([], 0)
      if r6.2 ≠ 0 then (r7.1 ++ r6.1, buf.drop (MAX_CTRL_SEQ_LEN - 1))
      else if wcsncmp buf [ESC] (wcslen [ESC]) = 0 then
        let p := buf.drop (wcslen [ESC])
        match CheckKeyTranslations ks p (buf_len - wcslen [ESC]) with
        | some j =>
          if (keyAt ks j).ctrlState &&& LEFT_ALT_PRESSED = 0 then
            (r7.1 ++ r6.1 ++
                SendKeyStroke (keyAt ks j).vk (keyAt ks j).out
                  ((keyAt ks j).ctrlState ||| LEFT_ALT_PRESSED),
              buf.drop (wcslen [ESC] + (keyAt ks j).in_key_len))
          else
            (r7.1 ++ r6.1 ++ SendKeyStroke VK_ESCAPE 0x1B 0, buf.drop (wcslen [ESC]))
        | none => (r7.1 ++ r6.1 ++ SendKeyStroke VK_ESCAPE 0x1B 0, buf.drop (wcslen [ESC]))
      else if wcharAt buf 0 = 0x03 then
        (r7.1 ++ r6.1 ++ [ConsoleInput.GenerateConsoleCtrlEvent CTRL_C_EVENT 0], buf.drop 1)
      else (r7.1 ++ r6.1 ++ SendKeyStroke 0 (wcharAt buf 0) 0, buf.drop 1)

/-- The `while` loop of `ProcessIncomingKeys`, run for at most `fuel` passes:
`none` when the passes are used up before the buffer is empty. -/
def ProcessIncomingKeysLoop (ks : List key_translation) : Nat → List Nat → Option (List ConsoleInput)
  | 0, _ => none
  | fuel + 1, buf =>
    if wcslen buf > 0 then
      match ProcessIncomingKeysLoop ks fuel (ProcessIncomingKeysStep ks buf).2 with
      | some sent => some ((ProcessIncomingKeysStep ks buf).1 ++ sent)
      | none => none
    else some []

/-- The decoder `ProcessIncomingKeys` on the buffer obtained from
`utf8_to_utf16`, a function that is not part of these sources.  A pass that
consumes at least one unit needs no more than `wcslen buf + 1` passes. -/
def ProcessIncomingKeys (ks : List key_translation) (buf : List Nat) : Option (List ConsoleInput) :=
  ProcessIncomingKeysLoop ks (wcslen buf + 1) buf

/-! ## Character renderer -/

def FOREGROUND_BLUE : Nat := 0x0001
def FOREGROUND_GREEN : Nat := 0x0002
def FOREGROUND_RED : Nat := 0x0004
def FOREGROUND_INTENSITY : Nat := 0x0008
def BACKGROUND_BLUE : Nat := 0x0010
def BACKGROUND_GREEN : Nat := 0x0020
def BACKGROUND_RED : Nat := 0x0040
def BACKGROUND_INTENSITY : Nat := 0x0080
def COMMON_LVB_TRAILING_BYTE : Nat := 0x0200
def COMMON_LVB_REVERSE_VIDEO : Nat := 0x4000
def COMMON_LVB_UNDERSCORE : Nat := 0x8000

/-- Digits of `n`, most significant first, in front of `acc`; `fuel` bounds
the number of digits. -/
def utoaAux : Nat → Nat → List Nat → List Nat
  | 0, _, acc => acc
  | fuel + 1, n, acc =>
    if n / 10 = 0 then (0x30 + n % 10) :: acc
    else utoaAux fuel (n / 10) ((0x30 + n % 10) :: acc)

/-- The characters produced by the conversion `%u`. -/
def fmt_u (n : Nat) : List Nat := utoaAux (n + 1) n []

/-- The value of a C comparison used as an integer: 1 when it holds, else 0. -/
def boolToInt (b : Bool) : Nat := if b then 1 else 0

/-- The bytes `WideCharToMultiByte(CP_UTF8, 0, &character, 1, ...)` stores for
one UTF-16 unit: its UTF-8 form, and the form of U+FFFD for a unit of the
surrogate range, which has none on its own. -/
def WideCharToMultiByte (character : Nat) : List Nat :=
  if character < 0x80 then [character]
  else if character < 0x800 then [0xC0 ||| (character >>> 6), 0x80 ||| (character &&& 0x3F)]
  else if 0xD800 ≤ character ∧ character ≤ 0xDFFF then [0xEF, 0xBF, 0xBD]
  else
    [0xE0 ||| (character >>> 12), 0x80 ||| ((character >>> 6) &&& 0x3F),
      0x80 ||| (character &&& 0x3F)]

/-- The attribute sequence `SendCharacter` formats into `formatted_output`
before it decides whether to write it. -/
def formatted_output (attributes : Nat) : List Nat :=
  let c1 := if attributes &&& FOREGROUND_INTENSITY ≠ 0 then 1 else 0
  let c2 := if attributes &&& BACKGROUND_INTENSITY ≠ 0 then 1 else 39
  let c3 := if attributes &&& COMMON_LVB_UNDERSCORE ≠ 0 then 4 else 24
  let c4 := if attributes &&& COMMON_LVB_REVERSE_VIDEO ≠ 0 then 7 else 27
  let c5 :=
    30 + 4 * boolToInt (attributes &&& FOREGROUND_BLUE != 0) +
      2 * boolToInt (attributes &&& FOREGROUND_GREEN != 0) +
      1 * boolToInt (attributes &&& FOREGROUND_RED != 0)
  let c6 :=
    40 + 4 * boolToInt (attributes &&& BACKGROUND_BLUE != 0) +
      2 * boolToInt (attributes &&& BACKGROUND_GREEN != 0) +
      1 * boolToInt (attributes &&& BACKGROUND_RED != 0)
  [0x1B, 0x5B] ++ fmt_u c1 ++ [0x3B] ++ fmt_u c2 ++ [0x3B] ++ fmt_u c3 ++ [0x3B] ++ fmt_u c4 ++
    [0x3B] ++ fmt_u c5 ++ [0x3B] ++ fmt_u c6 ++ [0x6D]

/-- The renderer of one cell: `SendCharacter`.  `pattributes` is the static
local that remembers the attributes of the previous call.  The result is the
list of `WriteFile` payloads, in order, and the new value of `pattributes`. -/
def SendCharacter (bUseAnsiEmulation : Bool) (pattributes : Nat) (attributes : Nat)
    (character : Nat) : List (List Nat) × Nat :=
  if character = 0 then ([], pattributes)
  else
    let w1 :=
      if bUseAnsiEmulation = true ∧ attributes ≠ pattributes then [formatted_output attributes]
      else []
    let w2 :=
      if attributes &&& COMMON_LVB_TRAILING_BYTE = 0 then
        let str := WideCharToMultiByte character
        if str.length > 0 then [str] else []
      else []
    (w1 ++ w2, attributes)

/-! ## Fixed output sequences and cursor positioning -/

/-- The characters produced by the conversion `%d`. -/
def fmt_d (n : Int) : List Nat :=
  if n < 0 then 0x2D :: fmt_u (-n).toNat else fmt_u n.toNat

/-- A line feed, when ANSI emulation is enabled: `SendLF`. -/
def SendLF (bUseAnsiEmulation : Bool) : List (List Nat) :=
  if bUseAnsiEmulation then [[0x0A]] else []

/-- The sequence `ESC [ 2 J`, when ANSI emulation is enabled:
`SendClearScreen`. -/
def SendClearScreen (bUseAnsiEmulation : Bool) : List (List Nat) :=
  if bUseAnsiEmulation then [[0x1B, 0x5B, 0x32, 0x4A]] else []

/-- The sequence `ESC [ 1 J`, when ANSI emulation is enabled:
`SendClearScreenFromCursor`. -/
def SendClearScreenFromCursor (bUseAnsiEmulation : Bool) : List (List Nat) :=
  if bUseAnsiEmulation then [[0x1B, 0x5B, 0x31, 0x4A]] else []

/-- The sequence `ESC [ ? 2 5 l`, when ANSI emulation is enabled:
`SendHideCursor`. -/
def SendHideCursor (bUseAnsiEmulation : Bool) : List (List Nat) :=
  if bUseAnsiEmulation then [[0x1B, 0x5B, 0x3F, 0x32, 0x35, 0x6C]] else []

/-- The sequence `ESC [ ? 2 5 h`, when ANSI emulation is enabled:
`SendShowCursor`. -/
def SendShowCursor (bUseAnsiEmulation : Bool) : List (List Nat) :=
  if bUseAnsiEmulation then [[0x1B, 0x5B, 0x3F, 0x32, 0x35, 0x68]] else []

/-- The sequence `ESC [ 6 n`, when ANSI emulation is enabled:
`SendCursorPositionRequest`. -/
def SendCursorPositionRequest (bUseAnsiEmulation : Bool) : List (List Nat) :=
  if bUseAnsiEmulation then [[0x1B, 0x5B, 0x36, 0x6E]] else []

/-- The cursor move formatted as `ESC [ %d ; %d H` from `Y` then `X`, written
when the formatted length is positive and ANSI emulation is enabled:
`SendSetCursor`. -/
def SendSetCursor (bUseAnsiEmulation : Bool) (X : Int) (Y : Int) : List (List Nat) :=
  let formatted := [0x1B, 0x5B] ++ fmt_d Y ++ [0x3B] ++ fmt_d X ++ [0x48]
  let out := formatted.length
  if out > 0 ∧ bUseAnsiEmulation = true then [formatted] else []

/-- One cell of the console screen buffer: `CHAR_INFO`. -/
structure CHAR_INFO where
  UnicodeChar : Nat
  Attributes : Nat
deriving DecidableEq

/-- The loop of `SendBuffer` from cell `i` on, `n` cells to go: the writes and
the attributes remembered by `SendCharacter` afterwards.  A cell past the end
of the list reads as a zeroed cell. -/
def SendBufferFrom (bUseAnsiEmulation : Bool) (buffer : List CHAR_INFO) :
    Nat → Nat → Nat → List (List Nat) × Nat
  | 0, _, pattributes => ([], pattributes)
  | n + 1, i, pattributes =>
    let cell := buffer.getD i { UnicodeChar := 0, Attributes := 0 }
    let r := SendCharacter bUseAnsiEmulation pattributes cell.Attributes cell.UnicodeChar
    let rest := SendBufferFrom bUseAnsiEmulation buffer n (i + 1) r.2
    (r.1 ++ rest.1, rest.2)

/-- The renderer of a block of cells: `SendBuffer`. -/
def SendBuffer (bUseAnsiEmulation : Bool) (pattributes : Nat) (buffer : List CHAR_INFO)
    (bufferSize : Nat) : List (List Nat) × Nat :=
  if bufferSize ≤ 0 then ([], pattributes)
  else SendBufferFrom bUseAnsiEmulation buffer bufferSize 0 pattributes

/-- The `for` loop of `CalculateAndSetCursor`, run for at most `fuel` passes:
one line feed per pass while `n < y`. -/
def SendLFLoop (bUseAnsiEmulation : Bool) : Nat → Int → Int → List (List Nat)
  | 0, _, _ => []
  | fuel + 1, n, y =>
    if n < y then SendLF bUseAnsiEmulation ++ SendLFLoop bUseAnsiEmulation fuel (n + 1) y
    else []

/-- Cursor positioning with optional line feeds: `CalculateAndSetCursor`, on
the tracked line `currentLine`.  The result is the writes and the new value of
`currentLine`.  The arguments and `currentLine` are of type `short`, which
takes 65536 values, so that the loop makes fewer than 65536 passes. -/
def CalculateAndSetCursor (bUseAnsiEmulation : Bool) (currentLine : Int) (x : Int) (y : Int)
    (scroll : Bool) : List (List Nat) × Int :=
  let lf :=
    if scroll = true ∧ y > currentLine then SendLFLoop bUseAnsiEmulation 65536 currentLine y
    else []
  (lf ++ SendSetCursor bUseAnsiEmulation (x + 1) (y + 1), y)

/-! ## Console events -/

def EVENT_CONSOLE_CARET : Nat := 0x4001
def EVENT_CONSOLE_UPDATE_REGION : Nat := 0x4002
def EVENT_CONSOLE_UPDATE_SIMPLE : Nat := 0x4003
def EVENT_CONSOLE_UPDATE_SCROLL : Nat := 0x4004
def EVENT_CONSOLE_LAYOUT : Nat := 0x4005

def ERROR_SUCCESS : Nat := 0
def ERROR_INVALID_PARAMETER : Nat := 87

def MAX_CONSOLE_COLUMNS : Int := 9999
def MAX_CONSOLE_ROWS : Int := 9999
def MAX_EXPECTED_BUFFER_SIZE : Nat := 1024

/-- The handle value `INVALID_HANDLE_VALUE`; the null handle is 0. -/
def INVALID_HANDLE_VALUE : Int := -1

structure COORD where
  X : Int
  Y : Int
deriving DecidableEq

structure SMALL_RECT where
  Left : Int
  Top : Int
  Right : Int
  Bottom : Int
deriving DecidableEq

/-- The fields of `CONSOLE_SCREEN_BUFFER_INFOEX` the host reads. -/
structure CONSOLE_SCREEN_BUFFER_INFOEX where
  dwSize : COORD
  dwCursorPosition : COORD
  srWindow : SMALL_RECT
  dwMaximumWindowSize : COORD
deriving DecidableEq

/-- A queued notification: `consoleEvent`.  The links `prior` and `next` are
addresses, 0 for the null pointer. -/
structure consoleEvent where
  event : Nat
  hwnd : Nat
  idObject : Int
  idChild : Int
  prior : Nat
  next : Nat
deriving DecidableEq

/-- The 32 bits of a `LONG`, as an unsigned number. -/
def dwordOfLong (l : Int) : Nat := (l % 2 ^ 32).toNat

/-- The low 16 bits of a `LONG`: `LOWORD`. -/
def LOWORD (l : Int) : Nat := dwordOfLong l % 2 ^ 16

/-- Bits 16 to 31 of a `LONG`: `HIWORD`. -/
def HIWORD (l : Int) : Nat := dwordOfLong l / 2 ^ 16 % 2 ^ 16

/-- The value an `int` takes when it is stored in a `SHORT`: its low 16 bits,
read as a signed number. -/
def toSHORT (z : Int) : Int := (z + 2 ^ 15) % 2 ^ 16 - 2 ^ 15

/-- The value an `int` takes when it is stored in a `DWORD` or `UINT`. -/
def toDWORD (z : Int) : Nat := (z % 2 ^ 32).toNat

/-- The process-wide variables read or written while an event is processed. -/
structure HostState where
  lastX : Int
  lastY : Int
  currentLine : Int
  ViewPortY : Nat
  lastViewPortY : Nat
  savedViewPortY : Nat
  savedLastViewPortY : Nat
  bStartup : Bool
  bFullScreen : Bool
  bUseAnsiEmulation : Bool
  pattributes : Nat
  lastLineLength : Nat
  consoleInfo : CONSOLE_SCREEN_BUFFER_INFOEX
  nextConsoleInfo : CONSOLE_SCREEN_BUFFER_INFOEX
  child_out : Int
  childProcessId : Nat

/-- What the operating system answers during one call of `ProcessEvent`:
the process that owns a window, the screen buffer information stored in
`consoleInfo`, the information seen by `ConSRWidth`, the outcome of
`ReadConsoleOutput` on a buffer size, buffer coordinate and region (`none`
for a failure, otherwise the cells of `pBuffer` and the region actually read),
and the value of `GetLastError`. -/
structure ConsoleApi where
  GetWindowThreadProcessId : Nat → Nat
  GetConsoleScreenBufferInfoEx : CONSOLE_SCREEN_BUFFER_INFOEX
  consoleBufferInfo : CONSOLE_SCREEN_BUFFER_INFOEX
  ReadConsoleOutput : COORD → COORD → SMALL_RECT → Option (List CHAR_INFO × SMALL_RECT)
  GetLastError : Nat

/-- The right edge of the live window: `ConSRWidth`. -/
def ConSRWidth (api : ConsoleApi) : Int := api.consoleBufferInfo.srWindow.Right

/-- What one call of `ProcessEvent` does: the value returned, the writes to
the output pipe, the calls of `ReadConsoleOutput` with their arguments, and
the process-wide variables afterwards. -/
structure ProcessEventResult where
  ret : Nat
  written : List (List Nat)
  reads : List (COORD × COORD × SMALL_RECT)
  state : HostState

/-- The rectangle of a region update as `ProcessEvent` computes it: the four
words of the event stored in `SHORT` fields, the right edge raised to the
right edge of the live window. -/
def regionRect (api : ConsoleApi) (idObject : Int) (idChild : Int) : SMALL_RECT :=
  let Right0 := toSHORT (LOWORD idChild)
  { Top := toSHORT (HIWORD idObject),
    Left := toSHORT (LOWORD idObject),
    Bottom := toSHORT (HIWORD idChild),
    Right := toSHORT (if Right0 > ConSRWidth api then Right0 else ConSRWidth api) }

/-- The size of the block to read, as stored in the `SHORT` fields of
`coordBufSize`. -/
def regionBufSize (readRect : SMALL_RECT) : COORD :=
  { Y := toSHORT (readRect.Bottom - readRect.Top + 1),
    X := toSHORT (readRect.Right - readRect.Left + 1) }

/-- The case `EVENT_CONSOLE_UPDATE_REGION` of `ProcessEvent`, on the state in
which `consoleInfo` has been refreshed. -/
def ProcessEventRegion (api : ConsoleApi) (s : HostState) (idObject : Int) (idChild : Int) :
    ProcessEventResult :=
  let readRect := regionRect api idObject idChild
  if s.bStartup = false ∧
      (readRect.Top = s.consoleInfo.srWindow.Top ∨
        readRect.Top = s.nextConsoleInfo.srWindow.Top) ∧
      (s.consoleInfo.dwSize.X = readRect.Right + 1 ∧
        s.consoleInfo.dwSize.Y = readRect.Bottom + 1) then
    { ret := ERROR_SUCCESS, written := SendClearScreen s.bUseAnsiEmulation, reads := [],
      state := { s with ViewPortY := 0, lastViewPortY := 0 } }
  else
    let coordBufSize := regionBufSize readRect
    if coordBufSize.X < 0 ∨ coordBufSize.X > MAX_CONSOLE_COLUMNS ∨
        coordBufSize.Y < 0 ∨ coordBufSize.Y > MAX_CONSOLE_ROWS then
      { ret := ERROR_INVALID_PARAMETER, written := [], reads := [], state := s }
    else
      let bufferSize := toDWORD (coordBufSize.X * coordBufSize.Y)
      if bufferSize > MAX_EXPECTED_BUFFER_SIZE then
        if s.bStartup = false then
          { ret := ERROR_SUCCESS, written := SendClearScreen s.bUseAnsiEmulation, reads := [],
            state := { s with ViewPortY := 0, lastViewPortY := 0 } }
        else { ret := ERROR_SUCCESS, written := [], reads := [], state := s }
      else
        let coordBufCoord : COORD := { X := 0, Y := 0 }
        match api.ReadConsoleOutput coordBufSize coordBufCoord readRect with
        | none =>
          { ret := api.GetLastError, written := [],
            reads := [(coordBufSize, coordBufCoord, readRect)], state := s }
        | some (pBuffer, readRect2) =>
          let cur :=
            CalculateAndSetCursor s.bUseAnsiEmulation s.currentLine readRect2.Left readRect2.Top
              true
          let sent := SendBuffer s.bUseAnsiEmulation s.pattributes pBuffer bufferSize
          { ret := ERROR_SUCCESS, written := cur.1 ++ sent.1,
            reads := [(coordBufSize, coordBufCoord, readRect)],
            state :=
              { s with
                currentLine := cur.2, pattributes := sent.2, lastViewPortY := s.ViewPortY,
                lastLineLength := toDWORD readRect2.Left } }

/-- The case `EVENT_CONSOLE_CARET` of `ProcessEvent`. -/
def ProcessEventCaret (s : HostState) (idChild : Int) : ProcessEventResult :=
  let lastX := toSHORT (LOWORD idChild)
  let lastY := toSHORT (HIWORD idChild)
  let s1 := { s with lastX := lastX, lastY := lastY }
  if lastX = 0 ∧ lastY > s.currentLine then
    let cur := CalculateAndSetCursor s.bUseAnsiEmulation s.currentLine lastX lastY true
    { ret := ERROR_SUCCESS, written := cur.1, reads := [],
      state := { s1 with currentLine := cur.2 } }
  else
    { ret := ERROR_SUCCESS, written := SendSetCursor s.bUseAnsiEmulation (lastX + 1) (lastY + 1),
      reads := [], state := s1 }

/-- The case `EVENT_CONSOLE_UPDATE_SIMPLE` of `ProcessEvent`. -/
def ProcessEventSimple (api : ConsoleApi) (s : HostState) (idObject : Int) (idChild : Int) :
    ProcessEventResult :=
  let _chUpdate := LOWORD idChild
  let _wAttributes := HIWORD idChild
  let wX := LOWORD idObject
  let wY := HIWORD idObject
  let readRect : SMALL_RECT :=
    { Top := toSHORT wY, Bottom := toSHORT wY, Left := toSHORT wX,
      Right := toSHORT (ConSRWidth api) }
  let cur := CalculateAndSetCursor s.bUseAnsiEmulation s.currentLine (toSHORT wX) (toSHORT wY) true
  let coordBufSize := regionBufSize readRect
  let bufferSize := toDWORD (coordBufSize.X * coordBufSize.Y)
  let coordBufCoord : COORD := { X := 0, Y := 0 }
  match api.ReadConsoleOutput coordBufSize coordBufCoord readRect with
  | none =>
    { ret := api.GetLastError, written := cur.1,
      reads := [(coordBufSize, coordBufCoord, readRect)],
      state := { s with currentLine := cur.2 } }
  | some (pBuffer, _) =>
    let sent := SendBuffer s.bUseAnsiEmulation s.pattributes pBuffer bufferSize
    { ret := ERROR_SUCCESS, written := cur.1 ++ sent.1,
      reads := [(coordBufSize, coordBufCoord, readRect)],
      state := { s with currentLine := cur.2, pattributes := sent.2 } }

/-- The value of a `LONG` read from its 32 bits. -/
def toLONG (z : Int) : Int := (z + 2 ^ 31) % 2 ^ 32 - 2 ^ 31

/-- The case `EVENT_CONSOLE_UPDATE_SCROLL` of `ProcessEvent`: the offset
`ViewPortY` is an unsigned 32-bit number. -/
def ProcessEventScroll (s : HostState) (idChild : Int) : ProcessEventResult :=
  let vd := idChild
  let vn := toLONG (if vd < 0 then -vd else vd)
  if vd > 0 then
    if s.ViewPortY > 0 then
      { ret := ERROR_SUCCESS, written := [], reads := [],
        state := { s with ViewPortY := toDWORD ((s.ViewPortY : Int) - vn) } }
    else { ret := ERROR_SUCCESS, written := [], reads := [], state := s }
  else
    { ret := ERROR_SUCCESS, written := [], reads := [],
      state := { s with ViewPortY := toDWORD ((s.ViewPortY : Int) + vn) } }

/-- The case `EVENT_CONSOLE_LAYOUT` of `ProcessEvent`. -/
def ProcessEventLayout (s : HostState) : ProcessEventResult :=
  if s.consoleInfo.dwMaximumWindowSize.X = s.consoleInfo.dwSize.X ∧
      s.consoleInfo.dwMaximumWindowSize.Y = s.consoleInfo.dwSize.Y ∧
      (s.consoleInfo.dwCursorPosition.X = 0 ∧ s.consoleInfo.dwCursorPosition.Y = 0) then
    { ret := ERROR_SUCCESS, written := SendClearScreen s.bUseAnsiEmulation, reads := [],
      state :=
        { s with
          savedViewPortY := s.ViewPortY, savedLastViewPortY := s.lastViewPortY,
          ViewPortY := 0, lastViewPortY := 0, bFullScreen := true } }
  else if s.bFullScreen = true then
    { ret := ERROR_SUCCESS, written := SendClearScreen s.bUseAnsiEmulation, reads := [],
      state :=
        { s with
          ViewPortY := s.savedViewPortY, lastViewPortY := s.savedLastViewPortY,
          bFullScreen := false } }
  else { ret := ERROR_SUCCESS, written := [], reads := [], state := s }

/-- The dispatcher of one notification: `ProcessEvent`, on the event the
pointer `p` refers to, `none` for the null pointer. -/
def ProcessEvent (api : ConsoleApi) (s : HostState) (p : Option consoleEvent) :
    ProcessEventResult :=
  match p with
  | none => { ret := ERROR_INVALID_PARAMETER, written := [], reads := [], state := s }
  | some current =>
    if current.event < EVENT_CONSOLE_CARET ∨ current.event > EVENT_CONSOLE_LAYOUT then
      { ret := ERROR_INVALID_PARAMETER, written := [], reads := [], state := s }
    else if s.child_out = INVALID_HANDLE_VALUE ∨ s.child_out = 0 then
      { ret := ERROR_INVALID_PARAMETER, written := [], reads := [], state := s }
    else if s.childProcessId ≠ api.GetWindowThreadProcessId current.hwnd then
      { ret := ERROR_SUCCESS, written := [], reads := [], state := s }
    else
      let s1 := { s with consoleInfo := api.GetConsoleScreenBufferInfoEx }
      if current.event = EVENT_CONSOLE_CARET then ProcessEventCaret s1 current.idChild
      else if current.event = EVENT_CONSOLE_UPDATE_REGION then
        ProcessEventRegion api s1 current.idObject current.idChild
      else if current.event = EVENT_CONSOLE_UPDATE_SIMPLE then
        ProcessEventSimple api s1 current.idObject current.idChild
      else if current.event = EVENT_CONSOLE_UPDATE_SCROLL then
        ProcessEventScroll s1 current.idChild
      else if current.event = EVENT_CONSOLE_LAYOUT then ProcessEventLayout s1
      else { ret := ERROR_SUCCESS, written := [], reads := [], state := s1 }

/-! ## A console used in the instances of the event claims -/

/-- Screen buffer information of a console of 80 columns by 25 rows whose
window shows the whole buffer, the cursor at the origin. -/
def exampleInfo : CONSOLE_SCREEN_BUFFER_INFOEX :=
  { dwSize := { X := 80, Y := 25 }, dwCursorPosition := { X := 0, Y := 0 },
    srWindow := { Left := 0, Top := 0, Right := 79, Bottom := 24 },
    dwMaximumWindowSize := { X := 80, Y := 25 } }

/-- An operating system that reports `exampleInfo`, attributes every window
to process 7 and fills the read buffer with the cells `A`, `B` in white on
black and `C` in white on blue. -/
def exampleApi : ConsoleApi :=
  { GetWindowThreadProcessId := fun _ => 7,
    GetConsoleScreenBufferInfoEx := exampleInfo,
    consoleBufferInfo := exampleInfo,
    ReadConsoleOutput := fun _ _ readRect =>
      some ([{ UnicodeChar := 0x41, Attributes := 0x07 },
        { UnicodeChar := 0x42, Attributes := 0x07 },
        { UnicodeChar := 0x43, Attributes := 0x17 }], readRect),
    GetLastError := 0 }

/-- The variables of a host attached to child process 7, with a valid output
handle, ANSI emulation enabled, tracked line 0, viewport offsets 5 and 3, and
the given value of `bStartup`. -/
def exampleState (bStartup : Bool) : HostState :=
  { lastX := 0, lastY := 0, currentLine := 0, ViewPortY := 5, lastViewPortY := 3,
    savedViewPortY := 0, savedLastViewPortY := 0, bStartup := bStartup, bFullScreen := false,
    bUseAnsiEmulation := true, pattributes := 0, lastLineLength := 0,
    consoleInfo :=
      { dwSize := { X := 0, Y := 0 }, dwCursorPosition := { X := 0, Y := 0 },
        srWindow := { Left := 0, Top := 0, Right := 0, Bottom := 0 },
        dwMaximumWindowSize := { X := 0, Y := 0 } },
    nextConsoleInfo :=
      { dwSize := { X := 0, Y := 0 }, dwCursorPosition := { X := 0, Y := 0 },
        srWindow := { Left := 0, Top := 0, Right := 0, Bottom := 0 },
        dwMaximumWindowSize := { X := 0, Y := 0 } },
    child_out := 100, childProcessId := 7 }

/-- A region update of window 1 with the given words: `idObject` holds the
left column and the top row, `idChild` the right column and the bottom row. -/
def exampleRegionEvent (left top right bottom : Nat) : consoleEvent :=
  { event := EVENT_CONSOLE_UPDATE_REGION, hwnd := 1, idObject := (top * 65536 + left : Nat),
    idChild := (bottom * 65536 + right : Nat), prior := 0, next := 0 }

/-! ## Event queue -/

/-- The queue of notifications: the allocated events by address, and the
pointers `head` and `tail`, 0 for the null pointer. -/
structure EventQueue where
  heap : Nat → Option consoleEvent
  head : Nat
  tail : Nat

/-- The queue before any notification: `head = NULL`, `tail = NULL`, nothing
allocated. -/
def emptyQueue : EventQueue := { heap := fun _ => none, head := 0, tail := 0 }

/-- The heap with the cell at `addr` replaced. -/
def heapSet (heap : Nat → Option consoleEvent) (addr : Nat) (v : Option consoleEvent) :
    Nat → Option consoleEvent :=
  fun a => if a = addr then v else heap a

/-- The body of `QueueEvent` inside the critical section, `current` being the
address returned by `malloc`, 0 when the allocation fails. -/
def QueueEvent (q : EventQueue) (current : Nat) (event : Nat) (hwnd : Nat) (idObject : Int)
    (idChild : Int) : EventQueue :=
  if current ≠ 0 then
    if q.head = 0 then
      { heap :=
          heapSet q.heap current
            (some { event := event, hwnd := hwnd, idChild := idChild, idObject := idObject,
                    next := 0, prior := 0 }),
        head := current, tail := current }
    else
      let heap1 :=
        heapSet q.heap current
          (some { event := event, hwnd := hwnd, idChild := idChild, idObject := idObject,
                  next := 0, prior := q.tail })
      let heap2 :=
        match heap1 q.tail with
        | some t => heapSet heap1 q.tail (some { t with next := current })
        | none => heap1
      { heap := heap2, head := q.head, tail := current }
  else q

/-- One pass of the inner loop of `ProcessEventQueue` on a queue whose `head`
is not null: the head is unlinked inside the critical section, handed to
`ProcessEvent` and freed.  The result is the event handed over and the queue
afterwards; an empty queue is left as it is. -/
def DequeueEvent (q : EventQueue) : Option consoleEvent × EventQueue :=
  if q.head ≠ 0 then
    match q.heap q.head with
    | some current =>
      let q1 : EventQueue :=
        if current.next ≠ 0 then
          { heap :=
              match q.heap current.next with
              | some n => heapSet q.heap current.next (some { n with prior := 0 })
              | none => q.heap,
            head := current.next, tail := q.tail }
        else { heap := q.heap, head := 0, tail := 0 }
      (some current, { q1 with heap := heapSet q1.heap q.head none })
    | none => (none, q)
  else (none, q)

/-- A step of the producer or of the consumer: a call of `QueueEvent` with
the address its allocation returns, or one pass of the consumer loop. -/
inductive QueueOp where
  | enqueue (current : Nat) (event : Nat) (hwnd : Nat) (idObject : Int) (idChild : Int)
  | dequeue
deriving DecidableEq

/-- The events handed to `ProcessEvent`, in order, while the steps `ops` run
on the queue `q`. -/
def runQueue : EventQueue → List QueueOp → List consoleEvent
  | _, [] => []
  | q, QueueOp.enqueue current event hwnd idObject idChild :: ops =>
    runQueue (QueueEvent q current event hwnd idObject idChild) ops
  | q, QueueOp.dequeue :: ops =>
    match (DequeueEvent q).1 with
    | some current => current :: runQueue (DequeueEvent q).2 ops
    | none => runQueue (DequeueEvent q).2 ops

/-- Every allocation in `ops` succeeds with an address that is not allocated
at that moment. -/
def allocFresh : EventQueue → List QueueOp → Bool
  | _, [] => true
  | q, QueueOp.enqueue current event hwnd idObject idChild :: ops =>
    decide (current ≠ 0) && (q.heap current).isNone &&
      allocFresh (QueueEvent q current event hwnd idObject idChild) ops
  | q, QueueOp.dequeue :: ops => allocFresh (DequeueEvent q).2 ops

/-- The four values a notification is queued with. -/
def eventPayload (e : consoleEvent) : Nat × Nat × Int × Int :=
  (e.event, e.hwnd, e.idObject, e.idChild)

/-- The first-in first-out queue of the specification, on a list of
notifications: a call of `QueueEvent` appends at the tail, a pass of the
consumer removes the head, and the result is the notifications removed, in
order. -/
def fifoRun : List (Nat × Nat × Int × Int) → List QueueOp → List (Nat × Nat × Int × Int)
  | _, [] => []
  | l, QueueOp.enqueue _ event hwnd idObject idChild :: ops =>
    fifoRun (l ++ [(event, hwnd, idObject, idChild)]) ops
  | [], QueueOp.dequeue :: ops => fifoRun [] ops
  | p :: l, QueueOp.dequeue :: ops => p :: fifoRun l ops

/-- The notifications queued by `ops`, in order. -/
def enqueued : List QueueOp → List (Nat × Nat × Int × Int)
  | [] => []
  | QueueOp.enqueue _ event hwnd idObject idChild :: ops =>
    (event, hwnd, idObject, idChild) :: enqueued ops
  | QueueOp.dequeue :: ops => enqueued ops

/-- The list the links describe from the address `a` on: the addresses of the
events with their notifications, each event linked to the next by `next`, the
last one to the null pointer. -/
def queueChain (heap : Nat → Option consoleEvent) :
    Nat → List (Nat × (Nat × Nat × Int × Int)) → Prop
  | a, [] => a = 0
  | a, (b, p) :: rest =>
    a = b ∧ b ≠ 0 ∧ ∃ n, heap b = some n ∧ eventPayload n = p ∧ queueChain heap n.next rest

/-- The queue `q` holds the events `l`, oldest first: `head` starts their
chain, their addresses are distinct, and `tail` is the address of the last
one, or null when there is none. -/
def queueRepr (q : EventQueue) (l : List (Nat × (Nat × Nat × Int × Int))) : Prop :=
  queueChain q.heap q.head l ∧ (l.map Prod.fst).Nodup ∧
    q.tail = (l.getLast?.map Prod.fst).getD 0

/-! ## Process entry -/

/-- The first occurrence of `strSearch` in `str`: `wcsstr`.  The result is the
text of `str` from that occurrence on, `none` for the null pointer. -/
def wcsstr (str : List Nat) (strSearch : List Nat) : Option (List Nat) :=
  match str with
  | [] => if strSearch = [] then some [] else none
  | c :: cs => if strSearch.isPrefixOf (c :: cs) = true then some (c :: cs) else wcsstr cs strSearch

/-- What `wmain` ends in: a call of `exit`, the value returned by
`start_with_pty` or by `start_as_shell` on the command handed over, or
undefined behaviour, the use of a local variable that holds no value yet. -/
inductive WmainOutcome where
  | exit (status : Nat)
  | start_with_pty (exec_command : List Nat)
  | start_as_shell (exec_command : List Nat)
  | undefined
deriving DecidableEq

/-- The entry point `wmain` on the argument count `ac` and the command line
returned by `GetCommandLineW`; `cmdline` is the copy made by `_wcsdup`, `none`
when it cannot be allocated.  The directives are the strings of the source,
a blank, three or one hyphens, `pty` or `c`, and a blank.

With `ac == 1` the source jumps to `usage:` before `cmdline` is assigned, and
the statement there, `printf("... %ls", cmdline)`, reads the variable: the
behaviour is undefined from that point, the `exit(255)` after it included.
The other jumps to `usage:` follow the assignment; their `printf` prints the
command line and `exit(255)` ends the process. -/
def wmain (ac : Int) (cmdline : Option (List Nat)) : WmainOutcome :=
  if ac = 1 then WmainOutcome.undefined
  else
    match cmdline with
    | none => WmainOutcome.exit 255
    | some cmdline =>
      match wcsstr cmdline [0x20, 0x2D, 0x2D, 0x2D, 0x70, 0x74, 0x79, 0x20] with
      | some option =>
        let exec_command :=
          (option.drop (wcslen [0x20, 0x2D, 0x2D, 0x2D, 0x70, 0x74, 0x79, 0x20])).dropWhile
            (fun c => c == 0x20)
        if wcharAt exec_command 0 = 0 then WmainOutcome.exit 255
        else WmainOutcome.start_with_pty exec_command
      | none =>
        match wcsstr cmdline [0x20, 0x2D, 0x63, 0x20] with
        | some option =>
          let exec_command :=
            (option.drop (wcslen [0x20, 0x2D, 0x63, 0x20])).dropWhile (fun c => c == 0x20)
          if wcharAt exec_command 0 = 0 then WmainOutcome.exit 255
          else
            let len := wcslen exec_command
            if len > 2 ∧ wcharAt exec_command 0 = 0x22 ∧ wcharAt exec_command (len - 1) = 0x22 then
              WmainOutcome.start_as_shell ((exec_command.take (len - 1)).drop 1)
            else WmainOutcome.start_as_shell exec_command
        | none => WmainOutcome.exit 255

/-! ## Session start -/

/-- The exit code of a process that is still running. -/
def STILL_ACTIVE : Nat := 259

/-- One turn of the loop that attaches the host to the console of the child:
whether `AttachConsole` succeeds and, asked only when it does not, the code
`GetExitCodeProcess` stores in `child_exit_code`, `none` when that call
fails. -/
structure AttachAttempt where
  AttachConsole : Bool
  GetExitCodeProcess : Option Nat
deriving DecidableEq

/-- What the operating system answers to `start_with_pty`: whether each
allocation, copy, library, entry point and process creation succeeds, the
standard handles, the turns of the attach loop, the handles of the four
threads, and the exit code `MonitorChild` reads once the child has
terminated, `none` when its `GetExitCodeProcess` fails. -/
structure PtyEnv where
  malloc_cmd : Bool
  GetSystemDirectoryW : Bool
  kernel32_wcsncpy_s : Nat
  kernel32_wcscat_s : Nat
  user32_wcsncpy_s : Nat
  user32_wcscat_s : Nat
  LoadLibraryW_kernel32 : Bool
  LoadLibraryW_user32 : Bool
  SetCurrentConsoleFontEx : Bool
  UnhookWinEvent : Bool
  SetWinEventHook : Bool
  pipe_in : Int
  pipe_out : Int
  pipe_ctrl : Int
  SetHandleInformation : Bool
  CreateProcess : Bool
  attach : List AttachAttempt
  monitor_thread : Int
  io_thread : Int
  ux_thread : Int
  ctrl_thread : Int
  MonitorChild_exit_code : Option Nat

/-- How `start_with_pty` ends: a call of `exit`, or a return value. -/
inductive PtyOutcome where
  | exit (status : Nat)
  | ret (value : Int)
deriving DecidableEq

/-- The loop `while (!AttachConsole(...))` on the value of `child_exit_code`:
whether the console was attached, and `child_exit_code` afterwards; `none`
while the loop is still turning when the answers are used up. -/
def attachLoop : List AttachAttempt → Nat → Option (Bool × Nat)
  | [], _ => none
  | a :: rest, child_exit_code =>
    if a.AttachConsole = true then some (true, child_exit_code)
    else
      match a.GetExitCodeProcess with
      | some code => if code ≠ STILL_ACTIVE then some (false, code) else attachLoop rest code
      | none => attachLoop rest child_exit_code

/-- The label `cleanup` of `start_with_pty` as far as the return value goes:
the monitor thread, when its handle is valid, is waited for, so that
`child_exit_code` is what `MonitorChild` stored; then `child_exit_code` is
returned as an `int`. -/
def start_with_pty_cleanup (IS_INVALID_HANDLE : Int → Bool) (env : PtyEnv)
    (monitor_thread : Int) (child_exit_code : Nat) : PtyOutcome :=
  let child_exit_code2 :=
    if IS_INVALID_HANDLE monitor_thread = false then
      match env.MonitorChild_exit_code with
      | some code => code
      | none => child_exit_code
    else child_exit_code
  PtyOutcome.ret (toLONG child_exit_code2)

/-- The session start `start_with_pty`, as far as its result goes, on the
value of `child_exit_code` at entry.  The test `IS_INVALID_HANDLE` is a macro
of a header outside these sources and is a parameter; a thread whose handle
tests invalid is taken not to run.  The result is `none` while the attach loop
is still turning. -/
def start_with_pty (IS_INVALID_HANDLE : Int → Bool) (env : PtyEnv) (child_exit_code : Nat) :
    Option PtyOutcome :=
  if env.malloc_cmd = false then some (PtyOutcome.exit 255)
  else if env.GetSystemDirectoryW = false then some (PtyOutcome.exit 255)
  else if env.kernel32_wcsncpy_s ≠ 0 then
    some (start_with_pty_cleanup IS_INVALID_HANDLE env INVALID_HANDLE_VALUE child_exit_code)
  else if env.kernel32_wcscat_s ≠ 0 then
    some (start_with_pty_cleanup IS_INVALID_HANDLE env INVALID_HANDLE_VALUE child_exit_code)
  else if env.user32_wcsncpy_s ≠ 0 then
    some (start_with_pty_cleanup IS_INVALID_HANDLE env INVALID_HANDLE_VALUE child_exit_code)
  else if env.user32_wcscat_s ≠ 0 then
    some (start_with_pty_cleanup IS_INVALID_HANDLE env INVALID_HANDLE_VALUE child_exit_code)
  else if env.LoadLibraryW_kernel32 = false ∨ env.LoadLibraryW_user32 = false ∨
      env.SetCurrentConsoleFontEx = false ∨ env.UnhookWinEvent = false ∨
      env.SetWinEventHook = false then
    some (PtyOutcome.ret (-1))
  else if env.pipe_in = INVALID_HANDLE_VALUE ∨ env.pipe_out = INVALID_HANDLE_VALUE ∨
      env.pipe_ctrl = INVALID_HANDLE_VALUE then
    some (PtyOutcome.ret (-1))
  else if env.SetHandleInformation = false then
    some (start_with_pty_cleanup IS_INVALID_HANDLE env INVALID_HANDLE_VALUE child_exit_code)
  else if env.CreateProcess = false then
    some (start_with_pty_cleanup IS_INVALID_HANDLE env INVALID_HANDLE_VALUE child_exit_code)
  else
    match attachLoop env.attach child_exit_code with
    | none => none
    | some (false, code) =>
      some (start_with_pty_cleanup IS_INVALID_HANDLE env INVALID_HANDLE_VALUE code)
    | some (true, code) =>
      if IS_INVALID_HANDLE env.monitor_thread = true then
        some (start_with_pty_cleanup IS_INVALID_HANDLE env env.monitor_thread code)
      else if IS_INVALID_HANDLE env.io_thread = true then
        some (start_with_pty_cleanup IS_INVALID_HANDLE env env.monitor_thread code)
      else if IS_INVALID_HANDLE env.ux_thread = true then
        some (start_with_pty_cleanup IS_INVALID_HANDLE env env.monitor_thread code)
      else if IS_INVALID_HANDLE env.ctrl_thread = true then
        some (start_with_pty_cleanup IS_INVALID_HANDLE env env.monitor_thread code)
      else some (start_with_pty_cleanup IS_INVALID_HANDLE env env.monitor_thread code)

/-- An operating system on which every step of `start_with_pty` succeeds: the
console is attached at the second turn, and the child ends with the given
exit code. -/
def examplePtyEnv (code : Nat) : PtyEnv :=
  { malloc_cmd := true, GetSystemDirectoryW := true, kernel32_wcsncpy_s := 0,
    kernel32_wcscat_s := 0, user32_wcsncpy_s := 0, user32_wcscat_s := 0,
    LoadLibraryW_kernel32 := true, LoadLibraryW_user32 := true,
    SetCurrentConsoleFontEx := true, UnhookWinEvent := true, SetWinEventHook := true,
    pipe_in := 4, pipe_out := 8, pipe_ctrl := 12, SetHandleInformation := true,
    CreateProcess := true,
    attach :=
      [{ AttachConsole := false, GetExitCodeProcess := some STILL_ACTIVE },
        { AttachConsole := true, GetExitCodeProcess := none }],
    monitor_thread := 20, io_thread := 24, ux_thread := 28, ctrl_thread := 32,
    MonitorChild_exit_code := some code }

/-- The usual test of a handle: null or `INVALID_HANDLE_VALUE`. -/
def exampleIsInvalidHandle (h : Int) : Bool := h == 0 || h == INVALID_HANDLE_VALUE

/-! ## Further consoles and events used in the instances of the event claims -/

/-- A notification of window 1 with the given kind and parameters. -/
def exampleEvent (event : Nat) (idObject : Int) (idChild : Int) : consoleEvent :=
  { event := event, hwnd := 1, idObject := idObject, idChild := idChild, prior := 0, next := 0 }

/-- Screen buffer information of a console of 80 columns by 300 rows whose
window of 80 by 25 shows the first rows: the buffer is larger than the largest
window. -/
def scrollbackInfo : CONSOLE_SCREEN_BUFFER_INFOEX :=
  { dwSize := { X := 80, Y := 300 }, dwCursorPosition := { X := 0, Y := 0 },
    srWindow := { Left := 0, Top := 0, Right := 79, Bottom := 24 },
    dwMaximumWindowSize := { X := 80, Y := 25 } }

/-- The operating system of `exampleApi` reporting `scrollbackInfo`. -/
def scrollbackApi : ConsoleApi :=
  { exampleApi with GetConsoleScreenBufferInfoEx := scrollbackInfo,
                    consoleBufferInfo := scrollbackInfo }

/-- Screen buffer information of a console whose window is 1200 columns
wide. -/
def wideInfo : CONSOLE_SCREEN_BUFFER_INFOEX :=
  { dwSize := { X := 1200, Y := 25 }, dwCursorPosition := { X := 0, Y := 0 },
    srWindow := { Left := 0, Top := 0, Right := 1199, Bottom := 24 },
    dwMaximumWindowSize := { X := 1200, Y := 25 } }

/-- The operating system of `exampleApi` reporting `wideInfo`. -/
def wideApi : ConsoleApi :=
  { exampleApi with GetConsoleScreenBufferInfoEx := wideInfo, consoleBufferInfo := wideInfo }

/-- The number of units by which one pass through the body of the `while`
loop of `ProcessIncomingKeys` advances `buf`, on a non-empty buffer: the
amount added to the pointer in the branch that `ProcessIncomingKeysStep`
takes. -/
def ProcessIncomingKeysAdvance (ks : List key_translation) (buf : List Nat) : Nat :=
  let buf_len := wcslen buf
  match CheckKeyTranslations ks buf buf_len with
  | some j => (keyAt ks j).in_key_len
  | none =>
    let r7 :=
      if buf_len ≥ MAX_CTRL_SEQ_LEN then ProcessModifierKeySequence ks buf MAX_CTRL_SEQ_LEN
      else ([], 0)
    if r7.2 ≠ 0 then MAX_CTRL_SEQ_LEN
    else
      let r6 :=
        if buf_len ≥ MAX_CTRL_SEQ_LEN - 1 then
          ProcessModifierKeySequence ks buf (MAX_CTRL_SEQ_LEN - 1)
        else ([], 0)
      if r6.2 ≠ 0 then MAX_CTRL_SEQ_LEN - 1
      else if wcsncmp buf [ESC] (wcslen [ESC]) = 0 then
        let p := buf.drop (wcslen [ESC])
        match CheckKeyTranslations ks p (buf_len - wcslen [ESC]) with
        | some j =>
          if (keyAt ks j).ctrlState &&& LEFT_ALT_PRESSED = 0 then
            wcslen [ESC] + (keyAt ks j).in_key_len
          else wcslen [ESC]
        | none => wcslen [ESC]
      else 1

/-! ## Concurrent access to the event queue -/

/-- The threads that touch the queue: the thread of the hook callback, which
runs `QueueEvent`, the thread of `ProcessEventQueue`, and the thread that runs
`FreeQueueEvent` at the end of the session. -/
inductive QueueThread where
  | producer
  | consumer
  | teardown
deriving DecidableEq

/-- The statement `QueueEvent` is about to execute, `idle` outside a call.
The values `a_` belong to the branch `if (!head)`, the values `b_` to the
branch `else`; each is named after the variable or field it assigns. -/
inductive QueueEventPc where
  | idle
  | enter
  | malloc
  | test_current
  | test_head
  | a_event
  | a_hwnd
  | a_idChild
  | a_idObject
  | a_next
  | a_prior
  | a_head
  | a_tail
  | b_event
  | b_hwnd
  | b_idChild
  | b_idObject
  | b_tail_next
  | b_prior
  | b_next
  | b_tail
  | leave
deriving DecidableEq

/-- The statement of the inner loop of `ProcessEventQueue` about to be
executed: the test `while (head)`, `EnterCriticalSection`, `current = head`,
`if (current)`, `if (current->next)`, `head = current->next`,
`head->prior = NULL`, `head = NULL`, `tail = NULL`, `LeaveCriticalSection`,
the second `if (current)`, `ProcessEvent(current)` and `free(current)`. -/
inductive ProcessEventQueuePc where
  | test_head
  | enter
  | read_head
  | test_current
  | test_next
  | head_next
  | head_prior
  | head_null
  | tail_null
  | leave
  | test_current2
  | process
  | free
deriving DecidableEq

/-- The statement `FreeQueueEvent` is about to execute, `idle` outside a
call: `EnterCriticalSection`, the test `while (head)`, `current = head`,
`head = current->next`, `free(current)`, `head = NULL`, `tail = NULL` and
`LeaveCriticalSection`. -/
inductive FreeQueueEventPc where
  | idle
  | enter
  | test_head
  | read_head
  | advance
  | free
  | head_null
  | tail_null
  | leave
deriving DecidableEq

/-- The memory shared by the three threads, the owner of `criticalSection`,
and for each thread its next statement and its local variable `current`; the
producer also has the arguments of the running call, as the notification
`(event, hwnd, idObject, idChild)`. -/
structure QueueSystem where
  heap : Nat → Option consoleEvent
  head : Nat
  tail : Nat
  owner : Option QueueThread
  ppc : QueueEventPc
  pargs : Nat × Nat × Int × Int
  pcur : Nat
  cpc : ProcessEventQueuePc
  ccur : Nat
  tpc : FreeQueueEventPc
  tcur : Nat

/-- The session before any notification: an empty queue, a free critical
section, no call running, the consumer at the test of its loop. -/
def initialQueueSystem : QueueSystem :=
  { heap := fun _ => none, head := 0, tail := 0, owner := none,
    ppc := QueueEventPc.idle, pargs := (0, 0, 0, 0), pcur := 0,
    cpc := ProcessEventQueuePc.test_head, ccur := 0,
    tpc := FreeQueueEventPc.idle, tcur := 0 }

/-- An assignment to a field of the event at `addr`; nothing changes when no
event is allocated there. -/
def heapUpdate (heap : Nat → Option consoleEvent) (addr : Nat)
    (f : consoleEvent → consoleEvent) : Nat → Option consoleEvent :=
  match heap addr with
  | some n => heapSet heap addr (some (f n))
  | none => heap

/-- The field `next` of the event at `addr`. -/
def nextOf (heap : Nat → Option consoleEvent) (addr : Nat) : Nat :=
  match heap addr with
  | some n => n.next
  | none => 0

/-- One statement of `QueueEvent` by the producer.  Outside a call the step
is the call with the given arguments.  `EnterCriticalSection` waits while the
critical section is owned.  `malloc` returns `addr`, 0 for a failure and
otherwise an address that is not allocated, with the content `garbage`. -/
def QueueEventStep (s : QueueSystem) (event : Nat) (hwnd : Nat) (idObject : Int)
    (idChild : Int) (addr : Nat) (garbage : consoleEvent) : QueueSystem :=
  match s.ppc with
  | QueueEventPc.idle =>
    { s with ppc := QueueEventPc.enter, pargs := (event, hwnd, idObject, idChild), pcur := 0 }
  | QueueEventPc.enter =>
    if s.owner = none then
      { s with owner := some QueueThread.producer, ppc := QueueEventPc.malloc }
    else s
  | QueueEventPc.malloc =>
    if addr = 0 then { s with pcur := 0, ppc := QueueEventPc.test_current }
    else if s.heap addr = none then
      { s with heap := heapSet s.heap addr (some garbage), pcur := addr,
               ppc := QueueEventPc.test_current }
    else s
  | QueueEventPc.test_current =>
    if s.pcur ≠ 0 then { s with ppc := QueueEventPc.test_head }
    else { s with ppc := QueueEventPc.leave }
  | QueueEventPc.test_head =>
    if s.head = 0 then { s with ppc := QueueEventPc.a_event }
    else { s with ppc := QueueEventPc.b_event }
  | QueueEventPc.a_event =>
    { s with heap := heapUpdate s.heap s.pcur (fun n => { n with event := s.pargs.1 }),
             ppc := QueueEventPc.a_hwnd }
  | QueueEventPc.a_hwnd =>
    { s with heap := heapUpdate s.heap s.pcur (fun n => { n with hwnd := s.pargs.2.1 }),
             ppc := QueueEventPc.a_idChild }
  | QueueEventPc.a_idChild =>
    { s with heap := heapUpdate s.heap s.pcur (fun n => { n with idChild := s.pargs.2.2.2 }),
             ppc := QueueEventPc.a_idObject }
  | QueueEventPc.a_idObject =>
    { s with heap := heapUpdate s.heap s.pcur (fun n => { n with idObject := s.pargs.2.2.1 }),
             ppc := QueueEventPc.a_next }
  | QueueEventPc.a_next =>
    { s with heap := heapUpdate s.heap s.pcur (fun n => { n with next := 0 }),
             ppc := QueueEventPc.a_prior }
  | QueueEventPc.a_prior =>
    { s with heap := heapUpdate s.heap s.pcur (fun n => { n with prior := 0 }),
             ppc := QueueEventPc.a_head }
  | QueueEventPc.a_head => { s with head := s.pcur, ppc := QueueEventPc.a_tail }
  | QueueEventPc.a_tail => { s with tail := s.pcur, ppc := QueueEventPc.leave }
  | QueueEventPc.b_event =>
    { s with heap := heapUpdate s.heap s.pcur (fun n => { n with event := s.pargs.1 }),
             ppc := QueueEventPc.b_hwnd }
  | QueueEventPc.b_hwnd =>
    { s with heap := heapUpdate s.heap s.pcur (fun n => { n with hwnd := s.pargs.2.1 }),
             ppc := QueueEventPc.b_idChild }
  | QueueEventPc.b_idChild =>
    { s with heap := heapUpdate s.heap s.pcur (fun n => { n with idChild := s.pargs.2.2.2 }),
             ppc := QueueEventPc.b_idObject }
  | QueueEventPc.b_idObject =>
    { s with heap := heapUpdate s.heap s.pcur (fun n => { n with idObject := s.pargs.2.2.1 }),
             ppc := QueueEventPc.b_tail_next }
  | QueueEventPc.b_tail_next =>
    { s with heap := heapUpdate s.heap s.tail (fun t => { t with next := s.pcur }),
             ppc := QueueEventPc.b_prior }
  | QueueEventPc.b_prior =>
    { s with heap := heapUpdate s.heap s.pcur (fun n => { n with prior := s.tail }),
             ppc := QueueEventPc.b_next }
  | QueueEventPc.b_next =>
    { s with heap := heapUpdate s.heap s.pcur (fun n => { n with next := 0 }),
             ppc := QueueEventPc.b_tail }
  | QueueEventPc.b_tail => { s with tail := s.pcur, ppc := QueueEventPc.leave }
  | QueueEventPc.leave => { s with owner := none, ppc := QueueEventPc.idle }

/-- One statement of the inner loop of `ProcessEventQueue` by the consumer.
The test `while (head)` is made outside the critical section; when it fails
the consumer comes back to it after the rest of the outer loop, which does not
touch the queue. -/
def ProcessEventQueueStep (s : QueueSystem) : QueueSystem :=
  match s.cpc with
  | ProcessEventQueuePc.test_head =>
    if s.head ≠ 0 then { s with cpc := ProcessEventQueuePc.enter } else s
  | ProcessEventQueuePc.enter =>
    if s.owner = none then
      { s with owner := some QueueThread.consumer, cpc := ProcessEventQueuePc.read_head }
    else s
  | ProcessEventQueuePc.read_head =>
    { s with ccur := s.head, cpc := ProcessEventQueuePc.test_current }
  | ProcessEventQueuePc.test_current =>
    if s.ccur ≠ 0 then { s with cpc := ProcessEventQueuePc.test_next }
    else { s with cpc := ProcessEventQueuePc.leave }
  | ProcessEventQueuePc.test_next =>
    if nextOf s.heap s.ccur ≠ 0 then { s with cpc := ProcessEventQueuePc.head_next }
    else { s with cpc := ProcessEventQueuePc.head_null }
  | ProcessEventQueuePc.head_next =>
    { s with head := nextOf s.heap s.ccur, cpc := ProcessEventQueuePc.head_prior }
  | ProcessEventQueuePc.head_prior =>
    { s with heap := heapUpdate s.heap s.head (fun n => { n with prior := 0 }),
             cpc := ProcessEventQueuePc.leave }
  | ProcessEventQueuePc.head_null => { s with head := 0, cpc := ProcessEventQueuePc.tail_null }
  | ProcessEventQueuePc.tail_null => { s with tail := 0, cpc := ProcessEventQueuePc.leave }
  | ProcessEventQueuePc.leave =>
    { s with owner := none, cpc := ProcessEventQueuePc.test_current2 }
  | ProcessEventQueuePc.test_current2 =>
    if s.ccur ≠ 0 then { s with cpc := ProcessEventQueuePc.process }
    else { s with cpc := ProcessEventQueuePc.test_head }
  | ProcessEventQueuePc.process => { s with cpc := ProcessEventQueuePc.free }
  | ProcessEventQueuePc.free =>
    { s with heap := heapSet s.heap s.ccur none, cpc := ProcessEventQueuePc.test_head }

/-- One statement of `FreeQueueEvent` by the teardown thread; outside a call
the step is the call. -/
def FreeQueueEventStep (s : QueueSystem) : QueueSystem :=
  match s.tpc with
  | FreeQueueEventPc.idle => { s with tpc := FreeQueueEventPc.enter }
  | FreeQueueEventPc.enter =>
    if s.owner = none then
      { s with owner := some QueueThread.teardown, tpc := FreeQueueEventPc.test_head }
    else s
  | FreeQueueEventPc.test_head =>
    if s.head ≠ 0 then { s with tpc := FreeQueueEventPc.read_head }
    else { s with tpc := FreeQueueEventPc.head_null }
  | FreeQueueEventPc.read_head => { s with tcur := s.head, tpc := FreeQueueEventPc.advance }
  | FreeQueueEventPc.advance =>
    { s with head := nextOf s.heap s.tcur, tpc := FreeQueueEventPc.free }
  | FreeQueueEventPc.free =>
    { s with heap := heapSet s.heap s.tcur none, tpc := FreeQueueEventPc.test_head }
  | FreeQueueEventPc.head_null => { s with head := 0, tpc := FreeQueueEventPc.tail_null }
  | FreeQueueEventPc.tail_null => { s with tail := 0, tpc := FreeQueueEventPc.leave }
  | FreeQueueEventPc.leave => { s with owner := none, tpc := FreeQueueEventPc.idle }

/-- A step of the schedule: the thread that executes its next statement, and
for the producer the arguments it would call `QueueEvent` with and the outcome
of `malloc`, each used at the statement concerned. -/
inductive QueueAction where
  | producer (event : Nat) (hwnd : Nat) (idObject : Int) (idChild : Int) (addr : Nat)
      (garbage : consoleEvent)
  | consumer
  | teardown

/-- The thread that makes the step. -/
def QueueAction.thread : QueueAction → QueueThread
  | QueueAction.producer _ _ _ _ _ _ => QueueThread.producer
  | QueueAction.consumer => QueueThread.consumer
  | QueueAction.teardown => QueueThread.teardown

/-- One step of the three threads under an interleaving semantics. -/
def stepQueueSystem (s : QueueSystem) : QueueAction → QueueSystem
  | QueueAction.producer event hwnd idObject idChild addr garbage =>
    QueueEventStep s event hwnd idObject idChild addr garbage
  | QueueAction.consumer => ProcessEventQueueStep s
  | QueueAction.teardown => FreeQueueEventStep s

/-- The state after the steps of a schedule. -/
def runQueueSystem (s : QueueSystem) : List QueueAction → QueueSystem
  | [] => s
  | a :: rest => runQueueSystem (stepQueueSystem s a) rest

/-- The statements of `QueueEvent` between `EnterCriticalSection` and
`LeaveCriticalSection`, the latter included. -/
def QueueEventPc.critical : QueueEventPc → Bool
  | QueueEventPc.idle => false
  | QueueEventPc.enter => false
  | _ => true

/-- The statements of `ProcessEventQueue` between `EnterCriticalSection` and
`LeaveCriticalSection`, the latter included. -/
def ProcessEventQueuePc.critical : ProcessEventQueuePc → Bool
  | ProcessEventQueuePc.read_head => true
  | ProcessEventQueuePc.test_current => true
  | ProcessEventQueuePc.test_next => true
  | ProcessEventQueuePc.head_next => true
  | ProcessEventQueuePc.head_prior => true
  | ProcessEventQueuePc.head_null => true
  | ProcessEventQueuePc.tail_null => true
  | ProcessEventQueuePc.leave => true
  | _ => false

/-- The statements of `FreeQueueEvent` between `EnterCriticalSection` and
`LeaveCriticalSection`, the latter included. -/
def FreeQueueEventPc.critical : FreeQueueEventPc → Bool
  | FreeQueueEventPc.idle => false
  | FreeQueueEventPc.enter => false
  | _ => true

/-- The queue of a state of the three threads. -/
def QueueSystem.queue (s : QueueSystem) : EventQueue :=
  { heap := s.heap, head := s.head, tail := s.tail }

/-- The list the links describe from the address `a` up to the address `z`:
as `queueChain`, with the last event linked to `z`. -/
def queueChainTo (heap : Nat → Option consoleEvent) :
    Nat → List (Nat × (Nat × Nat × Int × Int)) → Nat → Prop
  | a, [], z => a = z
  | a, (b, p) :: rest, z =>
    a = b ∧ b ≠ 0 ∧ ∃ n, heap b = some n ∧ eventPayload n = p ∧ queueChainTo heap n.next rest z

/-- The event at `a` is allocated, is not null and is not linked in `l`. -/
def heldEvent (heap : Nat → Option consoleEvent) (l : List (Nat × (Nat × Nat × Int × Int)))
    (a : Nat) : Prop :=
  a ≠ 0 ∧ (∃ n, heap a = some n) ∧ a ∉ l.map Prod.fst

/-- The event `QueueEvent` has allocated is held by the producer, and the
first `k` of its fields `event`, `hwnd`, `idChild`, `idObject`, `next` have
been assigned. -/
def newEvent (heap : Nat → Option consoleEvent) (l : List (Nat × (Nat × Nat × Int × Int)))
    (a : Nat) (args : Nat × Nat × Int × Int) (k : Nat) : Prop :=
  a ≠ 0 ∧ a ∉ l.map Prod.fst ∧
    ∃ n, heap a = some n ∧ (1 ≤ k → n.event = args.1) ∧ (2 ≤ k → n.hwnd = args.2.1) ∧
      (3 ≤ k → n.idChild = args.2.2.2) ∧ (4 ≤ k → n.idObject = args.2.2.1) ∧
      (5 ≤ k → n.next = 0)

/-- The statements at which the variable `current` of `QueueEvent` refers to
an event that is not yet linked. -/
def QueueEventPc.holds : QueueEventPc → Bool
  | QueueEventPc.idle => false
  | QueueEventPc.enter => false
  | QueueEventPc.malloc => false
  | QueueEventPc.a_tail => false
  | QueueEventPc.b_tail => false
  | QueueEventPc.leave => false
  | _ => true

/-- The statements at which the variable `current` of `ProcessEventQueue`
refers to the event unlinked from the queue. -/
def ProcessEventQueuePc.holds : ProcessEventQueuePc → Bool
  | ProcessEventQueuePc.head_prior => true
  | ProcessEventQueuePc.tail_null => true
  | ProcessEventQueuePc.leave => true
  | ProcessEventQueuePc.test_current2 => true
  | ProcessEventQueuePc.process => true
  | ProcessEventQueuePc.free => true
  | _ => false

/-- What holds of the variable `current` of the consumer at each statement,
`l` being the events linked in the queue. -/
def consumerHolds (cpc : ProcessEventQueuePc) (ccur : Nat) (heap : Nat → Option consoleEvent)
    (l : List (Nat × (Nat × Nat × Int × Int))) : Prop :=
  match cpc with
  | ProcessEventQueuePc.head_prior => heldEvent heap l ccur
  | ProcessEventQueuePc.tail_null => heldEvent heap l ccur
  | ProcessEventQueuePc.process => heldEvent heap l ccur
  | ProcessEventQueuePc.free => heldEvent heap l ccur
  | ProcessEventQueuePc.leave => ccur = 0 ∨ heldEvent heap l ccur
  | ProcessEventQueuePc.test_current2 => ccur = 0 ∨ heldEvent heap l ccur
  | _ => True

/-- What holds of the queue at each statement of the critical section of
`QueueEvent`, `l` being the events linked in the queue, the new one included
once its links are complete. -/
def producerInv (ppc : QueueEventPc) (args : Nat × Nat × Int × Int) (pcur : Nat)
    (q : EventQueue) (l : List (Nat × (Nat × Nat × Int × Int))) : Prop :=
  match ppc with
  | QueueEventPc.idle => False
  | QueueEventPc.enter => False
  | QueueEventPc.malloc => queueRepr q l
  | QueueEventPc.test_current => queueRepr q l ∧ (pcur = 0 ∨ newEvent q.heap l pcur args 0)
  | QueueEventPc.test_head => queueRepr q l ∧ newEvent q.heap l pcur args 0
  | QueueEventPc.a_event => queueRepr q l ∧ q.head = 0 ∧ newEvent q.heap l pcur args 0
  | QueueEventPc.a_hwnd => queueRepr q l ∧ q.head = 0 ∧ newEvent q.heap l pcur args 1
  | QueueEventPc.a_idChild => queueRepr q l ∧ q.head = 0 ∧ newEvent q.heap l pcur args 2
  | QueueEventPc.a_idObject => queueRepr q l ∧ q.head = 0 ∧ newEvent q.heap l pcur args 3
  | QueueEventPc.a_next => queueRepr q l ∧ q.head = 0 ∧ newEvent q.heap l pcur args 4
  | QueueEventPc.a_prior => queueRepr q l ∧ q.head = 0 ∧ newEvent q.heap l pcur args 5
  | QueueEventPc.a_head => queueRepr q l ∧ q.head = 0 ∧ newEvent q.heap l pcur args 5
  | QueueEventPc.a_tail =>
    queueChain q.heap q.head l ∧ l.getLast?.map Prod.fst = some pcur
  | QueueEventPc.b_event => queueRepr q l ∧ q.head ≠ 0 ∧ newEvent q.heap l pcur args 0
  | QueueEventPc.b_hwnd => queueRepr q l ∧ q.head ≠ 0 ∧ newEvent q.heap l pcur args 1
  | QueueEventPc.b_idChild => queueRepr q l ∧ q.head ≠ 0 ∧ newEvent q.heap l pcur args 2
  | QueueEventPc.b_idObject => queueRepr q l ∧ q.head ≠ 0 ∧ newEvent q.heap l pcur args 3
  | QueueEventPc.b_tail_next => queueRepr q l ∧ q.head ≠ 0 ∧ newEvent q.heap l pcur args 4
  | QueueEventPc.b_prior =>
    queueChainTo q.heap q.head l pcur ∧ q.tail = (l.getLast?.map Prod.fst).getD 0 ∧
      newEvent q.heap l pcur args 4
  | QueueEventPc.b_next =>
    queueChainTo q.heap q.head l pcur ∧ q.tail = (l.getLast?.map Prod.fst).getD 0 ∧
      newEvent q.heap l pcur args 4
  | QueueEventPc.b_tail =>
    queueChain q.heap q.head l ∧ l.getLast?.map Prod.fst = some pcur
  | QueueEventPc.leave => queueRepr q l

/-- What holds of the queue at each statement of the critical section of
`ProcessEventQueue`, `l` being the events linked in the queue. -/
def consumerInv (cpc : ProcessEventQueuePc) (ccur : Nat) (q : EventQueue)
    (l : List (Nat × (Nat × Nat × Int × Int))) : Prop :=
  match cpc with
  | ProcessEventQueuePc.read_head => queueRepr q l
  | ProcessEventQueuePc.test_current => queueRepr q l ∧ ccur = q.head
  | ProcessEventQueuePc.test_next => queueRepr q l ∧ ccur = q.head ∧ ccur ≠ 0
  | ProcessEventQueuePc.head_next =>
    queueRepr q l ∧ ccur = q.head ∧ ccur ≠ 0 ∧ nextOf q.heap ccur ≠ 0
  | ProcessEventQueuePc.head_prior => queueRepr q l
  | ProcessEventQueuePc.head_null =>
    queueRepr q l ∧ ccur = q.head ∧ ccur ≠ 0 ∧ nextOf q.heap ccur = 0
  | ProcessEventQueuePc.tail_null => l = [] ∧ q.head = 0
  | ProcessEventQueuePc.leave => queueRepr q l
  | _ => False

/-- What holds of the queue at each statement of the critical section of
`FreeQueueEvent`, `l` being the events still linked from `head`. -/
def teardownInv (tpc : FreeQueueEventPc) (tcur : Nat) (q : EventQueue)
    (l : List (Nat × (Nat × Nat × Int × Int))) : Prop :=
  match tpc with
  | FreeQueueEventPc.idle => False
  | FreeQueueEventPc.enter => False
  | FreeQueueEventPc.test_head => queueChain q.heap q.head l
  | FreeQueueEventPc.read_head => queueChain q.heap q.head l ∧ q.head ≠ 0
  | FreeQueueEventPc.advance => queueChain q.heap q.head l ∧ tcur = q.head ∧ q.head ≠ 0
  | FreeQueueEventPc.free => queueChain q.heap q.head l ∧ tcur ∉ l.map Prod.fst
  | FreeQueueEventPc.head_null => l = [] ∧ q.head = 0
  | FreeQueueEventPc.tail_null => l = [] ∧ q.head = 0
  | FreeQueueEventPc.leave => queueRepr q l

/-- The invariant of the three threads, `l` being the events linked in the
queue: each thread is inside its critical section exactly when it owns
`criticalSection`; the events held by two threads are distinct; and the queue
is as the statement of the owner requires, a well-linked queue when the
critical section is free. -/
def queueInvariant (s : QueueSystem) (l : List (Nat × (Nat × Nat × Int × Int))) : Prop :=
  (l.map Prod.fst).Nodup ∧
    (s.ppc.critical = true ↔ s.owner = some QueueThread.producer) ∧
    (s.cpc.critical = true ↔ s.owner = some QueueThread.consumer) ∧
    (s.tpc.critical = true ↔ s.owner = some QueueThread.teardown) ∧
    consumerHolds s.cpc s.ccur s.heap l ∧
    (s.ppc.holds = true → s.cpc.holds = true → s.ccur ≠ 0 → s.ccur ≠ s.pcur) ∧
    (s.tpc = FreeQueueEventPc.free → s.cpc.holds = true → s.ccur ≠ 0 → s.ccur ≠ s.tcur) ∧
    match s.owner with
    | none => queueRepr s.queue l
    | some QueueThread.producer => producerInv s.ppc s.pargs s.pcur s.queue l
    | some QueueThread.consumer => consumerInv s.cpc s.ccur s.queue l
    | some QueueThread.teardown => teardownInv s.tpc s.tcur s.queue l

/-- A step of the producer in the instances: the call queues a caret event of
window 1, and `malloc` returns the address 100 with arbitrary content. -/
def exampleProducerStep : QueueAction :=
  QueueAction.producer EVENT_CONSOLE_CARET 1 0 (3 * 65536) 100
    { event := 0, hwnd := 0, idObject := 0, idChild := 0, prior := 7, next := 9 }

/-- A schedule that stops inside the first call of `QueueEvent`: the producer
has executed `head = current` and not yet `tail = current`, and the consumer
is at the test `while (head)`. -/
def exampleScheduleStart : List QueueAction :=
  List.replicate 7 exampleProducerStep ++ [QueueAction.consumer] ++
    List.replicate 5 exampleProducerStep

/-- The schedule `exampleScheduleStart` followed by two steps of the consumer,
which finds `head` not null and waits at `EnterCriticalSection`. -/
def exampleSchedule : List QueueAction :=
  exampleScheduleStart ++ [QueueAction.consumer, QueueAction.consumer]

/-! ## Teardown of the event queue -/

/-- The loop `while (head)` of `FreeQueueEvent`, run for at most `fuel`
passes: `current = head; head = current->next; free(current)`.  The result is
the addresses passed to `free`, in order, and the queue afterwards; `none`
when the passes are used up while `head` is not null. -/
def FreeQueueEventLoop : Nat → EventQueue → Option (List Nat × EventQueue)
  | 0, q => if q.head ≠ 0 then none else some ([], q)
  | fuel + 1, q =>
    if q.head ≠ 0 then
      let current := q.head
      match FreeQueueEventLoop fuel
          { heap := heapSet q.heap current none, head := nextOf q.heap current,
            tail := q.tail } with
      | some (freed, q2) => some (current :: freed, q2)
      | none => none
    else some ([], q)

/-- The body of `FreeQueueEvent` inside the critical section: the loop, then
`head = NULL; tail = NULL`.  The result is the addresses passed to `free`, in
order, and the queue afterwards. -/
def FreeQueueEvent (fuel : Nat) (q : EventQueue) : Option (List Nat × EventQueue) :=
  match FreeQueueEventLoop fuel q with
  | some (freed, q1) => some (freed, { heap := q1.heap, head := 0, tail := 0 })
  | none => none

/-- A call that changes the queue: `QueueEvent` with the address its
allocation returns, 0 for a failure; one pass of the consumer loop; or
`FreeQueueEvent`. -/
inductive QueueCall where
  | queue_event (current : Nat) (event : Nat) (hwnd : Nat) (idObject : Int) (idChild : Int)
  | dequeue
  | free_queue_event
deriving DecidableEq

/-- The queue after the calls `calls`, each critical section run as a whole;
`none` when a loop of `FreeQueueEvent` uses up its `fuel` passes. -/
def runQueueCalls (fuel : Nat) : EventQueue → List QueueCall → Option EventQueue
  | q, [] => some q
  | q, QueueCall.queue_event current event hwnd idObject idChild :: rest =>
    runQueueCalls fuel (QueueEvent q current event hwnd idObject idChild) rest
  | q, QueueCall.dequeue :: rest => runQueueCalls fuel (DequeueEvent q).2 rest
  | q, QueueCall.free_queue_event :: rest =>
    match FreeQueueEvent fuel q with
    | some r => runQueueCalls fuel r.2 rest
    | none => none

/-- Every allocation in `calls` fails or returns an address that is not
allocated at that moment. -/
def callsFresh (fuel : Nat) : EventQueue → List QueueCall → Bool
  | _, [] => true
  | q, QueueCall.queue_event current event hwnd idObject idChild :: rest =>
    (decide (current = 0) || (q.heap current).isNone) &&
      callsFresh fuel (QueueEvent q current event hwnd idObject idChild) rest
  | q, QueueCall.dequeue :: rest => callsFresh fuel (DequeueEvent q).2 rest
  | q, QueueCall.free_queue_event :: rest =>
    match FreeQueueEvent fuel q with
    | some r => callsFresh fuel r.2 rest
    | none => true

/-- Calls used in the instance of the teardown claim: three notifications are
queued at the addresses 100, 200 and 300, the first one being taken by the
consumer before the third is queued. -/
def exampleCalls : List QueueCall :=
  [QueueCall.queue_event 100 EVENT_CONSOLE_CARET 1 0 (3 * 65536),
    QueueCall.queue_event 200 EVENT_CONSOLE_LAYOUT 1 0 0,
    QueueCall.dequeue,
    QueueCall.queue_event 300 EVENT_CONSOLE_UPDATE_SCROLL 1 0 (-1)]
/-! ## General facts about the primitives -/

theorem wcsncmp_zero_head (a b : List Nat) (n : Nat) (h : wcsncmp a b (n + 1) = 0) :
    wcharAt a 0 = wcharAt b 0 := by
  unfold wcsncmp at h
  split_ifs at h with h1 h2 h3 <;> omega

theorem wcsncmp_one (a b : List Nat) :
    wcsncmp a b 1 = 0 ↔ wcharAt a 0 = wcharAt b 0 := by
  constructor
  · exact wcsncmp_zero_head a b 0
  · intro h
    unfold wcsncmp
    rw [h]
    simp [wcsncmp]

/-- A string without NUL units opens the buffer exactly when `wcsncmp` over
its length reports equality. -/
theorem wcsncmp_eq_zero_iff_opens (p : List Nat) (hp : ∀ x ∈ p, x ≠ 0) (buf : List Nat) :
    wcsncmp buf p p.length = 0 ↔ p <+: buf := by
  induction p generalizing buf with
  | nil => simp [wcsncmp]
  | cons x p ih =>
    have hx : x ≠ 0 := hp x (List.mem_cons_self x p)
    have hp2 : ∀ y ∈ p, y ≠ 0 := fun y hy => hp y (List.mem_cons_of_mem x hy)
    cases buf with
    | nil =>
      have hx0 : 0 < x := Nat.pos_of_ne_zero hx
      simp [wcsncmp, wcharAt, hx0]
    | cons b bs =>
      simp only [List.length_cons, wcsncmp, wcharAt, List.getD_cons_zero, List.tail_cons]
      rw [List.cons_prefix_cons]
      by_cases hlt : b < x
      · simp [hlt]; omega
      · by_cases hgt : b > x
        · simp [hlt, hgt]; omega
        · have hbx : b = x := by omega
          subst hbx
          simp [hx, ih hp2 bs]

theorem CheckKeyTranslationsFrom_none (buf : List Nat) (buf_len : Nat) (ks : List key_translation)
    (j : Nat)
    (h : ∀ k ∈ ks, ¬ (buf_len ≥ k.in_key_len ∧ wcsncmp buf k.in_ k.in_key_len = 0)) :
    CheckKeyTranslationsFrom buf buf_len ks j = none := by
  induction ks generalizing j with
  | nil => rfl
  | cons k rest ih =>
    unfold CheckKeyTranslationsFrom
    rw [if_neg (h k (List.mem_cons_self k rest))]
    exact ih (j + 1) (fun k2 hk2 => h k2 (List.mem_cons_of_mem k hk2))

/-- What a successful scan from row `j0` on returns: the first row that
matches. -/
theorem CheckKeyTranslationsFrom_some (buf : List Nat) (buf_len : Nat)
    (ks : List key_translation) (j0 j : Nat)
    (h : CheckKeyTranslationsFrom buf buf_len ks j0 = some j) :
    ∃ i, j = j0 + i ∧ ∃ k, ks.get? i = some k ∧
      (buf_len ≥ k.in_key_len ∧ wcsncmp buf k.in_ k.in_key_len = 0) ∧
      ∀ i2 k2, i2 < i → ks.get? i2 = some k2 →
        ¬ (buf_len ≥ k2.in_key_len ∧ wcsncmp buf k2.in_ k2.in_key_len = 0) := by
  induction ks generalizing j0 with
  | nil => simp [CheckKeyTranslationsFrom] at h
  | cons k rest ih =>
    unfold CheckKeyTranslationsFrom at h
    by_cases hm : buf_len ≥ k.in_key_len ∧ wcsncmp buf k.in_ k.in_key_len = 0
    · rw [if_pos hm] at h
      refine ⟨0, ?_, k, rfl, hm, ?_⟩
      · simpa using h.symm
      · intro i2 k2 hi2; omega
    · rw [if_neg hm] at h
      obtain ⟨i, hj, k1, hk1, hmatch, hfirst⟩ := ih (j0 + 1) h
      refine ⟨i + 1, by omega, k1, by simpa using hk1, hmatch, ?_⟩
      intro i2 k2 hi2 hk2
      cases i2 with
      | zero =>
        simp at hk2
        subst hk2
        exact hm
      | succ i3 =>
        exact hfirst i3 k2 (by omega) (by simpa using hk2)

/-- Nothing is sent when `ProcessModifierKeySequence` returns 0. -/
theorem ProcessModifierKeySequence_zero (ks : List key_translation) (buf : List Nat)
    (buf_len : Nat) (h : (ProcessModifierKeySequence ks buf buf_len).2 = 0) :
    (ProcessModifierKeySequence ks buf buf_len).1 = [] := by
  unfold ProcessModifierKeySequence at h ⊢
  by_cases h1 : buf_len < MIN_CTRL_SEQ_LEN
  · rw [if_pos h1]
  · rw [if_neg h1] at h ⊢
    dsimp only at h ⊢
    by_cases h2 : _wtoi (List.drop (buf_len - 2) buf) < 2 ∧ _wtoi (List.drop (buf_len - 2) buf) > 7
    · rw [if_pos h2]
    · rw [if_neg h2] at h ⊢
      by_cases h3 : wcharAt buf 0 = ESC ∧ wcharAt buf 1 = 0x5B ∧ wcharAt buf (buf_len - 3) = 0x3B
      · rw [if_pos h3] at h ⊢
        dsimp only at h ⊢
        rw [if_neg (not_not.mpr h)]
      · rw [if_neg h3]

/-- A buffer that does not start with ESC is no modifier sequence. -/
theorem ProcessModifierKeySequence_not_esc (ks : List key_translation) (buf : List Nat)
    (buf_len : Nat) (h : wcharAt buf 0 ≠ ESC) :
    ProcessModifierKeySequence ks buf buf_len = ([], 0) := by
  unfold ProcessModifierKeySequence
  by_cases h1 : buf_len < MIN_CTRL_SEQ_LEN
  · rw [if_pos h1]
  · rw [if_neg h1]
    dsimp only
    by_cases h2 : _wtoi (List.drop (buf_len - 2) buf) < 2 ∧ _wtoi (List.drop (buf_len - 2) buf) > 7
    · rw [if_pos h2]
    · rw [if_neg h2]
      rw [if_neg (fun h3 => h h3.1)]

/-! ## Facts about the initialised table -/

/-- Every row of the initialised table starts with ESC, with DEL or with a
control unit 0x01..0x1A other than 0x03, and has a positive length. -/
theorem keys_first_unit :
    ∀ k ∈ initialize_keylen keys, 1 ≤ k.in_key_len ∧
      (wcharAt k.in_ 0 = ESC ∨ wcharAt k.in_ 0 = 0x7F ∨
        (1 ≤ wcharAt k.in_ 0 ∧ wcharAt k.in_ 0 ≤ 0x1A ∧ wcharAt k.in_ 0 ≠ 0x03)) := by
  decide

/-- No row matches a buffer whose first unit starts no row. -/
theorem CheckKeyTranslations_none_of_first_unit (u : Nat) (rest : List Nat) (buf_len : Nat)
    (h1 : u ≠ ESC) (h2 : u ≠ 0x7F) (h3 : ¬ (1 ≤ u ∧ u ≤ 0x1A ∧ u ≠ 0x03)) :
    CheckKeyTranslations (initialize_keylen keys) (u :: rest) buf_len = none := by
  apply CheckKeyTranslationsFrom_none
  intro k hk hm
  obtain ⟨hlen, hfirst⟩ := keys_first_unit k hk
  obtain ⟨m, hm2⟩ : ∃ m, k.in_key_len = m + 1 := ⟨k.in_key_len - 1, by omega⟩
  have hcmp := hm.2
  rw [hm2] at hcmp
  have hu := wcsncmp_zero_head _ _ _ hcmp
  simp only [wcharAt, List.getD_cons_zero] at hu
  simp only [wcharAt] at hfirst
  rw [← hu] at hfirst
  rcases hfirst with h | h | h
  · exact h1 h
  · exact h2 h
  · exact h3 h

/-- One pass over a unit that starts no row and is neither ESC nor 0x03:
the unit is forwarded as a character key stroke. -/
theorem ProcessIncomingKeysStep_literal (u : Nat) (rest : List Nat)
    (h1 : u ≠ ESC) (h2 : u ≠ 0x7F) (h3 : ¬ (1 ≤ u ∧ u ≤ 0x1A)) :
    ProcessIncomingKeysStep (initialize_keylen keys) (u :: rest) =
      (SendKeyStroke 0 u 0, rest) := by
  have h03 : u ≠ 0x03 := fun h => h3 (by omega)
  unfold ProcessIncomingKeysStep
  dsimp only
  rw [CheckKeyTranslations_none_of_first_unit u rest _ h1 h2 (fun h => h3 ⟨h.1, h.2.1⟩)]
  dsimp only
  have hne : wcharAt (u :: rest) 0 ≠ ESC := by simpa [wcharAt] using h1
  simp only [ProcessModifierKeySequence_not_esc _ _ _ hne, ite_self, wcsncmp_one, wcslen,
    List.length_singleton]
  simp [wcharAt, h1, h03]

/-- One pass over the unit 0x03: the interrupt is raised and nothing is sent. -/
theorem ProcessIncomingKeysStep_ctrl_c (rest : List Nat) :
    ProcessIncomingKeysStep (initialize_keylen keys) (0x03 :: rest) =
      ([ConsoleInput.GenerateConsoleCtrlEvent CTRL_C_EVENT 0], rest) := by
  unfold ProcessIncomingKeysStep
  dsimp only
  rw [CheckKeyTranslations_none_of_first_unit 0x03 rest _ (by decide) (by decide) (by decide)]
  dsimp only
  have hne : wcharAt (0x03 :: rest) 0 ≠ ESC := by simp [wcharAt, ESC]
  simp only [ProcessModifierKeySequence_not_esc _ _ _ hne, ite_self, wcsncmp_one, wcslen,
    List.length_singleton]
  simp [wcharAt, ESC]

/-- Unfolding of the decoder on a non-empty buffer whose first pass consumes
exactly one unit. -/
theorem ProcessIncomingKeys_cons_one (ks : List key_translation) (u : Nat) (rest : List Nat)
    (sent : List ConsoleInput)
    (h : ProcessIncomingKeysStep ks (u :: rest) = (sent, rest)) :
    ProcessIncomingKeys ks (u :: rest) =
      (ProcessIncomingKeys ks rest).map (fun more => sent ++ more) := by
  unfold ProcessIncomingKeys
  simp only [wcslen, List.length_cons]
  rw [ProcessIncomingKeysLoop]
  simp only [wcslen, List.length_cons, h]
  cases hrec : ProcessIncomingKeysLoop ks (rest.length + 1) rest <;> simp

/-- A result of the loop does not depend on the passes left over: one more
pass of fuel gives the same result. -/
theorem ProcessIncomingKeysLoop_fuel_succ (ks : List key_translation) (fuel : Nat)
    (buf : List Nat) (sent : List ConsoleInput)
    (h : ProcessIncomingKeysLoop ks fuel buf = some sent) :
    ProcessIncomingKeysLoop ks (fuel + 1) buf = some sent := by
  induction fuel generalizing buf sent with
  | zero => simp [ProcessIncomingKeysLoop] at h
  | succ n ih =>
    rw [ProcessIncomingKeysLoop] at h ⊢
    by_cases hlen : wcslen buf > 0
    · rw [if_pos hlen] at h ⊢
      cases hrec : ProcessIncomingKeysLoop ks n (ProcessIncomingKeysStep ks buf).2 with
      | none => rw [hrec] at h; simp at h
      | some more =>
        rw [hrec] at h
        rw [ih _ _ hrec]
        exact h
    · rw [if_neg hlen] at h ⊢
      exact h

/-! ## Claims about the input decoder -/

/-- The decoder on the input of a table row sends the pair of the first row
with that input. -/
theorem keys_entry_first_row :
    ∀ e ∈ initialize_keylen keys,
      ProcessIncomingKeys (initialize_keylen keys) e.in_ =
        ((initialize_keylen keys).find? (fun k => decide (k.in_ = e.in_))).map (fun f =>
          [ConsoleInput.WriteConsoleInputW
              { bKeyDown := true, wRepeatCount := 1, wVirtualKeyCode := f.vk,
                UnicodeChar := f.out, dwControlKeyState := f.ctrlState },
            ConsoleInput.WriteConsoleInputW
              { bKeyDown := false, wRepeatCount := 1, wVirtualKeyCode := f.vk,
                UnicodeChar := f.out, dwControlKeyState := f.ctrlState }]) := by
  decide!

/-- The rows that are not the first row with their input are the CTRL rows
of 0x08, 0x09, 0x0A and 0x0D. -/
theorem keys_shadowed_rows :
    ∀ e ∈ initialize_keylen keys,
      (initialize_keylen keys).find? (fun k => decide (k.in_ = e.in_)) = some e ∨
        (e.ctrlState = LEFT_CTRL_PRESSED ∧ e.in_ ∈ [[0x08], [0x09], [0x0A], [0x0D]]) := by
  decide!

/-- C1, as amended: for every row `e` of the initialised table, the decoder
applied to exactly the input sequence of `e` sends exactly one key-down record
followed by one key-up record and nothing else, both carrying the virtual key,
character and control state of `f`, the first row of the table whose input
sequence is that of `e`.  The row `f` is `e` itself except for the four CTRL
rows with inputs 0x08, 0x09, 0x0A and 0x0D, which come after a row with the
same input. -/
theorem keys_entry_decodes (e : key_translation) (he : e ∈ initialize_keylen keys)
    (f : key_translation)
    (hf : (initialize_keylen keys).find? (fun k => decide (k.in_ = e.in_)) = some f) :
    ProcessIncomingKeys (initialize_keylen keys) e.in_ =
        some [ConsoleInput.WriteConsoleInputW
                { bKeyDown := true, wRepeatCount := 1, wVirtualKeyCode := f.vk,
                  UnicodeChar := f.out, dwControlKeyState := f.ctrlState },
              ConsoleInput.WriteConsoleInputW
                { bKeyDown := false, wRepeatCount := 1, wVirtualKeyCode := f.vk,
                  UnicodeChar := f.out, dwControlKeyState := f.ctrlState }] ∧
      (f = e ∨ (e.ctrlState = LEFT_CTRL_PRESSED ∧ e.in_ ∈ [[0x08], [0x09], [0x0A], [0x0D]])) := by
  constructor
  · rw [keys_entry_first_row e he, hf]
    rfl
  · rcases keys_shadowed_rows e he with h | h
    · rw [hf] at h
      exact Or.inl (Option.some.inj h)
    · exact Or.inr h

/-- Instance of the amended C1 at the row `ESC [ 2 4 ~` of F12. -/
theorem keys_entry_decodes_witness :
    ProcessIncomingKeys (initialize_keylen keys) [0x1B, 0x5B, 0x32, 0x34, 0x7E] =
      some [ConsoleInput.WriteConsoleInputW
              { bKeyDown := true, wRepeatCount := 1, wVirtualKeyCode := VK_F12,
                UnicodeChar := 0, dwControlKeyState := 0 },
            ConsoleInput.WriteConsoleInputW
              { bKeyDown := false, wRepeatCount := 1, wVirtualKeyCode := VK_F12,
                UnicodeChar := 0, dwControlKeyState := 0 }] :=
  (keys_entry_decodes (key_translation.mk [0x1B, 0x5B, 0x32, 0x34, 0x7E] VK_F12 0 5 0)
    (by decide) (key_translation.mk [0x1B, 0x5B, 0x32, 0x34, 0x7E] VK_F12 0 5 0) (by decide)).1

/-- C1 as stated fails at the row of CTRL+M, with input 0x0D, virtual key
`VK_M`, character 0x0D and `LEFT_CTRL_PRESSED`: the row is in the initialised
table, and the decoder applied to its input 0x0D sends the pair of the earlier
row of the carriage return, with `VK_RETURN`, character 0x0D and control state
0, which differs in virtual key and control state. -/
theorem keys_entry_decodes_counterexample :
    key_translation.mk [0x0D] VK_M 0x0D 1 LEFT_CTRL_PRESSED ∈ initialize_keylen keys ∧
      ProcessIncomingKeys (initialize_keylen keys) [0x0D] =
        some [ConsoleInput.WriteConsoleInputW
                { bKeyDown := true, wRepeatCount := 1, wVirtualKeyCode := VK_RETURN,
                  UnicodeChar := 0x0D, dwControlKeyState := 0 },
              ConsoleInput.WriteConsoleInputW
                { bKeyDown := false, wRepeatCount := 1, wVirtualKeyCode := VK_RETURN,
                  UnicodeChar := 0x0D, dwControlKeyState := 0 }] ∧
      ProcessIncomingKeys (initialize_keylen keys) [0x0D] ≠
        some [ConsoleInput.WriteConsoleInputW
                { bKeyDown := true, wRepeatCount := 1, wVirtualKeyCode := VK_M,
                  UnicodeChar := 0x0D, dwControlKeyState := LEFT_CTRL_PRESSED },
              ConsoleInput.WriteConsoleInputW
                { bKeyDown := false, wRepeatCount := 1, wVirtualKeyCode := VK_M,
                  UnicodeChar := 0x0D, dwControlKeyState := LEFT_CTRL_PRESSED }] := by
  decide

/-- The modifier forms built on the rows of the table, in terms of the units
of the row: every modifier value 2..7 gives the pair of the virtual key of the row
with the control state of the modifier. -/
theorem modifier_forms_send :
    ∀ ms ∈ [(2, SHIFT_PRESSED), (3, LEFT_ALT_PRESSED), (4, SHIFT_PRESSED ||| LEFT_ALT_PRESSED),
        (5, LEFT_CTRL_PRESSED), (6, SHIFT_PRESSED ||| LEFT_CTRL_PRESSED),
        (7, LEFT_CTRL_PRESSED ||| LEFT_ALT_PRESSED)],
      ∀ e ∈ initialize_keylen keys,
        (e.in_ = [ESC, 0x5B, wcharAt e.in_ 2, 0x7E] →
          ProcessIncomingKeys (initialize_keylen keys)
              [ESC, 0x5B, wcharAt e.in_ 2, 0x3B, 0x30 + ms.1, 0x7E] =
            some [ConsoleInput.WriteConsoleInputW
                    { bKeyDown := true, wRepeatCount := 1, wVirtualKeyCode := e.vk,
                      UnicodeChar := 0, dwControlKeyState := ms.2 },
                  ConsoleInput.WriteConsoleInputW
                    { bKeyDown := false, wRepeatCount := 1, wVirtualKeyCode := e.vk,
                      UnicodeChar := 0, dwControlKeyState := ms.2 }]) ∧
        (e.in_ = [ESC, 0x5B, wcharAt e.in_ 2, wcharAt e.in_ 3, 0x7E] →
          ProcessIncomingKeys (initialize_keylen keys)
              [ESC, 0x5B, wcharAt e.in_ 2, wcharAt e.in_ 3, 0x3B, 0x30 + ms.1, 0x7E] =
            some [ConsoleInput.WriteConsoleInputW
                    { bKeyDown := true, wRepeatCount := 1, wVirtualKeyCode := e.vk,
                      UnicodeChar := 0, dwControlKeyState := ms.2 },
                  ConsoleInput.WriteConsoleInputW
                    { bKeyDown := false, wRepeatCount := 1, wVirtualKeyCode := e.vk,
                      UnicodeChar := 0, dwControlKeyState := ms.2 }]) ∧
        (e.in_ = [ESC, 0x5B, wcharAt e.in_ 2] ∨ e.in_ = [ESC, 0x4F, wcharAt e.in_ 2] →
          ProcessIncomingKeys (initialize_keylen keys)
              [ESC, 0x5B, 0x31, 0x3B, 0x30 + ms.1, wcharAt e.in_ 2] =
            some [ConsoleInput.WriteConsoleInputW
                    { bKeyDown := true, wRepeatCount := 1, wVirtualKeyCode := e.vk,
                      UnicodeChar := 0, dwControlKeyState := ms.2 },
                  ConsoleInput.WriteConsoleInputW
                    { bKeyDown := false, wRepeatCount := 1, wVirtualKeyCode := e.vk,
                      UnicodeChar := 0, dwControlKeyState := ms.2 }]) := by
  decide!

/-- The same forms with the modifier value 1 or 8: nothing is sent. -/
theorem modifier_forms_silent :
    ∀ m ∈ [1, 8], ∀ e ∈ initialize_keylen keys,
      (e.in_ = [ESC, 0x5B, wcharAt e.in_ 2, 0x7E] →
        ProcessIncomingKeys (initialize_keylen keys)
            [ESC, 0x5B, wcharAt e.in_ 2, 0x3B, 0x30 + m, 0x7E] = some []) ∧
      (e.in_ = [ESC, 0x5B, wcharAt e.in_ 2, wcharAt e.in_ 3, 0x7E] →
        ProcessIncomingKeys (initialize_keylen keys)
            [ESC, 0x5B, wcharAt e.in_ 2, wcharAt e.in_ 3, 0x3B, 0x30 + m, 0x7E] = some []) ∧
      (e.in_ = [ESC, 0x5B, wcharAt e.in_ 2] ∨ e.in_ = [ESC, 0x4F, wcharAt e.in_ 2] →
        ProcessIncomingKeys (initialize_keylen keys)
            [ESC, 0x5B, 0x31, 0x3B, 0x30 + m, wcharAt e.in_ 2] = some []) := by
  decide!

/-- C2: for every modifier value `m` in 2..7, with `st` the control state the
claim assigns to it, and every row `e` of the initialised table, the decoder
applied to exactly `ESC [ d ; m ~` (row `ESC [ d ~`), `ESC [ d1 d2 ; m ~` (row
`ESC [ d1 d2 ~`) or `ESC [ 1 ; m l` (row `ESC [ l` or `ESC O l`) sends exactly
one key-down record followed by one key-up record, with the virtual key of
`e`, character 0 and control state `st`. -/
theorem ProcessIncomingKeys_modifier (m st : Nat)
    (hm : (m, st) ∈ [(2, SHIFT_PRESSED), (3, LEFT_ALT_PRESSED),
      (4, SHIFT_PRESSED ||| LEFT_ALT_PRESSED), (5, LEFT_CTRL_PRESSED),
      (6, SHIFT_PRESSED ||| LEFT_CTRL_PRESSED), (7, LEFT_CTRL_PRESSED ||| LEFT_ALT_PRESSED)])
    (e : key_translation) (he : e ∈ initialize_keylen keys) :
    (∀ d, e.in_ = [ESC, 0x5B, d, 0x7E] →
      ProcessIncomingKeys (initialize_keylen keys) [ESC, 0x5B, d, 0x3B, 0x30 + m, 0x7E] =
        some [ConsoleInput.WriteConsoleInputW
                { bKeyDown := true, wRepeatCount := 1, wVirtualKeyCode := e.vk,
                  UnicodeChar := 0, dwControlKeyState := st },
              ConsoleInput.WriteConsoleInputW
                { bKeyDown := false, wRepeatCount := 1, wVirtualKeyCode := e.vk,
                  UnicodeChar := 0, dwControlKeyState := st }]) ∧
    (∀ d1 d2, e.in_ = [ESC, 0x5B, d1, d2, 0x7E] →
      ProcessIncomingKeys (initialize_keylen keys) [ESC, 0x5B, d1, d2, 0x3B, 0x30 + m, 0x7E] =
        some [ConsoleInput.WriteConsoleInputW
                { bKeyDown := true, wRepeatCount := 1, wVirtualKeyCode := e.vk,
                  UnicodeChar := 0, dwControlKeyState := st },
              ConsoleInput.WriteConsoleInputW
                { bKeyDown := false, wRepeatCount := 1, wVirtualKeyCode := e.vk,
                  UnicodeChar := 0, dwControlKeyState := st }]) ∧
    (∀ l, e.in_ = [ESC, 0x5B, l] ∨ e.in_ = [ESC, 0x4F, l] →
      ProcessIncomingKeys (initialize_keylen keys) [ESC, 0x5B, 0x31, 0x3B, 0x30 + m, l] =
        some [ConsoleInput.WriteConsoleInputW
                { bKeyDown := true, wRepeatCount := 1, wVirtualKeyCode := e.vk,
                  UnicodeChar := 0, dwControlKeyState := st },
              ConsoleInput.WriteConsoleInputW
                { bKeyDown := false, wRepeatCount := 1, wVirtualKeyCode := e.vk,
                  UnicodeChar := 0, dwControlKeyState := st }]) := by
  obtain ⟨h1, h2, h3⟩ := modifier_forms_send (m, st) hm e he
  refine ⟨?_, ?_, ?_⟩
  · intro d hd
    have hd2 : wcharAt e.in_ 2 = d := by rw [hd]; rfl
    rw [hd2] at h1
    exact h1 hd
  · intro d1 d2 hd
    have hd2 : wcharAt e.in_ 2 = d1 := by rw [hd]; rfl
    have hd3 : wcharAt e.in_ 3 = d2 := by rw [hd]; rfl
    rw [hd2, hd3] at h2
    exact h2 hd
  · intro l hl
    have hl2 : wcharAt e.in_ 2 = l := by rcases hl with h | h <;> (rw [h]; rfl)
    rw [hl2] at h3
    exact h3 hl

/-- Instances of C2 named in the claim: the six-unit buffer `ESC [ 1 ; 5 C`
gives `VK_RIGHT` with `LEFT_CTRL_PRESSED`, and the seven-unit buffer
`ESC [ 1 5 ; 5 ~` gives `VK_F5` with `LEFT_CTRL_PRESSED`. -/
theorem ProcessIncomingKeys_modifier_witness :
    ProcessIncomingKeys (initialize_keylen keys) [0x1B, 0x5B, 0x31, 0x3B, 0x35, 0x43] =
        some [ConsoleInput.WriteConsoleInputW
                { bKeyDown := true, wRepeatCount := 1, wVirtualKeyCode := VK_RIGHT,
                  UnicodeChar := 0, dwControlKeyState := LEFT_CTRL_PRESSED },
              ConsoleInput.WriteConsoleInputW
                { bKeyDown := false, wRepeatCount := 1, wVirtualKeyCode := VK_RIGHT,
                  UnicodeChar := 0, dwControlKeyState := LEFT_CTRL_PRESSED }] ∧
      ProcessIncomingKeys (initialize_keylen keys) [0x1B, 0x5B, 0x31, 0x35, 0x3B, 0x35, 0x7E] =
        some [ConsoleInput.WriteConsoleInputW
                { bKeyDown := true, wRepeatCount := 1, wVirtualKeyCode := VK_F5,
                  UnicodeChar := 0, dwControlKeyState := LEFT_CTRL_PRESSED },
              ConsoleInput.WriteConsoleInputW
                { bKeyDown := false, wRepeatCount := 1, wVirtualKeyCode := VK_F5,
                  UnicodeChar := 0, dwControlKeyState := LEFT_CTRL_PRESSED }] :=
  ⟨(ProcessIncomingKeys_modifier 5 LEFT_CTRL_PRESSED (by decide)
      (key_translation.mk [0x1B, 0x5B, 0x43] VK_RIGHT 0 3 0) (by decide)).2.2 0x43
      (Or.inl rfl),
    (ProcessIncomingKeys_modifier 5 LEFT_CTRL_PRESSED (by decide)
      (key_translation.mk [0x1B, 0x5B, 0x31, 0x35, 0x7E] VK_F5 0 5 0) (by decide)).2.1 0x31 0x35
      rfl⟩

/-- C3: for the modifier values 1 and 8 and every row `e` of the initialised
table, the decoder applied to exactly `ESC [ d ; m ~` (row `ESC [ d ~`),
`ESC [ d1 d2 ; m ~` (row `ESC [ d1 d2 ~`) or `ESC [ 1 ; m l` (row `ESC [ l` or
`ESC O l`) returns having sent no record and raised no control event. -/
theorem ProcessIncomingKeys_modifier_rejected (m : Nat) (hm : m = 1 ∨ m = 8)
    (e : key_translation) (he : e ∈ initialize_keylen keys) :
    (∀ d, e.in_ = [ESC, 0x5B, d, 0x7E] →
      ProcessIncomingKeys (initialize_keylen keys) [ESC, 0x5B, d, 0x3B, 0x30 + m, 0x7E] =
        some []) ∧
    (∀ d1 d2, e.in_ = [ESC, 0x5B, d1, d2, 0x7E] →
      ProcessIncomingKeys (initialize_keylen keys) [ESC, 0x5B, d1, d2, 0x3B, 0x30 + m, 0x7E] =
        some []) ∧
    (∀ l, e.in_ = [ESC, 0x5B, l] ∨ e.in_ = [ESC, 0x4F, l] →
      ProcessIncomingKeys (initialize_keylen keys) [ESC, 0x5B, 0x31, 0x3B, 0x30 + m, l] =
        some []) := by
  obtain ⟨h1, h2, h3⟩ :=
    modifier_forms_silent m (by rcases hm with h | h <;> simp [h]) e he
  refine ⟨?_, ?_, ?_⟩
  · intro d hd
    have hd2 : wcharAt e.in_ 2 = d := by rw [hd]; rfl
    rw [hd2] at h1
    exact h1 hd
  · intro d1 d2 hd
    have hd2 : wcharAt e.in_ 2 = d1 := by rw [hd]; rfl
    have hd3 : wcharAt e.in_ 3 = d2 := by rw [hd]; rfl
    rw [hd2, hd3] at h2
    exact h2 hd
  · intro l hl
    have hl2 : wcharAt e.in_ 2 = l := by rcases hl with h | h <;> (rw [h]; rfl)
    rw [hl2] at h3
    exact h3 hl

/-- Instances of C3 named in the claim: `ESC [ 1 ; 1 C` and `ESC [ 1 ; 8 C`
send nothing. -/
theorem ProcessIncomingKeys_modifier_rejected_witness :
    ProcessIncomingKeys (initialize_keylen keys) [0x1B, 0x5B, 0x31, 0x3B, 0x31, 0x43] = some [] ∧
      ProcessIncomingKeys (initialize_keylen keys) [0x1B, 0x5B, 0x31, 0x3B, 0x38, 0x43] =
        some [] :=
  ⟨(ProcessIncomingKeys_modifier_rejected 1 (Or.inl rfl)
      (key_translation.mk [0x1B, 0x5B, 0x43] VK_RIGHT 0 3 0) (by decide)).2.2 0x43 (Or.inl rfl),
    (ProcessIncomingKeys_modifier_rejected 8 (Or.inr rfl)
      (key_translation.mk [0x1B, 0x5B, 0x43] VK_RIGHT 0 3 0) (by decide)).2.2 0x43 (Or.inl rfl)⟩

/-- After `initialize_keylen` the recorded length of every row is the length
of its input, and no input holds a NUL unit. -/
theorem keys_lengths :
    ∀ k ∈ initialize_keylen keys, k.in_key_len = k.in_.length ∧ ∀ x ∈ k.in_, x ≠ 0 := by
  decide

/-- No input of the table is a proper prefix of another input of the table. -/
theorem keys_prefix_free :
    ∀ a ∈ initialize_keylen keys, ∀ b ∈ initialize_keylen keys,
      a.in_ <+: b.in_ → a.in_.length = b.in_.length := by
  decide!

/-- The test of `CheckKeyTranslations` on a row of the initialised table holds
exactly when the input of the row opens the buffer. -/
theorem keys_match_iff_opens (k : key_translation) (hk : k ∈ initialize_keylen keys)
    (buf : List Nat) :
    (wcslen buf ≥ k.in_key_len ∧ wcsncmp buf k.in_ k.in_key_len = 0) ↔ k.in_ <+: buf := by
  obtain ⟨hlen, hnz⟩ := keys_lengths k hk
  rw [hlen, wcsncmp_eq_zero_iff_opens k.in_ hnz buf]
  constructor
  · exact fun h => h.2
  · exact fun h => ⟨h.length_le, h⟩

/-- The row read at the index a successful scan returns. -/
theorem CheckKeyTranslations_some (ks : List key_translation) (buf : List Nat) (buf_len j : Nat)
    (h : CheckKeyTranslations ks buf buf_len = some j) :
    keyAt ks j ∈ ks ∧ ks.get? j = some (keyAt ks j) ∧
      (buf_len ≥ (keyAt ks j).in_key_len ∧
        wcsncmp buf (keyAt ks j).in_ (keyAt ks j).in_key_len = 0) ∧
      ∀ i2 k2, i2 < j → ks.get? i2 = some k2 →
        ¬ (buf_len ≥ k2.in_key_len ∧ wcsncmp buf k2.in_ k2.in_key_len = 0) := by
  obtain ⟨i, hj, k, hk, hmatch, hfirst⟩ := CheckKeyTranslationsFrom_some buf buf_len ks 0 j h
  have hij : j = i := by omega
  subst hij
  have hkey : keyAt ks j = k := by
    unfold keyAt
    rw [List.getD_eq_getElem?_getD, ← List.get?_eq_getElem?, hk]
    rfl
  rw [hkey]
  exact ⟨List.get?_mem hk, hk, hmatch, hfirst⟩

/-- C4: when `CheckKeyTranslations` on the initialised table resolves a
buffer to the row of index `j`, that row is a row of the table whose input
opens the buffer, and no row of the table whose input opens the buffer has a
longer input: the row returned is a longest table entry that is a prefix of
the buffer, so a shorter entry is never preferred to a longer one. -/
theorem CheckKeyTranslations_longest_match (buf : List Nat) (j : Nat)
    (h : CheckKeyTranslations (initialize_keylen keys) buf (wcslen buf) = some j) :
    keyAt (initialize_keylen keys) j ∈ initialize_keylen keys ∧
      (keyAt (initialize_keylen keys) j).in_ <+: buf ∧
      ∀ b ∈ initialize_keylen keys, b.in_ <+: buf →
        b.in_.length ≤ (keyAt (initialize_keylen keys) j).in_.length := by
  obtain ⟨hmem, _, hmatch, _⟩ := CheckKeyTranslations_some _ _ _ _ h
  have hpre := (keys_match_iff_opens _ hmem buf).mp hmatch
  refine ⟨hmem, hpre, ?_⟩
  intro b hb hbpre
  rcases List.prefix_or_prefix_of_prefix hbpre hpre with h1 | h1
  · exact h1.length_le
  · exact le_of_eq (keys_prefix_free _ hmem b hb h1).symm

/-- Instance of C4 at the buffer `ESC [ 1 5 ~ x`, resolved to row 22, the row
`ESC [ 1 5 ~` of F5. -/
theorem CheckKeyTranslations_longest_match_witness :
    keyAt (initialize_keylen keys) 22 ∈ initialize_keylen keys ∧
      (keyAt (initialize_keylen keys) 22).in_ <+: [0x1B, 0x5B, 0x31, 0x35, 0x7E, 0x78] ∧
      ∀ b ∈ initialize_keylen keys, b.in_ <+: [0x1B, 0x5B, 0x31, 0x35, 0x7E, 0x78] →
        b.in_.length ≤ (keyAt (initialize_keylen keys) 22).in_.length :=
  CheckKeyTranslations_longest_match [0x1B, 0x5B, 0x31, 0x35, 0x7E, 0x78] 22 (by decide)

/-- C5: the three-unit buffer `ESC [ A` is decoded to exactly one key-down
record followed by one key-up record, both with virtual key `VK_UP`, character
0 and control state 0; no control event is raised. -/
theorem ProcessIncomingKeys_cursor_up :
    ProcessIncomingKeys (initialize_keylen keys) [0x1B, 0x5B, 0x41] =
      some [ConsoleInput.WriteConsoleInputW
              { bKeyDown := true, wRepeatCount := 1, wVirtualKeyCode := VK_UP,
                UnicodeChar := 0, dwControlKeyState := 0 },
            ConsoleInput.WriteConsoleInputW
              { bKeyDown := false, wRepeatCount := 1, wVirtualKeyCode := VK_UP,
                UnicodeChar := 0, dwControlKeyState := 0 }] := by
  decide

/-- C6: a buffer of `n` units 0x03 raises exactly `n` CTRL_C control events,
one per unit, and sends no key record. -/
theorem ProcessIncomingKeys_ctrl_c (n : Nat) :
    ProcessIncomingKeys (initialize_keylen keys) (List.replicate n 0x03) =
      some (List.replicate n (ConsoleInput.GenerateConsoleCtrlEvent CTRL_C_EVENT 0)) := by
  induction n with
  | zero => rfl
  | succ n ih =>
    rw [List.replicate_succ,
      ProcessIncomingKeys_cons_one _ _ _ _ (ProcessIncomingKeysStep_ctrl_c _), ih]
    rfl

theorem wcharAt_tail (s : List Nat) (i : Nat) : wcharAt s.tail i = wcharAt s (i + 1) := by
  cases s with
  | nil => simp [wcharAt]
  | cons x xs => simp [wcharAt]

theorem wcharAt_drop (s : List Nat) (n i : Nat) : wcharAt (s.drop n) i = wcharAt s (n + i) := by
  simp [wcharAt, List.getD_eq_getElem?_getD, List.getElem?_drop]

theorem wcharAt_ne_zero (s : List Nat) (hs : ∀ x ∈ s, x ≠ 0) (i : Nat) (hi : i < s.length) :
    wcharAt s i ≠ 0 := by
  unfold wcharAt
  rw [List.getD_eq_getElem s 0 hi]
  exact hs _ (List.getElem_mem hi)

theorem wcharAt_length_le (s : List Nat) (i : Nat) (hi : s.length ≤ i) : wcharAt s i = 0 := by
  unfold wcharAt
  rw [List.getD_eq_getElem?_getD, List.getElem?_eq_none hi]
  rfl

/-- On two units, the first of which is not NUL on the left, `wcsncmp`
reports equality exactly when both units agree. -/
theorem wcsncmp_two (a b : List Nat) (ha : wcharAt a 0 ≠ 0) :
    wcsncmp a b 2 = 0 ↔ wcharAt a 0 = wcharAt b 0 ∧ wcharAt a 1 = wcharAt b 1 := by
  have h1 := wcsncmp_one a.tail b.tail
  rw [wcharAt_tail, wcharAt_tail] at h1
  unfold wcsncmp
  by_cases hlt : wcharAt a 0 < wcharAt b 0
  · rw [if_pos hlt]
    constructor
    · intro h; omega
    · intro h; omega
  · rw [if_neg hlt]
    by_cases hgt : wcharAt a 0 > wcharAt b 0
    · rw [if_pos hgt]
      constructor
      · intro h; omega
      · intro h; omega
    · rw [if_neg hgt, if_neg ha, h1]
      constructor
      · intro h; exact ⟨by omega, h⟩
      · intro h; exact h.2

/-- On a table whose rows record the length of a NUL-free input,
`FindKeyTransByMask` with `vlen` 1 or 2 is the search for the first row that
passes the length test and the four comparisons. -/
theorem FindKeyTransByMask_eq_find (ks : List key_translation)
    (hks : ∀ k ∈ ks, k.in_key_len = k.in_.length ∧ ∀ x ∈ k.in_, x ≠ 0)
    (prefix_ : Nat) (value : List Nat) (vlen : Nat) (suffix : Nat) (hv : vlen = 1 ∨ vlen = 2) :
    FindKeyTransByMask ks prefix_ value vlen suffix =
      ks.find? (fun k => decide (vlen + 2 ≤ k.in_key_len ∧ wcharAt k.in_ 0 = ESC ∧
        wcharAt k.in_ 1 = prefix_ ∧ (∀ i < vlen, wcharAt k.in_ (2 + i) = wcharAt value i) ∧
        wcharAt k.in_ (vlen + 2) = suffix)) := by
  induction ks with
  | nil => rfl
  | cons k rest ih =>
    have ih2 := ih (fun k2 hk2 => hks k2 (List.mem_cons_of_mem k hk2))
    obtain ⟨hlen, hnz⟩ := hks k (List.mem_cons_self k rest)
    unfold FindKeyTransByMask
    rw [List.find?_cons]
    by_cases c1 : k.in_key_len < vlen + 2
    · rw [if_pos c1, ih2]
      have : decide (vlen + 2 ≤ k.in_key_len ∧ wcharAt k.in_ 0 = ESC ∧
          wcharAt k.in_ 1 = prefix_ ∧ (∀ i < vlen, wcharAt k.in_ (2 + i) = wcharAt value i) ∧
          wcharAt k.in_ (vlen + 2) = suffix) = false := by
        rw [decide_eq_false_iff_not]
        intro h; omega
      rw [this]
    · rw [if_neg c1]
      by_cases c2 : wcharAt k.in_ 0 ≠ ESC
      · rw [if_pos c2, ih2]
        have : decide (vlen + 2 ≤ k.in_key_len ∧ wcharAt k.in_ 0 = ESC ∧
            wcharAt k.in_ 1 = prefix_ ∧ (∀ i < vlen, wcharAt k.in_ (2 + i) = wcharAt value i) ∧
            wcharAt k.in_ (vlen + 2) = suffix) = false := by
          rw [decide_eq_false_iff_not]
          intro h; exact c2 h.2.1
        rw [this]
      · rw [if_neg c2]
        by_cases c3 : wcharAt k.in_ 1 ≠ prefix_
        · rw [if_pos c3, ih2]
          have : decide (vlen + 2 ≤ k.in_key_len ∧ wcharAt k.in_ 0 = ESC ∧
              wcharAt k.in_ 1 = prefix_ ∧ (∀ i < vlen, wcharAt k.in_ (2 + i) = wcharAt value i) ∧
              wcharAt k.in_ (vlen + 2) = suffix) = false := by
            rw [decide_eq_false_iff_not]
            intro h; exact c3 h.2.2.1
          rw [this]
        · rw [if_neg c3]
          by_cases c4 : wcharAt k.in_ (vlen + 2) ≠ suffix
          · rw [if_pos c4, ih2]
            have : decide (vlen + 2 ≤ k.in_key_len ∧ wcharAt k.in_ 0 = ESC ∧
                wcharAt k.in_ 1 = prefix_ ∧
                (∀ i < vlen, wcharAt k.in_ (2 + i) = wcharAt value i) ∧
                wcharAt k.in_ (vlen + 2) = suffix) = false := by
              rw [decide_eq_false_iff_not]
              intro h; exact c4 h.2.2.2.2
            rw [this]
          · rw [if_neg c4]
            have hval : (vlen ≤ 1 ∧ wcharAt value 0 = wcharAt k.in_ 2) ∨
                (vlen > 1 ∧ wcsncmp (k.in_.drop 2) value vlen = 0) ↔
                ∀ i < vlen, wcharAt k.in_ (2 + i) = wcharAt value i := by
              rcases hv with hv1 | hv2
              · subst hv1
                constructor
                · intro h i hi
                  have hi0 : i = 0 := by omega
                  subst hi0
                  rcases h with h | h
                  · exact h.2.symm
                  · omega
                · intro h
                  exact Or.inl ⟨le_refl 1, (h 0 (by omega)).symm⟩
              · subst hv2
                have hne : wcharAt (k.in_.drop 2) 0 ≠ 0 := by
                  rw [wcharAt_drop]
                  exact wcharAt_ne_zero _ hnz _ (by omega)
                rw [wcsncmp_two _ _ hne, wcharAt_drop, wcharAt_drop]
                constructor
                · intro h i hi
                  rcases h with h | h
                  · omega
                  · have hi01 : i = 0 ∨ i = 1 := by omega
                    rcases hi01 with h0 | h0
                    · subst h0; exact h.2.1
                    · subst h0; exact h.2.2
                · intro h
                  exact Or.inr ⟨by omega, h 0 (by omega), h 1 (by omega)⟩
            by_cases c5 : ∀ i < vlen, wcharAt k.in_ (2 + i) = wcharAt value i
            · have hyes : decide (vlen + 2 ≤ k.in_key_len ∧ wcharAt k.in_ 0 = ESC ∧
                  wcharAt k.in_ 1 = prefix_ ∧
                  (∀ i < vlen, wcharAt k.in_ (2 + i) = wcharAt value i) ∧
                  wcharAt k.in_ (vlen + 2) = suffix) = true := by
                rw [decide_eq_true_iff]
                exact ⟨by omega, not_not.mp c2, not_not.mp c3, c5, not_not.mp c4⟩
              rw [hyes]
              rcases hval.mpr c5 with h | h
              · rw [if_pos h]
              · by_cases c6 : vlen ≤ 1 ∧ wcharAt value 0 = wcharAt k.in_ 2
                · rw [if_pos c6]
                · rw [if_neg c6, if_pos h]
            · have hno : decide (vlen + 2 ≤ k.in_key_len ∧ wcharAt k.in_ 0 = ESC ∧
                  wcharAt k.in_ 1 = prefix_ ∧
                  (∀ i < vlen, wcharAt k.in_ (2 + i) = wcharAt value i) ∧
                  wcharAt k.in_ (vlen + 2) = suffix) = false := by
                rw [decide_eq_false_iff_not]
                intro h; exact c5 h.2.2.2.1
              rw [hno]
              have hn1 : ¬ (vlen ≤ 1 ∧ wcharAt value 0 = wcharAt k.in_ 2) :=
                fun h => c5 (hval.mp (Or.inl h))
              have hn2 : ¬ (vlen > 1 ∧ wcsncmp (k.in_.drop 2) value vlen = 0) :=
                fun h => c5 (hval.mp (Or.inr h))
              rw [if_neg hn1, if_neg hn2, ih2]

theorem find?_congr_mem {α : Type} (l : List α) (p q : α → Bool) (h : ∀ a ∈ l, p a = q a) :
    l.find? p = l.find? q := by
  induction l with
  | nil => rfl
  | cons a rest ih =>
    rw [List.find?_cons, List.find?_cons, h a (List.mem_cons_self a rest),
      ih (fun b hb => h b (List.mem_cons_of_mem a hb))]

/-- The values handed to `FindKeyTransByMask`.  `ProcessIncomingKeys` calls
`ProcessModifierKeySequence` with `buf_len` 6 or 7 only on a buffer that holds
at least that many units before its terminator, and the lookups receive the
buffer from unit 2 on with `vlen` 1 or 2, or from unit 5 on with `vlen` 1: the
`vlen` units read there precede the terminator. -/
theorem lookup_value_units (buf : List Nat) (hbuf : ∀ x ∈ buf, x ≠ 0) (n vlen : Nat)
    (h : n + vlen ≤ wcslen buf) : ∀ i < vlen, wcharAt (buf.drop n) i ≠ 0 := by
  intro i hi
  rw [wcharAt_drop]
  have hl : n + i < buf.length := by
    unfold wcslen at h
    omega
  exact wcharAt_ne_zero buf hbuf (n + i) hl

/-- C7: on the initialised table, for `vlen` 1 or 2 and a `value` whose units
`value[0 .. vlen)` are units of a string, none of them the terminator (every
call of the source passes units of the input that precede its terminator),
`FindKeyTransByMask` returns the first row `k`, in table order, such that
`k.in[0] = ESC`, `k.in[1] = prefix`, `k.in[2 .. 2+vlen)` equals
`value[0 .. vlen)` and `k.in[vlen+2] = suffix`, and it returns no match exactly
when no row of the table satisfies these four conditions. -/
theorem FindKeyTransByMask_first_match (prefix_ : Nat) (value : List Nat) (vlen : Nat)
    (suffix : Nat) (hv : vlen = 1 ∨ vlen = 2) (hnz : ∀ i < vlen, wcharAt value i ≠ 0) :
    FindKeyTransByMask (initialize_keylen keys) prefix_ value vlen suffix =
        (initialize_keylen keys).find? (fun (k : key_translation) => decide (
          wcharAt k.in_ 0 = ESC ∧ wcharAt k.in_ 1 = prefix_ ∧
          (∀ i < vlen, wcharAt k.in_ (2 + i) = wcharAt value i) ∧
          wcharAt k.in_ (vlen + 2) = suffix)) ∧
      (FindKeyTransByMask (initialize_keylen keys) prefix_ value vlen suffix = none ↔
        ∀ k ∈ initialize_keylen keys, ¬ (
          wcharAt k.in_ 0 = ESC ∧ wcharAt k.in_ 1 = prefix_ ∧
          (∀ i < vlen, wcharAt k.in_ (2 + i) = wcharAt value i) ∧
          wcharAt k.in_ (vlen + 2) = suffix)) := by
  have hfind := FindKeyTransByMask_eq_find (initialize_keylen keys) keys_lengths
    prefix_ value vlen suffix hv
  have hfour : FindKeyTransByMask (initialize_keylen keys) prefix_ value vlen suffix =
      (initialize_keylen keys).find? (fun (k : key_translation) => decide (
        wcharAt k.in_ 0 = ESC ∧ wcharAt k.in_ 1 = prefix_ ∧
        (∀ i < vlen, wcharAt k.in_ (2 + i) = wcharAt value i) ∧
        wcharAt k.in_ (vlen + 2) = suffix)) := by
    rw [hfind]
    apply find?_congr_mem
    intro k hk
    obtain ⟨hlen, _⟩ := keys_lengths k hk
    rw [decide_eq_decide]
    constructor
    · exact fun h => h.2
    · intro h
      refine ⟨?_, h⟩
      by_contra hshort
      have hi : vlen - 1 < vlen := by omega
      have hz := wcharAt_length_le k.in_ (2 + (vlen - 1)) (by omega)
      rw [h.2.2.1 (vlen - 1) hi] at hz
      exact hnz (vlen - 1) hi hz
  refine ⟨hfour, ?_⟩
  rw [hfour, List.find?_eq_none]
  constructor
  · intro h k hk hc
    exact h k hk (decide_eq_true hc)
  · intro h k hk hc
    exact h k hk (of_decide_eq_true hc)

/-- Instance of C7 at a call of the source: for the input `ESC [ 1 5 ; 5 ~`
the decoder passes the prefix `[`, the input from unit 2 on as value, `vlen` 2
and the suffix `~`; the two units `1 5` are not the terminator, and the search
by the four comparisons gives the row `ESC [ 1 5 ~` of F5. -/
theorem FindKeyTransByMask_first_match_witness :
    (∀ i : Nat, i < 2 →
        wcharAt ([0x1B, 0x5B, 0x31, 0x35, 0x3B, 0x35, 0x7E].drop 2) i ≠ 0) ∧
      (FindKeyTransByMask (initialize_keylen keys) 0x5B
          ([0x1B, 0x5B, 0x31, 0x35, 0x3B, 0x35, 0x7E].drop 2) 2 0x7E =
        (initialize_keylen keys).find? (fun (k : key_translation) => decide (
          wcharAt k.in_ 0 = ESC ∧ wcharAt k.in_ 1 = 0x5B ∧
          (∀ i : Nat, i < 2 → wcharAt k.in_ (2 + i) =
            wcharAt ([0x1B, 0x5B, 0x31, 0x35, 0x3B, 0x35, 0x7E].drop 2) i) ∧
          wcharAt k.in_ (2 + 2) = 0x7E))) ∧
      FindKeyTransByMask (initialize_keylen keys) 0x5B
          ([0x1B, 0x5B, 0x31, 0x35, 0x3B, 0x35, 0x7E].drop 2) 2 0x7E =
        some (key_translation.mk [0x1B, 0x5B, 0x31, 0x35, 0x7E] VK_F5 0 5 0) :=
  ⟨by decide,
    (FindKeyTransByMask_first_match 0x5B ([0x1B, 0x5B, 0x31, 0x35, 0x3B, 0x35, 0x7E].drop 2) 2
      0x7E (Or.inr rfl) (by decide)).1,
    by decide⟩

/-- The scan of `CheckKeyTranslations` from row `j0` on reads the row that
`List.find?` returns for the same test. -/
theorem CheckKeyTranslationsFrom_find (buf : List Nat) (buf_len : Nat)
    (ks : List key_translation) (j0 : Nat) :
    (CheckKeyTranslationsFrom buf buf_len ks j0).map (fun j => keyAt ks (j - j0)) =
      ks.find? (fun (k : key_translation) =>
        decide (buf_len ≥ k.in_key_len ∧ wcsncmp buf k.in_ k.in_key_len = 0)) := by
  induction ks generalizing j0 with
  | nil => rfl
  | cons k rest ih =>
    rw [List.find?_cons]
    unfold CheckKeyTranslationsFrom
    by_cases hm : buf_len ≥ k.in_key_len ∧ wcsncmp buf k.in_ k.in_key_len = 0
    · rw [if_pos hm, decide_eq_true hm]
      simp [keyAt]
    · rw [if_neg hm, decide_eq_false hm, ← ih (j0 + 1)]
      cases hx : CheckKeyTranslationsFrom buf buf_len rest (j0 + 1) with
      | none => rfl
      | some j =>
        obtain ⟨i, hj, _⟩ := CheckKeyTranslationsFrom_some buf buf_len rest (j0 + 1) j hx
        have e1 : j - j0 = i + 1 := by omega
        have e2 : j - (j0 + 1) = i := by omega
        simp [keyAt, e1, e2]

/-- On the initialised table, the row `CheckKeyTranslations` resolves a
buffer to is the first row, in table order, whose input opens the buffer. -/
theorem CheckKeyTranslations_keys_find (buf : List Nat) :
    (CheckKeyTranslations (initialize_keylen keys) buf (wcslen buf)).map
        (keyAt (initialize_keylen keys)) =
      (initialize_keylen keys).find? (fun (k : key_translation) => decide (k.in_ <+: buf)) := by
  have h := CheckKeyTranslationsFrom_find buf (wcslen buf) (initialize_keylen keys) 0
  simp only [Nat.sub_zero] at h
  unfold CheckKeyTranslations
  rw [show (fun j => keyAt (initialize_keylen keys) j) = keyAt (initialize_keylen keys) from rfl]
    at h
  rw [h]
  apply find?_congr_mem
  intro k hk
  rw [decide_eq_decide]
  exact keys_match_iff_opens k hk buf

/-- The virtual keys of the table fit the 16-bit field of the input record. -/
theorem keys_vk_word : ∀ k ∈ initialize_keylen keys, k.vk % 2 ^ 16 = k.vk := by
  decide

/-- A guarded call of `ProcessModifierKeySequence` that returns 0 sends
nothing. -/
theorem ProcessModifierKeySequence_guard (ks : List key_translation) (buf : List Nat)
    (buf_len : Nat) (c : Prop) [Decidable c]
    (h : c → (ProcessModifierKeySequence ks buf buf_len).2 = 0) :
    (if c then ProcessModifierKeySequence ks buf buf_len else ([], 0)) = ([], 0) := by
  by_cases hc : c
  · rw [if_pos hc]
    exact Prod.ext (ProcessModifierKeySequence_zero ks buf buf_len (h hc)) (h hc)
  · rw [if_neg hc]

/-- One pass over a buffer that starts with ESC, is opened by no table input
and is no modifier sequence: the ALT rule or the literal ESC key stroke. -/
theorem ProcessIncomingKeysStep_esc (rest : List Nat)
    (hT : ∀ k ∈ initialize_keylen keys, ¬ k.in_ <+: ESC :: rest)
    (h7 : 7 ≤ wcslen (ESC :: rest) →
      (ProcessModifierKeySequence (initialize_keylen keys) (ESC :: rest) 7).2 = 0)
    (h6 : 6 ≤ wcslen (ESC :: rest) →
      (ProcessModifierKeySequence (initialize_keylen keys) (ESC :: rest) 6).2 = 0) :
    ProcessIncomingKeysStep (initialize_keylen keys) (ESC :: rest) =
      match CheckKeyTranslations (initialize_keylen keys) rest (wcslen rest) with
      | some j =>
        if (keyAt (initialize_keylen keys) j).ctrlState &&& LEFT_ALT_PRESSED = 0 then
          (SendKeyStroke (keyAt (initialize_keylen keys) j).vk
              (keyAt (initialize_keylen keys) j).out
              ((keyAt (initialize_keylen keys) j).ctrlState ||| LEFT_ALT_PRESSED),
            rest.drop (keyAt (initialize_keylen keys) j).in_key_len)
        else (SendKeyStroke VK_ESCAPE 0x1B 0, rest)
      | none => (SendKeyStroke VK_ESCAPE 0x1B 0, rest) := by
  have hnone : CheckKeyTranslations (initialize_keylen keys) (ESC :: rest)
      (wcslen (ESC :: rest)) = none := by
    apply CheckKeyTranslationsFrom_none
    intro k hk hm
    exact hT k hk ((keys_match_iff_opens k hk _).mp hm)
  have e7 : MAX_CTRL_SEQ_LEN = 7 := rfl
  have e6 : MAX_CTRL_SEQ_LEN - 1 = 6 := rfl
  have g7 := ProcessModifierKeySequence_guard (initialize_keylen keys) (ESC :: rest) 7
    (wcslen (ESC :: rest) ≥ 7) h7
  have g6 := ProcessModifierKeySequence_guard (initialize_keylen keys) (ESC :: rest) 6
    (wcslen (ESC :: rest) ≥ 6) h6
  have hesc : wcsncmp (ESC :: rest) [ESC] (wcslen [ESC]) = 0 := by
    rw [show wcslen [ESC] = 1 from rfl, wcsncmp_one]
    rfl
  have hlen : wcslen (ESC :: rest) - wcslen [ESC] = wcslen rest := by
    simp [wcslen]
  unfold ProcessIncomingKeysStep
  dsimp only
  rw [hnone]
  dsimp only
  rw [e6, e7, g7, g6, if_pos hesc, hlen]
  simp only [ne_eq, not_true_eq_false, if_false, List.nil_append]
  rw [show wcslen [ESC] = 1 from rfl]
  simp only [List.drop_succ_cons, List.drop_zero]
  cases CheckKeyTranslations (initialize_keylen keys) rest (wcslen rest) with
  | none => rfl
  | some j =>
    dsimp only
    by_cases halt : (keyAt (initialize_keylen keys) j).ctrlState &&& LEFT_ALT_PRESSED = 0
    · rw [if_pos halt, if_pos halt]
      congr 1
      rw [Nat.add_comm, List.drop_succ_cons]
    · rw [if_neg halt, if_neg halt]

/-- C8, as amended: on a buffer `ESC :: rest` that no table input opens and
that is no modifier sequence, let `t` be the first row of the initialised
table, in table order, whose input opens `rest`.  If `t` exists and its
control state does not contain `LEFT_ALT_PRESSED`, one pass sends exactly one
key-down and key-up pair with `t.vk`, `t.out` and
`t.ctrlState | LEFT_ALT_PRESSED` and consumes `1 + length(t)` units;
otherwise it sends exactly one pair with `VK_ESCAPE`, character 0x1B and
control state 0 and consumes exactly one unit. -/
theorem ProcessIncomingKeysStep_bare_esc (rest : List Nat)
    (hT : ∀ k ∈ initialize_keylen keys, ¬ k.in_ <+: ESC :: rest)
    (h7 : 7 ≤ wcslen (ESC :: rest) →
      (ProcessModifierKeySequence (initialize_keylen keys) (ESC :: rest) 7).2 = 0)
    (h6 : 6 ≤ wcslen (ESC :: rest) →
      (ProcessModifierKeySequence (initialize_keylen keys) (ESC :: rest) 6).2 = 0) :
    (∀ t, (initialize_keylen keys).find?
          (fun (k : key_translation) => decide (k.in_ <+: rest)) = some t →
        t.ctrlState &&& LEFT_ALT_PRESSED = 0 →
        ProcessIncomingKeysStep (initialize_keylen keys) (ESC :: rest) =
          ([ConsoleInput.WriteConsoleInputW
              { bKeyDown := true, wRepeatCount := 1, wVirtualKeyCode := t.vk,
                UnicodeChar := t.out, dwControlKeyState := t.ctrlState ||| LEFT_ALT_PRESSED },
            ConsoleInput.WriteConsoleInputW
              { bKeyDown := false, wRepeatCount := 1, wVirtualKeyCode := t.vk,
                UnicodeChar := t.out, dwControlKeyState := t.ctrlState ||| LEFT_ALT_PRESSED }],
            (ESC :: rest).drop (1 + t.in_.length))) ∧
      ((∀ t, (initialize_keylen keys).find?
            (fun (k : key_translation) => decide (k.in_ <+: rest)) = some t →
          t.ctrlState &&& LEFT_ALT_PRESSED ≠ 0) →
        ProcessIncomingKeysStep (initialize_keylen keys) (ESC :: rest) =
          ([ConsoleInput.WriteConsoleInputW
              { bKeyDown := true, wRepeatCount := 1, wVirtualKeyCode := VK_ESCAPE,
                UnicodeChar := 0x1B, dwControlKeyState := 0 },
            ConsoleInput.WriteConsoleInputW
              { bKeyDown := false, wRepeatCount := 1, wVirtualKeyCode := VK_ESCAPE,
                UnicodeChar := 0x1B, dwControlKeyState := 0 }],
            (ESC :: rest).drop 1)) := by
  have hstep := ProcessIncomingKeysStep_esc rest hT h7 h6
  have hfind := CheckKeyTranslations_keys_find rest
  constructor
  · intro t ht halt
    rw [ht] at hfind
    cases hc : CheckKeyTranslations (initialize_keylen keys) rest (wcslen rest) with
    | none => rw [hc] at hfind; simp at hfind
    | some j =>
      rw [hc] at hfind hstep
      have hkey : keyAt (initialize_keylen keys) j = t := by simpa using hfind
      have hmem : t ∈ initialize_keylen keys := by
        rw [← hkey]
        exact (CheckKeyTranslations_some _ _ _ _ hc).1
      dsimp only at hstep
      rw [hkey, if_pos halt, (keys_lengths t hmem).1] at hstep
      rw [hstep, Nat.add_comm, List.drop_succ_cons]
      simp only [SendKeyStroke, SendKeyStrokeEx, keys_vk_word t hmem, List.singleton_append]
  · intro hall
    cases hc : CheckKeyTranslations (initialize_keylen keys) rest (wcslen rest) with
    | none =>
      rw [hc] at hstep
      rw [hstep]
      rfl
    | some j =>
      rw [hc] at hfind hstep
      have halt := hall (keyAt (initialize_keylen keys) j) (by simpa using hfind.symm)
      dsimp only at hstep
      rw [if_neg halt] at hstep
      rw [hstep]
      rfl

/-- Instances of the amended C8: `ESC 0x0D` is sent as the ALT form of the
row of `VK_RETURN` and consumed whole; of `ESC ESC a` only the first ESC is
consumed, as a literal ESC key stroke, because the row `ESC a` that opens the
rest already carries `LEFT_ALT_PRESSED`. -/
theorem ProcessIncomingKeysStep_bare_esc_witness :
    ProcessIncomingKeysStep (initialize_keylen keys) [0x1B, 0x0D] =
        ([ConsoleInput.WriteConsoleInputW
            { bKeyDown := true, wRepeatCount := 1, wVirtualKeyCode := VK_RETURN,
              UnicodeChar := 0x0D, dwControlKeyState := LEFT_ALT_PRESSED },
          ConsoleInput.WriteConsoleInputW
            { bKeyDown := false, wRepeatCount := 1, wVirtualKeyCode := VK_RETURN,
              UnicodeChar := 0x0D, dwControlKeyState := LEFT_ALT_PRESSED }], []) ∧
      ProcessIncomingKeysStep (initialize_keylen keys) [0x1B, 0x1B, 0x61] =
        ([ConsoleInput.WriteConsoleInputW
            { bKeyDown := true, wRepeatCount := 1, wVirtualKeyCode := VK_ESCAPE,
              UnicodeChar := 0x1B, dwControlKeyState := 0 },
          ConsoleInput.WriteConsoleInputW
            { bKeyDown := false, wRepeatCount := 1, wVirtualKeyCode := VK_ESCAPE,
              UnicodeChar := 0x1B, dwControlKeyState := 0 }], [0x1B, 0x61]) :=
  ⟨(ProcessIncomingKeysStep_bare_esc [0x0D] (by decide) (by decide) (by decide)).1
      (key_translation.mk [0x0D] VK_RETURN 0x0D 1 0) (by decide) (by decide),
    (ProcessIncomingKeysStep_bare_esc [0x1B, 0x61] (by decide) (by decide) (by decide)).2
      (by decide)⟩

/-- C8 as stated fails on the buffer `ESC 0x08` for the row of CTRL+H, with
input 0x08, virtual key `VK_H`, character 0x08 and `LEFT_CTRL_PRESSED`: this
row opens the text after the ESC and carries no `LEFT_ALT_PRESSED`, no table
input opens the buffer and the buffer is too short for a modifier sequence,
yet the pass sends the ALT form of the earlier row of the backspace, with
`VK_BACK`, not the pair of `VK_H` with
`LEFT_CTRL_PRESSED | LEFT_ALT_PRESSED`. -/
theorem ProcessIncomingKeysStep_bare_esc_counterexample :
    key_translation.mk [0x08] VK_H 0x08 1 LEFT_CTRL_PRESSED ∈ initialize_keylen keys ∧
      [0x08] <+: [0x08] ∧ LEFT_CTRL_PRESSED &&& LEFT_ALT_PRESSED = 0 ∧
      (∀ k ∈ initialize_keylen keys, ¬ k.in_ <+: [0x1B, 0x08]) ∧
      wcslen [0x1B, 0x08] < MIN_CTRL_SEQ_LEN ∧
      ProcessIncomingKeysStep (initialize_keylen keys) [0x1B, 0x08] =
        ([ConsoleInput.WriteConsoleInputW
            { bKeyDown := true, wRepeatCount := 1, wVirtualKeyCode := VK_BACK,
              UnicodeChar := 0x08, dwControlKeyState := LEFT_ALT_PRESSED },
          ConsoleInput.WriteConsoleInputW
            { bKeyDown := false, wRepeatCount := 1, wVirtualKeyCode := VK_BACK,
              UnicodeChar := 0x08, dwControlKeyState := LEFT_ALT_PRESSED }], []) ∧
      ProcessIncomingKeysStep (initialize_keylen keys) [0x1B, 0x08] ≠
        ([ConsoleInput.WriteConsoleInputW
            { bKeyDown := true, wRepeatCount := 1, wVirtualKeyCode := VK_H,
              UnicodeChar := 0x08,
              dwControlKeyState := LEFT_CTRL_PRESSED ||| LEFT_ALT_PRESSED },
          ConsoleInput.WriteConsoleInputW
            { bKeyDown := false, wRepeatCount := 1, wVirtualKeyCode := VK_H,
              UnicodeChar := 0x08,
              dwControlKeyState := LEFT_CTRL_PRESSED ||| LEFT_ALT_PRESSED }], []) := by
  decide

/-- C9: a buffer none of whose units is ESC, 0x03, another unit of
0x01..0x1A or 0x7F is decoded to one key-down and key-up pair per unit, in
input order, each with virtual key 0, the unit as character and control state
0, and to nothing else. -/
theorem ProcessIncomingKeys_literal (buf : List Nat)
    (h : ∀ u ∈ buf, u ≠ ESC ∧ u ≠ 0x03 ∧ ¬ (0x01 ≤ u ∧ u ≤ 0x1A) ∧ u ≠ 0x7F) :
    ProcessIncomingKeys (initialize_keylen keys) buf =
      some (buf.flatMap fun u =>
        [ConsoleInput.WriteConsoleInputW
            { bKeyDown := true, wRepeatCount := 1, wVirtualKeyCode := 0,
              UnicodeChar := u, dwControlKeyState := 0 },
          ConsoleInput.WriteConsoleInputW
            { bKeyDown := false, wRepeatCount := 1, wVirtualKeyCode := 0,
              UnicodeChar := u, dwControlKeyState := 0 }]) := by
  induction buf with
  | nil => rfl
  | cons u rest ih =>
    obtain ⟨h1, _, h3, h4⟩ := h u (List.mem_cons_self u rest)
    rw [ProcessIncomingKeys_cons_one _ _ _ _ (ProcessIncomingKeysStep_literal u rest h1 h4 h3),
      ih (fun v hv => h v (List.mem_cons_of_mem u hv))]
    rfl

/-- Instance of C9 at the buffer `h i`. -/
theorem ProcessIncomingKeys_literal_witness :
    ProcessIncomingKeys (initialize_keylen keys) [0x68, 0x69] =
      some [ConsoleInput.WriteConsoleInputW
              { bKeyDown := true, wRepeatCount := 1, wVirtualKeyCode := 0,
                UnicodeChar := 0x68, dwControlKeyState := 0 },
            ConsoleInput.WriteConsoleInputW
              { bKeyDown := false, wRepeatCount := 1, wVirtualKeyCode := 0,
                UnicodeChar := 0x68, dwControlKeyState := 0 },
            ConsoleInput.WriteConsoleInputW
              { bKeyDown := true, wRepeatCount := 1, wVirtualKeyCode := 0,
                UnicodeChar := 0x69, dwControlKeyState := 0 },
            ConsoleInput.WriteConsoleInputW
              { bKeyDown := false, wRepeatCount := 1, wVirtualKeyCode := 0,
                UnicodeChar := 0x69, dwControlKeyState := 0 }] :=
  ProcessIncomingKeys_literal [0x68, 0x69] (by decide)

/-! ## Claims about the character renderer -/

/-- The attribute sequence is longer than the bytes of any one character. -/
theorem formatted_output_ne_character (attributes character : Nat) :
    formatted_output attributes ≠ WideCharToMultiByte character := by
  intro h
  have hlen := congrArg List.length h
  have h1 : 8 ≤ (formatted_output attributes).length := by
    unfold formatted_output
    simp only [List.length_append, List.length_cons, List.length_nil]
    omega
  have h2 : (WideCharToMultiByte character).length ≤ 3 := by
    unfold WideCharToMultiByte
    split_ifs <;> simp
  omega

theorem WideCharToMultiByte_length_pos (character : Nat) :
    (WideCharToMultiByte character).length > 0 := by
  unfold WideCharToMultiByte
  split_ifs <;> simp

/-- C10: with ANSI emulation enabled, for every remembered attribute word
`p`, every attribute word `a` without the trailing-byte flag and all non-null
characters `c1` and `c2`, `SendCharacter(a, c1)` followed by
`SendCharacter(a, c2)` writes the attribute sequence of `a` at most once over
both calls and never in the second call, whose only write is the UTF-8 bytes
of `c2`; the first call writes the attribute sequence, when `a` differs from
`p`, and then the bytes of `c1`. -/
theorem SendCharacter_same_attributes (p a c1 c2 : Nat) (hc1 : c1 ≠ 0) (hc2 : c2 ≠ 0)
    (ha : a &&& COMMON_LVB_TRAILING_BYTE = 0) :
    (SendCharacter true p a c1).1 =
        (if a ≠ p then [formatted_output a] else []) ++ [WideCharToMultiByte c1] ∧
      (SendCharacter true (SendCharacter true p a c1).2 a c2).1 = [WideCharToMultiByte c2] ∧
      formatted_output a ∉ (SendCharacter true (SendCharacter true p a c1).2 a c2).1 ∧
      List.count (formatted_output a)
        ((SendCharacter true p a c1).1 ++
          (SendCharacter true (SendCharacter true p a c1).2 a c2).1) ≤ 1 := by
  have hfirst : (SendCharacter true p a c1).1 =
      (if a ≠ p then [formatted_output a] else []) ++ [WideCharToMultiByte c1] := by
    unfold SendCharacter
    rw [if_neg hc1]
    dsimp only
    rw [if_pos ha, if_pos (WideCharToMultiByte_length_pos c1)]
    simp
  have hstate : (SendCharacter true p a c1).2 = a := by
    unfold SendCharacter
    rw [if_neg hc1]
  have hsecond : (SendCharacter true (SendCharacter true p a c1).2 a c2).1 =
      [WideCharToMultiByte c2] := by
    rw [hstate]
    unfold SendCharacter
    rw [if_neg hc2]
    dsimp only
    rw [if_pos ha, if_pos (WideCharToMultiByte_length_pos c2)]
    simp
  refine ⟨hfirst, hsecond, ?_, ?_⟩
  · rw [hsecond, List.mem_singleton]
    exact formatted_output_ne_character a c2
  · rw [hsecond, hfirst]
    have n1 := formatted_output_ne_character a c1
    have n2 := formatted_output_ne_character a c2
    by_cases hap : a ≠ p
    · rw [if_pos hap]
      simp [List.count_cons, n1.symm, n2.symm]
    · rw [if_neg hap]
      simp [List.count_cons, n1.symm, n2.symm]

/-- Instance of C10: the letters `A` then `B` with attribute word 0x07 after
attribute word 0: the first call writes `ESC [ 0 ; 39 ; 24 ; 27 ; 37 ; 40 m`
and `A`, the second call writes `B` only. -/
theorem SendCharacter_same_attributes_witness :
    (SendCharacter true 0 0x07 0x41).1 =
        (if 0x07 ≠ 0 then [formatted_output 0x07] else []) ++ [WideCharToMultiByte 0x41] ∧
      (SendCharacter true (SendCharacter true 0 0x07 0x41).2 0x07 0x42).1 =
        [WideCharToMultiByte 0x42] ∧
      formatted_output 0x07 ∉ (SendCharacter true (SendCharacter true 0 0x07 0x41).2 0x07 0x42).1 ∧
      List.count (formatted_output 0x07)
        ((SendCharacter true 0 0x07 0x41).1 ++
          (SendCharacter true (SendCharacter true 0 0x07 0x41).2 0x07 0x42).1) ≤ 1 :=
  SendCharacter_same_attributes 0 0x07 0x41 0x42 (by decide) (by decide) (by decide)

/-! ## Claims about the output sequences -/

theorem digitChar_toNat (d : Nat) (hd : d < 10) : (Nat.digitChar d).toNat = 0x30 + d := by
  interval_cases d <;> rfl

/-- The conversion `%u` of the model yields the decimal digits of the
library. -/
theorem utoaAux_eq_toDigitsCore (fuel n : Nat) (acc : List Char) :
    utoaAux fuel n (acc.map Char.toNat) = (Nat.toDigitsCore 10 fuel n acc).map Char.toNat := by
  induction fuel generalizing n acc with
  | zero => simp [utoaAux, Nat.toDigitsCore]
  | succ f ih =>
    have hd := digitChar_toNat (n % 10) (Nat.mod_lt n (by decide))
    unfold utoaAux
    rw [Nat.toDigitsCore]
    by_cases h0 : n / 10 = 0
    · simp only [h0, if_true, List.map_cons, hd]
    · simp only [h0, if_false]
      rw [← ih (n / 10) ((n % 10).digitChar :: acc), List.map_cons, hd]

theorem fmt_u_eq_toDigits (n : Nat) : fmt_u n = (Nat.toDigits 10 n).map Char.toNat := by
  unfold fmt_u Nat.toDigits
  exact utoaAux_eq_toDigitsCore (n + 1) n []

theorem boolToInt_bne (x : Nat) : boolToInt (x != 0) = if x ≠ 0 then 1 else 0 := by
  by_cases h : x = 0 <;> simp [boolToInt, h]

/-- C11: for every attribute word the sequence `SendCharacter` builds is
`ESC [ f1 ; f2 ; f3 ; f4 ; f5 ; f6 m`, the six fields in decimal, with `f1` 1
or 0 for the foreground intensity, `f2` 1 or 39 for the background intensity,
`f3` 4 or 24 for the underscore, `f4` 7 or 27 for reverse video, `f5` 30 plus
1 for red, 2 for green and 4 for blue of the foreground, between 30 and 37,
and `f6` 40 plus the same weights of the background, between 40 and 47; and
this sequence is the first write of `SendCharacter` whenever it writes
attributes. -/
theorem formatted_output_fields (attributes : Nat) :
    formatted_output attributes =
        [0x1B, 0x5B] ++
          (Nat.toDigits 10 (if attributes &&& FOREGROUND_INTENSITY ≠ 0 then 1 else 0)).map
            Char.toNat ++ [0x3B] ++
          (Nat.toDigits 10 (if attributes &&& BACKGROUND_INTENSITY ≠ 0 then 1 else 39)).map
            Char.toNat ++ [0x3B] ++
          (Nat.toDigits 10 (if attributes &&& COMMON_LVB_UNDERSCORE ≠ 0 then 4 else 24)).map
            Char.toNat ++ [0x3B] ++
          (Nat.toDigits 10 (if attributes &&& COMMON_LVB_REVERSE_VIDEO ≠ 0 then 7 else 27)).map
            Char.toNat ++ [0x3B] ++
          (Nat.toDigits 10
            (30 + 1 * (if attributes &&& FOREGROUND_RED ≠ 0 then 1 else 0) +
              2 * (if attributes &&& FOREGROUND_GREEN ≠ 0 then 1 else 0) +
              4 * (if attributes &&& FOREGROUND_BLUE ≠ 0 then 1 else 0))).map Char.toNat ++
          [0x3B] ++
          (Nat.toDigits 10
            (40 + 1 * (if attributes &&& BACKGROUND_RED ≠ 0 then 1 else 0) +
              2 * (if attributes &&& BACKGROUND_GREEN ≠ 0 then 1 else 0) +
              4 * (if attributes &&& BACKGROUND_BLUE ≠ 0 then 1 else 0))).map Char.toNat ++
          [0x6D] ∧
      (30 ≤ 30 + 1 * (if attributes &&& FOREGROUND_RED ≠ 0 then 1 else 0) +
          2 * (if attributes &&& FOREGROUND_GREEN ≠ 0 then 1 else 0) +
          4 * (if attributes &&& FOREGROUND_BLUE ≠ 0 then 1 else 0) ∧
        30 + 1 * (if attributes &&& FOREGROUND_RED ≠ 0 then 1 else 0) +
          2 * (if attributes &&& FOREGROUND_GREEN ≠ 0 then 1 else 0) +
          4 * (if attributes &&& FOREGROUND_BLUE ≠ 0 then 1 else 0) ≤ 37) ∧
      (40 ≤ 40 + 1 * (if attributes &&& BACKGROUND_RED ≠ 0 then 1 else 0) +
          2 * (if attributes &&& BACKGROUND_GREEN ≠ 0 then 1 else 0) +
          4 * (if attributes &&& BACKGROUND_BLUE ≠ 0 then 1 else 0) ∧
        40 + 1 * (if attributes &&& BACKGROUND_RED ≠ 0 then 1 else 0) +
          2 * (if attributes &&& BACKGROUND_GREEN ≠ 0 then 1 else 0) +
          4 * (if attributes &&& BACKGROUND_BLUE ≠ 0 then 1 else 0) ≤ 47) ∧
      (∀ pattributes character : Nat, character ≠ 0 → attributes ≠ pattributes →
        (SendCharacter true pattributes attributes character).1.head? =
          some (formatted_output attributes)) := by
  refine ⟨?_, ?_, ?_, ?_⟩
  · unfold formatted_output
    simp only [fmt_u_eq_toDigits, boolToInt_bne]
    have e5 : ∀ r g b : Nat, 30 + 4 * b + 2 * g + 1 * r = 30 + 1 * r + 2 * g + 4 * b := by
      intro r g b; omega
    have e6 : ∀ r g b : Nat, 40 + 4 * b + 2 * g + 1 * r = 40 + 1 * r + 2 * g + 4 * b := by
      intro r g b; omega
    rw [e5, e6]
  · constructor
    · omega
    · split_ifs <;> omega
  · constructor
    · omega
    · split_ifs <;> omega
  · intro pattributes character hc hne
    unfold SendCharacter
    rw [if_neg hc]
    dsimp only
    rw [if_pos ⟨rfl, hne⟩]
    rfl

/-- Instance of C11 at the attribute word 0x9C after the attribute word 0:
intense red foreground on intense blue background, sent as
`ESC [ 1 ; 1 ; 24 ; 27 ; 31 ; 44 m`. -/
theorem formatted_output_fields_witness :
    formatted_output 0x9C = 0x1B :: "[1;1;24;27;31;44m".toList.map Char.toNat ∧
      (SendCharacter true 0 0x9C 0x41).1.head? = some (formatted_output 0x9C) :=
  ⟨by decide, (formatted_output_fields 0x9C).2.2.2 0 0x41 (by decide) (by decide)⟩

/-- With enough passes the loop of `CalculateAndSetCursor` sends one line feed
per line from `n` up to `y`, when ANSI emulation is enabled, and nothing
otherwise. -/
theorem SendLFLoop_eq_replicate (b : Bool) (fuel : Nat) (n y : Int)
    (hfuel : (y - n).toNat ≤ fuel) :
    SendLFLoop b fuel n y = if b = true then List.replicate (y - n).toNat [0x0A] else [] := by
  induction fuel generalizing n with
  | zero =>
    have h0 : (y - n).toNat = 0 := by omega
    simp [SendLFLoop, h0]
  | succ f ih =>
    unfold SendLFLoop
    by_cases hlt : n < y
    · rw [if_pos hlt, ih (n + 1) (by omega)]
      have hsucc : (y - n).toNat = (y - (n + 1)).toNat + 1 := by omega
      cases b with
      | false => simp [SendLF]
      | true => simp [SendLF, hsucc, List.replicate_succ]
    · rw [if_neg hlt]
      have h0 : (y - n).toNat = 0 := by omega
      simp [h0]

/-- C12: for `short` values `y` and `currentLine`, `CalculateAndSetCursor`
leaves `currentLine = y` in every case; with ANSI emulation enabled it writes
exactly `max(0, y - currentLine)` line feeds when `scroll` is set and none
when it is not, followed by the move `ESC [ (y+1) ; (x+1) H`; with ANSI
emulation disabled it writes nothing. -/
theorem CalculateAndSetCursor_spec (bUseAnsiEmulation : Bool) (currentLine x y : Int)
    (scroll : Bool) (hy : -32768 ≤ y ∧ y ≤ 32767)
    (hc : -32768 ≤ currentLine ∧ currentLine ≤ 32767) :
    (CalculateAndSetCursor bUseAnsiEmulation currentLine x y scroll).2 = y ∧
      (CalculateAndSetCursor true currentLine x y scroll).1 =
        List.replicate (if scroll = true then (y - currentLine).toNat else 0) [0x0A] ++
          [[0x1B, 0x5B] ++ fmt_d (y + 1) ++ [0x3B] ++ fmt_d (x + 1) ++ [0x48]] ∧
      (CalculateAndSetCursor false currentLine x y scroll).1 = [] := by
  refine ⟨rfl, ?_, ?_⟩
  · unfold CalculateAndSetCursor SendSetCursor
    dsimp only
    have hlen : ([0x1B, 0x5B] ++ fmt_d (y + 1) ++ [0x3B] ++ fmt_d (x + 1) ++ [0x48]).length > 0 ∧
        true = true := ⟨by simp, rfl⟩
    rw [if_pos hlen]
    congr 1
    by_cases hs : scroll = true ∧ y > currentLine
    · rw [if_pos hs, if_pos hs.1, SendLFLoop_eq_replicate true 65536 currentLine y (by omega)]
      rfl
    · rw [if_neg hs]
      by_cases hs1 : scroll = true
      · rw [if_pos hs1]
        have h0 : (y - currentLine).toNat = 0 := by
          have : ¬ y > currentLine := fun h => hs ⟨hs1, h⟩
          omega
        rw [h0]
        rfl
      · rw [if_neg hs1]
        rfl
  · unfold CalculateAndSetCursor SendSetCursor
    dsimp only
    have hno : ¬ (([0x1B, 0x5B] ++ fmt_d (y + 1) ++ [0x3B] ++ fmt_d (x + 1) ++ [0x48]).length > 0 ∧
        false = true) := fun h => Bool.noConfusion h.2
    rw [if_neg hno]
    by_cases hs : scroll = true ∧ y > currentLine
    · rw [if_pos hs, SendLFLoop_eq_replicate false 65536 currentLine y (by omega)]
      rfl
    · rw [if_neg hs]
      rfl

/-- The conversion `%d` of the model on a number that is not negative yields
the decimal digits of the library. -/
theorem fmt_d_eq_toDigits (n : Nat) : fmt_d (n : Int) = (Nat.toDigits 10 n).map Char.toNat := by
  unfold fmt_d
  rw [if_neg (by omega), Int.toNat_ofNat, fmt_u_eq_toDigits]

/-- Instance of C12: from line 7 to column 4 of line 9 with `scroll` set, two
line feeds and `ESC [ 10 ; 5 H` are written; from line 7 back to line 2
nothing but `ESC [ 3 ; 1 H`; the tracked line becomes the target line. -/
theorem CalculateAndSetCursor_spec_witness :
    (CalculateAndSetCursor true 7 4 9 true).2 = 9 ∧
      (CalculateAndSetCursor true 7 4 9 true).1 =
        [[0x0A], [0x0A], 0x1B :: "[10;5H".toList.map Char.toNat] ∧
      (CalculateAndSetCursor true 7 0 2 true).1 = [0x1B :: "[3;1H".toList.map Char.toNat] ∧
      (CalculateAndSetCursor false 7 4 9 true).1 = [] :=
  ⟨(CalculateAndSetCursor_spec true 7 4 9 true (by decide) (by decide)).1,
    (CalculateAndSetCursor_spec true 7 4 9 true (by decide) (by decide)).2.1.trans (by decide),
    (CalculateAndSetCursor_spec true 7 0 2 true (by decide) (by decide)).2.1.trans (by decide),
    (CalculateAndSetCursor_spec true 7 4 9 true (by decide) (by decide)).2.2⟩

/-- C13: with ANSI emulation enabled the six primitives write exactly LF,
`ESC [ 2 J`, `ESC [ 1 J`, `ESC [ ? 2 5 l`, `ESC [ ? 2 5 h` and `ESC [ 6 n`;
with ANSI emulation disabled each of them and `SendSetCursor` write nothing,
and `SendCharacter` writes the bytes of the character, when it is not null
and the cell is not a trailing cell, and nothing else. -/
theorem Send_primitives_bytes :
    SendLF true = [[0x0A]] ∧
      SendClearScreen true = [0x1B :: "[2J".toList.map Char.toNat] ∧
      SendClearScreenFromCursor true = [0x1B :: "[1J".toList.map Char.toNat] ∧
      SendHideCursor true = [0x1B :: "[?25l".toList.map Char.toNat] ∧
      SendShowCursor true = [0x1B :: "[?25h".toList.map Char.toNat] ∧
      SendCursorPositionRequest true = [0x1B :: "[6n".toList.map Char.toNat] ∧
      SendLF false = [] ∧ SendClearScreen false = [] ∧ SendClearScreenFromCursor false = [] ∧
      SendHideCursor false = [] ∧ SendShowCursor false = [] ∧
      SendCursorPositionRequest false = [] ∧
      (∀ X Y : Int, SendSetCursor false X Y = []) ∧
      (∀ pattributes attributes character : Nat,
        (SendCharacter false pattributes attributes character).1 =
          if character ≠ 0 ∧ attributes &&& COMMON_LVB_TRAILING_BYTE = 0 then
            [WideCharToMultiByte character]
          else []) := by
  refine ⟨by decide, by decide, by decide, by decide, by decide, by decide, rfl, rfl, rfl, rfl,
    rfl, rfl, ?_, ?_⟩
  · intro X Y
    unfold SendSetCursor
    dsimp only
    rw [if_neg (fun h => Bool.noConfusion h.2)]
  · intro pattributes attributes character
    unfold SendCharacter
    by_cases hc : character = 0
    · rw [if_pos hc, if_neg (fun h => h.1 hc)]
    · rw [if_neg hc]
      dsimp only
      rw [if_neg (fun h => Bool.noConfusion h.1)]
      by_cases ht : attributes &&& COMMON_LVB_TRAILING_BYTE = 0
      · rw [if_pos ht, if_pos (WideCharToMultiByte_length_pos character), if_pos ⟨hc, ht⟩]
        rfl
      · rw [if_neg ht, if_neg (fun h => ht h.2)]
        rfl

/-! ## Claims about region updates -/

/-- A region update of the child console, with a valid output handle, is
handled by the region case on the refreshed screen buffer information. -/
theorem ProcessEvent_region (api : ConsoleApi) (s : HostState) (current : consoleEvent)
    (hev : current.event = EVENT_CONSOLE_UPDATE_REGION)
    (hout : s.child_out ≠ INVALID_HANDLE_VALUE ∧ s.child_out ≠ 0)
    (hpid : api.GetWindowThreadProcessId current.hwnd = s.childProcessId) :
    ProcessEvent api s (some current) =
      ProcessEventRegion api { s with consoleInfo := api.GetConsoleScreenBufferInfoEx }
        current.idObject current.idChild := by
  unfold ProcessEvent
  dsimp only
  rw [hev, if_neg (by decide), if_neg (fun h => h.elim hout.1 hout.2),
    if_neg (fun h => h hpid.symm), if_neg (by decide), if_pos rfl]

/-- C14, as amended: a region update of the child console, with a valid
output handle, that is not taken as a full clear (`bStartup` is set, or the
top row is neither the current nor the pending window top, or the rectangle
does not end at the buffer size) and whose width or height, as stored in the
16-bit fields of `coordBufSize`, is negative or greater than 9999 is rejected:
`ProcessEvent` returns `ERROR_INVALID_PARAMETER`, does not call
`ReadConsoleOutput`, writes nothing and changes no variable other than
`consoleInfo`. -/
theorem ProcessEvent_region_rejected (api : ConsoleApi) (s : HostState) (current : consoleEvent)
    (hev : current.event = EVENT_CONSOLE_UPDATE_REGION)
    (hout : s.child_out ≠ INVALID_HANDLE_VALUE ∧ s.child_out ≠ 0)
    (hpid : api.GetWindowThreadProcessId current.hwnd = s.childProcessId)
    (hnoclear : ¬ (s.bStartup = false ∧
      ((regionRect api current.idObject current.idChild).Top =
          api.GetConsoleScreenBufferInfoEx.srWindow.Top ∨
        (regionRect api current.idObject current.idChild).Top =
          s.nextConsoleInfo.srWindow.Top) ∧
      (api.GetConsoleScreenBufferInfoEx.dwSize.X =
          (regionRect api current.idObject current.idChild).Right + 1 ∧
        api.GetConsoleScreenBufferInfoEx.dwSize.Y =
          (regionRect api current.idObject current.idChild).Bottom + 1)))
    (hbad : (regionBufSize (regionRect api current.idObject current.idChild)).X < 0 ∨
      (regionBufSize (regionRect api current.idObject current.idChild)).X > 9999 ∨
      (regionBufSize (regionRect api current.idObject current.idChild)).Y < 0 ∨
      (regionBufSize (regionRect api current.idObject current.idChild)).Y > 9999) :
    (ProcessEvent api s (some current)).ret = ERROR_INVALID_PARAMETER ∧
      (ProcessEvent api s (some current)).written = [] ∧
      (ProcessEvent api s (some current)).reads = [] ∧
      (ProcessEvent api s (some current)).state =
        { s with consoleInfo := api.GetConsoleScreenBufferInfoEx } := by
  rw [ProcessEvent_region api s current hev hout hpid]
  unfold ProcessEventRegion
  dsimp only
  have hbad2 : (regionBufSize (regionRect api current.idObject current.idChild)).X < 0 ∨
      (regionBufSize (regionRect api current.idObject current.idChild)).X > MAX_CONSOLE_COLUMNS ∨
      (regionBufSize (regionRect api current.idObject current.idChild)).Y < 0 ∨
      (regionBufSize (regionRect api current.idObject current.idChild)).Y > MAX_CONSOLE_ROWS :=
    hbad
  rw [if_neg hnoclear, if_pos hbad2]
  exact ⟨rfl, rfl, rfl, rfl⟩

/-- Instance of the amended C14: at startup the update of columns 100 to 79
of rows 0 to 24 has the stored width -20 and is rejected with nothing read or
written. -/
theorem ProcessEvent_region_rejected_witness :
    (ProcessEvent exampleApi (exampleState true) (some (exampleRegionEvent 100 0 79 24))).ret =
        ERROR_INVALID_PARAMETER ∧
      (ProcessEvent exampleApi (exampleState true)
        (some (exampleRegionEvent 100 0 79 24))).written = [] ∧
      (ProcessEvent exampleApi (exampleState true)
        (some (exampleRegionEvent 100 0 79 24))).reads = [] ∧
      (ProcessEvent exampleApi (exampleState true)
        (some (exampleRegionEvent 100 0 79 24))).state =
        { exampleState true with consoleInfo := exampleApi.GetConsoleScreenBufferInfoEx } :=
  ProcessEvent_region_rejected exampleApi (exampleState true) (exampleRegionEvent 100 0 79 24)
    rfl (by decide) rfl (by decide) (by decide)

/-- C14 as stated fails once `bStartup` is clear: the region update of
columns 100 to 79 of rows 0 to 24 of the child console of 80 by 25 has the
computed width `79 - 100 + 1 = -20`, yet its top row is the window top and it
ends at the buffer size, so that it is taken as a full clear: `ProcessEvent`
returns `ERROR_SUCCESS` and writes `ESC [ 2 J`. -/
theorem ProcessEvent_region_rejected_counterexample :
    (exampleRegionEvent 100 0 79 24).event = EVENT_CONSOLE_UPDATE_REGION ∧
      (regionRect exampleApi (exampleRegionEvent 100 0 79 24).idObject
          (exampleRegionEvent 100 0 79 24).idChild).Right -
        (regionRect exampleApi (exampleRegionEvent 100 0 79 24).idObject
          (exampleRegionEvent 100 0 79 24).idChild).Left + 1 = -20 ∧
      (ProcessEvent exampleApi (exampleState false) (some (exampleRegionEvent 100 0 79 24))).ret =
        ERROR_SUCCESS ∧
      (ProcessEvent exampleApi (exampleState false)
        (some (exampleRegionEvent 100 0 79 24))).written =
        [0x1B :: "[2J".toList.map Char.toNat] := by
  decide

/-- C15, as amended: a region update of the child console, with a valid
output handle, whose stored width and height pass the bounds check and whose
cell count exceeds the 1024 cells of the working buffer is never read or
rendered and returns `ERROR_SUCCESS`.  Once `bStartup` is clear it sends the
clear-screen sequence, `ESC [ 2 J` with ANSI emulation enabled, and resets
`ViewPortY` and `lastViewPortY` to 0; while `bStartup` is set it writes
nothing and leaves both offsets unchanged. -/
theorem ProcessEvent_region_oversized (api : ConsoleApi) (s : HostState)
    (current : consoleEvent)
    (hev : current.event = EVENT_CONSOLE_UPDATE_REGION)
    (hout : s.child_out ≠ INVALID_HANDLE_VALUE ∧ s.child_out ≠ 0)
    (hpid : api.GetWindowThreadProcessId current.hwnd = s.childProcessId)
    (hok : ¬ ((regionBufSize (regionRect api current.idObject current.idChild)).X < 0 ∨
      (regionBufSize (regionRect api current.idObject current.idChild)).X > 9999 ∨
      (regionBufSize (regionRect api current.idObject current.idChild)).Y < 0 ∨
      (regionBufSize (regionRect api current.idObject current.idChild)).Y > 9999))
    (hbig : toDWORD ((regionBufSize (regionRect api current.idObject current.idChild)).X *
      (regionBufSize (regionRect api current.idObject current.idChild)).Y) > 1024) :
    (ProcessEvent api s (some current)).ret = ERROR_SUCCESS ∧
      (ProcessEvent api s (some current)).reads = [] ∧
      (s.bStartup = false →
        (ProcessEvent api s (some current)).written =
            (if s.bUseAnsiEmulation = true then [0x1B :: "[2J".toList.map Char.toNat] else []) ∧
          (ProcessEvent api s (some current)).state.ViewPortY = 0 ∧
          (ProcessEvent api s (some current)).state.lastViewPortY = 0) ∧
      (s.bStartup = true →
        (ProcessEvent api s (some current)).written = [] ∧
          (ProcessEvent api s (some current)).state.ViewPortY = s.ViewPortY ∧
          (ProcessEvent api s (some current)).state.lastViewPortY = s.lastViewPortY) := by
  have hclear : ∀ b : Bool, SendClearScreen b =
      if b = true then [0x1B :: "[2J".toList.map Char.toNat] else [] := by decide
  have hok2 : ¬ ((regionBufSize (regionRect api current.idObject current.idChild)).X < 0 ∨
      (regionBufSize (regionRect api current.idObject current.idChild)).X > MAX_CONSOLE_COLUMNS ∨
      (regionBufSize (regionRect api current.idObject current.idChild)).Y < 0 ∨
      (regionBufSize (regionRect api current.idObject current.idChild)).Y > MAX_CONSOLE_ROWS) :=
    hok
  have hbig2 : toDWORD ((regionBufSize (regionRect api current.idObject current.idChild)).X *
      (regionBufSize (regionRect api current.idObject current.idChild)).Y) >
      MAX_EXPECTED_BUFFER_SIZE := hbig
  rw [ProcessEvent_region api s current hev hout hpid]
  unfold ProcessEventRegion
  dsimp only
  by_cases hst : s.bStartup = false
  · by_cases hcls : s.bStartup = false ∧
        ((regionRect api current.idObject current.idChild).Top =
            api.GetConsoleScreenBufferInfoEx.srWindow.Top ∨
          (regionRect api current.idObject current.idChild).Top =
            s.nextConsoleInfo.srWindow.Top) ∧
        (api.GetConsoleScreenBufferInfoEx.dwSize.X =
            (regionRect api current.idObject current.idChild).Right + 1 ∧
          api.GetConsoleScreenBufferInfoEx.dwSize.Y =
            (regionRect api current.idObject current.idChild).Bottom + 1)
    · rw [if_pos hcls]
      refine ⟨rfl, rfl, ?_, ?_⟩
      · intro _
        exact ⟨hclear _, rfl, rfl⟩
      · intro h
        rw [hst] at h
        exact Bool.noConfusion h
    · rw [if_neg hcls, if_neg hok2, if_pos hbig2, if_pos hst]
      refine ⟨rfl, rfl, ?_, ?_⟩
      · intro _
        exact ⟨hclear _, rfl, rfl⟩
      · intro h
        rw [hst] at h
        exact Bool.noConfusion h
  · rw [if_neg (fun h => hst h.1), if_neg hok2, if_pos hbig2, if_neg hst]
    exact ⟨rfl, rfl, fun h => absurd h hst, fun _ => ⟨rfl, rfl, rfl⟩⟩

/-- Instances of the amended C15 on the update of columns 0 to 79 of rows 1 to
24, of 1920 cells: once `bStartup` is clear `ESC [ 2 J` is written and the
offsets 5 and 3 become 0; while it is set nothing is written and they stay. -/
theorem ProcessEvent_region_oversized_witness :
    ((ProcessEvent exampleApi (exampleState false) (some (exampleRegionEvent 0 1 79 24))).written =
          (if (exampleState false).bUseAnsiEmulation = true then
            [0x1B :: "[2J".toList.map Char.toNat] else []) ∧
        (ProcessEvent exampleApi (exampleState false)
          (some (exampleRegionEvent 0 1 79 24))).state.ViewPortY = 0 ∧
        (ProcessEvent exampleApi (exampleState false)
          (some (exampleRegionEvent 0 1 79 24))).state.lastViewPortY = 0) ∧
      ((ProcessEvent exampleApi (exampleState true)
          (some (exampleRegionEvent 0 1 79 24))).written = [] ∧
        (ProcessEvent exampleApi (exampleState true)
          (some (exampleRegionEvent 0 1 79 24))).state.ViewPortY = (exampleState true).ViewPortY ∧
        (ProcessEvent exampleApi (exampleState true)
          (some (exampleRegionEvent 0 1 79 24))).state.lastViewPortY =
          (exampleState true).lastViewPortY) :=
  ⟨(ProcessEvent_region_oversized exampleApi (exampleState false) (exampleRegionEvent 0 1 79 24)
      rfl (by decide) rfl (by decide) (by decide)).2.2.1 rfl,
    (ProcessEvent_region_oversized exampleApi (exampleState true) (exampleRegionEvent 0 1 79 24)
      rfl (by decide) rfl (by decide) (by decide)).2.2.2 rfl⟩

/-- C15 as stated fails while `bStartup` is set: the region update of columns
0 to 79 of rows 1 to 24 passes the bounds check with 80 by 24 cells, more than
1024, yet `ProcessEvent` writes nothing and leaves `ViewPortY = 5` and
`lastViewPortY = 3`. -/
theorem ProcessEvent_region_oversized_counterexample :
    regionBufSize (regionRect exampleApi (exampleRegionEvent 0 1 79 24).idObject
        (exampleRegionEvent 0 1 79 24).idChild) = { X := 80, Y := 24 } ∧
      (ProcessEvent exampleApi (exampleState true) (some (exampleRegionEvent 0 1 79 24))).ret =
        ERROR_SUCCESS ∧
      (ProcessEvent exampleApi (exampleState true)
        (some (exampleRegionEvent 0 1 79 24))).written = [] ∧
      (ProcessEvent exampleApi (exampleState true)
        (some (exampleRegionEvent 0 1 79 24))).state.ViewPortY = 5 ∧
      (ProcessEvent exampleApi (exampleState true)
        (some (exampleRegionEvent 0 1 79 24))).state.lastViewPortY = 3 := by
  decide

theorem formatted_output_length (attributes : Nat) : 8 ≤ (formatted_output attributes).length := by
  unfold formatted_output
  simp only [List.length_append, List.length_cons, List.length_nil]
  omega

theorem WideCharToMultiByte_length_le (character : Nat) :
    (WideCharToMultiByte character).length ≤ 3 := by
  unfold WideCharToMultiByte
  split_ifs <;> simp

/-- Every write of `SendCharacter` is the attribute sequence or the bytes of
the character. -/
theorem SendCharacter_writes (b : Bool) (pattributes attributes character : Nat) :
    ∀ w ∈ (SendCharacter b pattributes attributes character).1,
      w = formatted_output attributes ∨ w = WideCharToMultiByte character := by
  intro w hw
  unfold SendCharacter at hw
  split_ifs at hw <;> simp at hw <;> tauto

/-- No write of `SendBuffer` has the four bytes of the clear-screen
sequence. -/
theorem SendBufferFrom_lengths (b : Bool) (buffer : List CHAR_INFO) (n i pattributes : Nat) :
    ∀ w ∈ (SendBufferFrom b buffer n i pattributes).1, w.length ≠ 4 := by
  induction n generalizing i pattributes with
  | zero => simp [SendBufferFrom]
  | succ n ih =>
    intro w hw
    unfold SendBufferFrom at hw
    dsimp only at hw
    rw [List.mem_append] at hw
    rcases hw with h | h
    · rcases SendCharacter_writes _ _ _ _ w h with h2 | h2
      · have := formatted_output_length (buffer.getD i { UnicodeChar := 0, Attributes := 0 }).Attributes
        rw [h2]; omega
      · have := WideCharToMultiByte_length_le
          (buffer.getD i { UnicodeChar := 0, Attributes := 0 }).UnicodeChar
        rw [h2]; omega
    · exact ih _ _ w h

theorem SendBuffer_lengths (b : Bool) (pattributes : Nat) (buffer : List CHAR_INFO)
    (bufferSize : Nat) :
    ∀ w ∈ (SendBuffer b pattributes buffer bufferSize).1, w.length ≠ 4 := by
  unfold SendBuffer
  split_ifs
  · simp
  · exact SendBufferFrom_lengths b buffer bufferSize 0 pattributes

theorem SendLFLoop_writes (b : Bool) (fuel : Nat) (n y : Int) :
    ∀ w ∈ SendLFLoop b fuel n y, w = [0x0A] := by
  induction fuel generalizing n with
  | zero => simp [SendLFLoop]
  | succ f ih =>
    intro w hw
    unfold SendLFLoop at hw
    split_ifs at hw with h
    · rw [List.mem_append] at hw
      rcases hw with h1 | h1
      · unfold SendLF at h1
        split_ifs at h1 <;> simp at h1
        exact h1
      · exact ih _ w h1
    · simp at hw

/-- The clear-screen sequence is not among the writes of
`CalculateAndSetCursor`: they are line feeds and a sequence that ends in
`H`. -/
theorem CalculateAndSetCursor_no_clear (b : Bool) (currentLine x y : Int) (scroll : Bool) :
    [0x1B, 0x5B, 0x32, 0x4A] ∉ (CalculateAndSetCursor b currentLine x y scroll).1 := by
  intro hw
  unfold CalculateAndSetCursor at hw
  dsimp only at hw
  rw [List.mem_append] at hw
  rcases hw with h | h
  · split_ifs at h
    · have := SendLFLoop_writes _ _ _ _ _ h
      simp at this
    · simp at h
  · unfold SendSetCursor at h
    dsimp only at h
    split_ifs at h
    · rw [List.mem_singleton] at h
      have hl := congrArg List.getLast? h
      rw [List.getLast?_concat] at hl
      exact absurd (Option.some.inj hl) (by decide)
    · simp at h

/-- C16, as amended: while `bStartup` is set, a region update of the child
console, with a valid output handle, is never treated as a clear: the
clear-screen sequence is not written, `ViewPortY` is unchanged and
`lastViewPortY` is unchanged or takes the value of `ViewPortY`.  When its
stored size passes the bounds check, it is rendered if it has at most 1024
cells and the read succeeds: the cells are read once with
`ReadConsoleOutput`, and the cursor move to the corner of the region read,
then the cells, are written; if it has more than 1024 cells, as every update
that covers a buffer of more than 1024 cells has, it is dropped with nothing
read and nothing written. -/
theorem ProcessEvent_region_startup (api : ConsoleApi) (s : HostState) (current : consoleEvent)
    (hev : current.event = EVENT_CONSOLE_UPDATE_REGION)
    (hout : s.child_out ≠ INVALID_HANDLE_VALUE ∧ s.child_out ≠ 0)
    (hpid : api.GetWindowThreadProcessId current.hwnd = s.childProcessId)
    (hstart : s.bStartup = true) :
    ([0x1B, 0x5B, 0x32, 0x4A] ∉ (ProcessEvent api s (some current)).written ∧
        (ProcessEvent api s (some current)).state.ViewPortY = s.ViewPortY ∧
        ((ProcessEvent api s (some current)).state.lastViewPortY = s.lastViewPortY ∨
          (ProcessEvent api s (some current)).state.lastViewPortY = s.ViewPortY)) ∧
      (¬ ((regionBufSize (regionRect api current.idObject current.idChild)).X < 0 ∨
          (regionBufSize (regionRect api current.idObject current.idChild)).X > 9999 ∨
          (regionBufSize (regionRect api current.idObject current.idChild)).Y < 0 ∨
          (regionBufSize (regionRect api current.idObject current.idChild)).Y > 9999) →
        (toDWORD ((regionBufSize (regionRect api current.idObject current.idChild)).X *
              (regionBufSize (regionRect api current.idObject current.idChild)).Y) ≤ 1024 →
            ∀ pBuffer readRect2,
              api.ReadConsoleOutput
                  (regionBufSize (regionRect api current.idObject current.idChild))
                  { X := 0, Y := 0 } (regionRect api current.idObject current.idChild) =
                some (pBuffer, readRect2) →
              (ProcessEvent api s (some current)).ret = ERROR_SUCCESS ∧
                (ProcessEvent api s (some current)).reads =
                  [(regionBufSize (regionRect api current.idObject current.idChild),
                    { X := 0, Y := 0 }, regionRect api current.idObject current.idChild)] ∧
                (ProcessEvent api s (some current)).written =
                  (CalculateAndSetCursor s.bUseAnsiEmulation s.currentLine readRect2.Left
                      readRect2.Top true).1 ++
                    (SendBuffer s.bUseAnsiEmulation s.pattributes pBuffer
                      (toDWORD
                        ((regionBufSize (regionRect api current.idObject current.idChild)).X *
                          (regionBufSize
                            (regionRect api current.idObject current.idChild)).Y))).1) ∧
          (toDWORD ((regionBufSize (regionRect api current.idObject current.idChild)).X *
              (regionBufSize (regionRect api current.idObject current.idChild)).Y) > 1024 →
            (ProcessEvent api s (some current)).ret = ERROR_SUCCESS ∧
              (ProcessEvent api s (some current)).reads = [] ∧
              (ProcessEvent api s (some current)).written = [])) := by
  rw [ProcessEvent_region api s current hev hout hpid]
  have hnc : ¬ (s.bStartup = false ∧
      ((regionRect api current.idObject current.idChild).Top =
          api.GetConsoleScreenBufferInfoEx.srWindow.Top ∨
        (regionRect api current.idObject current.idChild).Top =
          s.nextConsoleInfo.srWindow.Top) ∧
      (api.GetConsoleScreenBufferInfoEx.dwSize.X =
          (regionRect api current.idObject current.idChild).Right + 1 ∧
        api.GetConsoleScreenBufferInfoEx.dwSize.Y =
          (regionRect api current.idObject current.idChild).Bottom + 1)) := by
    intro h
    rw [hstart] at h
    exact Bool.noConfusion h.1
  have hns : ¬ s.bStartup = false := by
    rw [hstart]
    exact fun h => Bool.noConfusion h
  unfold ProcessEventRegion
  dsimp only
  rw [if_neg hnc]
  by_cases hbad : (regionBufSize (regionRect api current.idObject current.idChild)).X < 0 ∨
      (regionBufSize (regionRect api current.idObject current.idChild)).X > MAX_CONSOLE_COLUMNS ∨
      (regionBufSize (regionRect api current.idObject current.idChild)).Y < 0 ∨
      (regionBufSize (regionRect api current.idObject current.idChild)).Y > MAX_CONSOLE_ROWS
  · rw [if_pos hbad]
    exact ⟨⟨by simp, rfl, Or.inl rfl⟩, fun h => absurd hbad h⟩
  · rw [if_neg hbad]
    by_cases hbig : toDWORD ((regionBufSize (regionRect api current.idObject current.idChild)).X *
        (regionBufSize (regionRect api current.idObject current.idChild)).Y) >
        MAX_EXPECTED_BUFFER_SIZE
    · rw [if_pos hbig, if_neg hns]
      refine ⟨⟨by simp, rfl, Or.inl rfl⟩, fun _ => ⟨?_, fun _ => ⟨rfl, rfl, rfl⟩⟩⟩
      intro hsmall
      exact absurd hbig (Nat.not_lt.mpr hsmall)
    · rw [if_neg hbig]
      cases hread : api.ReadConsoleOutput
          (regionBufSize (regionRect api current.idObject current.idChild))
          { X := 0, Y := 0 } (regionRect api current.idObject current.idChild) with
      | none =>
        dsimp only
        refine ⟨⟨by simp, rfl, Or.inl rfl⟩, fun _ => ⟨?_, fun h => absurd h hbig⟩⟩
        intro _ pBuffer readRect2 h
        exact Option.noConfusion h
      | some pr =>
        obtain ⟨pBuffer0, rect0⟩ := pr
        dsimp only
        refine ⟨⟨?_, rfl, Or.inr rfl⟩, fun _ => ⟨?_, fun h => absurd h hbig⟩⟩
        · intro hmem
          rw [List.mem_append] at hmem
          rcases hmem with h | h
          · exact CalculateAndSetCursor_no_clear _ _ _ _ _ h
          · exact SendBuffer_lengths _ _ _ _ _ h rfl
        · intro _ pBuffer readRect2 h
          have h2 := Option.some.inj h
          have hb : pBuffer0 = pBuffer := congrArg Prod.fst h2
          have hr : rect0 = readRect2 := congrArg Prod.snd h2
          subst hb
          subst hr
          exact ⟨rfl, rfl, rfl⟩

/-- Instances of the amended C16 at startup: the update of columns 77 to 79 of
row 3 is read once and rendered as three line feeds, `ESC [ 4 ; 78 H`, the
attributes of the first cell, `A`, `B`, the attributes of the third cell and
`C`, with no clear-screen sequence and `ViewPortY` unchanged; the update of
the whole buffer of 80 by 25 cells is dropped with nothing read or written. -/
theorem ProcessEvent_region_startup_witness :
    ([0x1B, 0x5B, 0x32, 0x4A] ∉
          (ProcessEvent exampleApi (exampleState true)
            (some (exampleRegionEvent 77 3 79 3))).written ∧
        (ProcessEvent exampleApi (exampleState true)
          (some (exampleRegionEvent 77 3 79 3))).state.ViewPortY =
          (exampleState true).ViewPortY ∧
        (ProcessEvent exampleApi (exampleState true)
          (some (exampleRegionEvent 77 3 79 3))).reads =
          [({ X := 3, Y := 1 }, { X := 0, Y := 0 },
            { Left := 77, Top := 3, Right := 79, Bottom := 3 })] ∧
        (ProcessEvent exampleApi (exampleState true)
          (some (exampleRegionEvent 77 3 79 3))).written =
          [[0x0A], [0x0A], [0x0A], 0x1B :: "[4;78H".toList.map Char.toNat,
            0x1B :: "[0;39;24;27;37;40m".toList.map Char.toNat, [0x41], [0x42],
            0x1B :: "[0;39;24;27;37;44m".toList.map Char.toNat, [0x43]]) ∧
      ((ProcessEvent exampleApi (exampleState true) (some (exampleRegionEvent 0 0 79 24))).ret =
          ERROR_SUCCESS ∧
        (ProcessEvent exampleApi (exampleState true)
          (some (exampleRegionEvent 0 0 79 24))).reads = [] ∧
        (ProcessEvent exampleApi (exampleState true)
          (some (exampleRegionEvent 0 0 79 24))).written = []) :=
  ⟨⟨(ProcessEvent_region_startup exampleApi (exampleState true) (exampleRegionEvent 77 3 79 3)
        rfl (by decide) rfl rfl).1.1,
      (ProcessEvent_region_startup exampleApi (exampleState true) (exampleRegionEvent 77 3 79 3)
        rfl (by decide) rfl rfl).1.2.1,
      ((ProcessEvent_region_startup exampleApi (exampleState true) (exampleRegionEvent 77 3 79 3)
        rfl (by decide) rfl rfl).2 (by decide)).1 (by decide) _ _ rfl |>.2.1.trans (by decide),
      ((ProcessEvent_region_startup exampleApi (exampleState true) (exampleRegionEvent 77 3 79 3)
        rfl (by decide) rfl rfl).2 (by decide)).1 (by decide) _ _ rfl |>.2.2.trans (by decide)⟩,
    ((ProcessEvent_region_startup exampleApi (exampleState true) (exampleRegionEvent 0 0 79 24)
      rfl (by decide) rfl rfl).2 (by decide)).2 (by decide)⟩

/-- C16 as stated fails on the console of 80 by 25 cells: at startup the
region update of columns 0 to 79 of rows 0 to 24 covers the full buffer, and
it is not rendered: its 2000 cells exceed the working buffer, so that
`ProcessEvent` returns `ERROR_SUCCESS` with no call of `ReadConsoleOutput` and
nothing written. -/
theorem ProcessEvent_region_startup_counterexample :
    (exampleState true).bStartup = true ∧
      regionRect exampleApi (exampleRegionEvent 0 0 79 24).idObject
          (exampleRegionEvent 0 0 79 24).idChild =
        { Left := 0, Top := 0, Right := 79, Bottom := 24 } ∧
      exampleApi.GetConsoleScreenBufferInfoEx.dwSize = { X := 79 + 1, Y := 24 + 1 } ∧
      (ProcessEvent exampleApi (exampleState true) (some (exampleRegionEvent 0 0 79 24))).reads =
        [] ∧
      (ProcessEvent exampleApi (exampleState true)
        (some (exampleRegionEvent 0 0 79 24))).written = [] := by
  decide

/-- C17: once `bStartup` is clear, a region update of the child console, with
a valid output handle and ANSI emulation enabled, whose top row is the current
or the pending window top and whose right and bottom edges plus one are the
buffer width and height is handled as a full clear: `ProcessEvent` writes
exactly `ESC [ 2 J`, sets `ViewPortY` and `lastViewPortY` to 0, returns
`ERROR_SUCCESS` and does not call `ReadConsoleOutput`. -/
theorem ProcessEvent_region_clear (api : ConsoleApi) (s : HostState) (current : consoleEvent)
    (hev : current.event = EVENT_CONSOLE_UPDATE_REGION)
    (hout : s.child_out ≠ INVALID_HANDLE_VALUE ∧ s.child_out ≠ 0)
    (hpid : api.GetWindowThreadProcessId current.hwnd = s.childProcessId)
    (hansi : s.bUseAnsiEmulation = true)
    (hstart : s.bStartup = false)
    (htop : (regionRect api current.idObject current.idChild).Top =
        api.GetConsoleScreenBufferInfoEx.srWindow.Top ∨
      (regionRect api current.idObject current.idChild).Top = s.nextConsoleInfo.srWindow.Top)
    (hfull : api.GetConsoleScreenBufferInfoEx.dwSize.X =
        (regionRect api current.idObject current.idChild).Right + 1 ∧
      api.GetConsoleScreenBufferInfoEx.dwSize.Y =
        (regionRect api current.idObject current.idChild).Bottom + 1) :
    (ProcessEvent api s (some current)).ret = ERROR_SUCCESS ∧
      (ProcessEvent api s (some current)).written = [0x1B :: "[2J".toList.map Char.toNat] ∧
      (ProcessEvent api s (some current)).reads = [] ∧
      (ProcessEvent api s (some current)).state.ViewPortY = 0 ∧
      (ProcessEvent api s (some current)).state.lastViewPortY = 0 := by
  rw [ProcessEvent_region api s current hev hout hpid]
  unfold ProcessEventRegion
  dsimp only
  rw [if_pos ⟨hstart, htop, hfull⟩]
  refine ⟨rfl, ?_, rfl, rfl, rfl⟩
  dsimp only
  rw [hansi]
  decide

/-- Instance of C17: once `bStartup` is clear the update of columns 0 to 79 of
rows 0 to 24 of the console of 80 by 25 cells is a full clear. -/
theorem ProcessEvent_region_clear_witness :
    (ProcessEvent exampleApi (exampleState false) (some (exampleRegionEvent 0 0 79 24))).ret =
        ERROR_SUCCESS ∧
      (ProcessEvent exampleApi (exampleState false)
        (some (exampleRegionEvent 0 0 79 24))).written = [0x1B :: "[2J".toList.map Char.toNat] ∧
      (ProcessEvent exampleApi (exampleState false)
        (some (exampleRegionEvent 0 0 79 24))).reads = [] ∧
      (ProcessEvent exampleApi (exampleState false)
        (some (exampleRegionEvent 0 0 79 24))).state.ViewPortY = 0 ∧
      (ProcessEvent exampleApi (exampleState false)
        (some (exampleRegionEvent 0 0 79 24))).state.lastViewPortY = 0 :=
  ProcessEvent_region_clear exampleApi (exampleState false) (exampleRegionEvent 0 0 79 24)
    rfl (by decide) rfl rfl rfl (by decide) (by decide)

/-! ## Claims about the event queue -/

theorem queueChain_allocated (heap : Nat → Option consoleEvent) (a : Nat)
    (l : List (Nat × (Nat × Nat × Int × Int))) (h : queueChain heap a l) :
    ∀ x ∈ l, ∃ n, heap x.1 = some n := by
  induction l generalizing a with
  | nil => simp
  | cons y rest ih =>
    obtain ⟨b, p⟩ := y
    obtain ⟨_, _, n, hn, _, hrest⟩ := h
    intro x hx
    rcases List.mem_cons.mp hx with h1 | h1
    · subst h1
      exact ⟨n, hn⟩
    · exact ih _ hrest x h1

/-- A chain survives a change of the heap that keeps, on its events, the
notification and the link `next`. -/
theorem queueChain_congr (heap heap2 : Nat → Option consoleEvent)
    (l : List (Nat × (Nat × Nat × Int × Int))) (a : Nat)
    (hsame : ∀ x ∈ l, ∀ n, heap x.1 = some n →
      ∃ n2, heap2 x.1 = some n2 ∧ eventPayload n2 = eventPayload n ∧ n2.next = n.next)
    (h : queueChain heap a l) : queueChain heap2 a l := by
  induction l generalizing a with
  | nil => exact h
  | cons y rest ih =>
    obtain ⟨b, p⟩ := y
    obtain ⟨hab, hb0, n, hn, hp, hrest⟩ := h
    obtain ⟨n2, hn2, hp2, hnext⟩ := hsame (b, p) (List.mem_cons_self _ _) n hn
    refine ⟨hab, hb0, n2, hn2, hp2.trans hp, ?_⟩
    rw [hnext]
    exact ih _ (fun x hx => hsame x (List.mem_cons_of_mem _ hx)) hrest

/-- Linking a new event behind the last event of a chain extends the chain. -/
theorem queueChain_snoc (heap : Nat → Option consoleEvent) (a t : Nat)
    (e : Nat × Nat × Int × Int) (nt new : consoleEvent)
    (ha : heap a = none) (ha0 : a ≠ 0) (ht : heap t = some nt) (hnew : new.next = 0)
    (l0 : List (Nat × (Nat × Nat × Int × Int))) (h : Nat)
    (hch : queueChain heap h (l0 ++ [(t, e)]))
    (hnd : ((l0 ++ [(t, e)]).map Prod.fst).Nodup) :
    queueChain (heapSet (heapSet heap a (some new)) t (some { nt with next := a })) h
      (l0 ++ [(t, e), (a, eventPayload new)]) := by
  have hta : t ≠ a := by
    intro h1
    rw [h1, ha] at ht
    exact Option.noConfusion ht
  induction l0 generalizing h with
  | nil =>
    obtain ⟨hh, ht0, n, hn, hp, _⟩ := hch
    rw [ht] at hn
    have hnn : nt = n := Option.some.inj hn
    subst hnn
    refine ⟨hh, ht0, { nt with next := a }, by simp [heapSet], hp, ?_⟩
    refine ⟨rfl, ha0, new, ?_, rfl, ?_⟩
    · simp [heapSet, Ne.symm hta]
    · rw [hnew]
      rfl
  | cons y l1 ih =>
    obtain ⟨b, pb⟩ := y
    obtain ⟨hh, hb0, n, hn, hp, hrest⟩ := hch
    have hnd2 : b ∉ (l1 ++ [(t, e)]).map Prod.fst ∧ ((l1 ++ [(t, e)]).map Prod.fst).Nodup := by
      simpa using hnd
    have hbt : b ≠ t := by
      intro h1
      apply hnd2.1
      rw [h1]
      simp
    have hba : b ≠ a := by
      intro h1
      rw [h1, ha] at hn
      exact Option.noConfusion hn
    refine ⟨hh, hb0, n, ?_, hp, ih _ hrest hnd2.2⟩
    simp [heapSet, hbt, hba, hn]

theorem queueChain_head_ne_zero (heap : Nat → Option consoleEvent) (a : Nat)
    (x : Nat × (Nat × Nat × Int × Int)) (rest : List (Nat × (Nat × Nat × Int × Int)))
    (h : queueChain heap a (x :: rest)) : a = x.1 ∧ a ≠ 0 := by
  obtain ⟨b, p⟩ := x
  obtain ⟨hab, hb0, _⟩ := h
  exact ⟨hab, hab ▸ hb0⟩

/-- `QueueEvent` with a fresh address appends the notification at the tail of
the queue. -/
theorem QueueEvent_repr (q : EventQueue) (l : List (Nat × (Nat × Nat × Int × Int)))
    (current event hwnd : Nat) (idObject idChild : Int)
    (hR : queueRepr q l) (h0 : current ≠ 0) (hfresh : q.heap current = none) :
    queueRepr (QueueEvent q current event hwnd idObject idChild)
      (l ++ [(current, (event, hwnd, idObject, idChild))]) := by
  obtain ⟨hch, hnd, htail⟩ := hR
  have hnotin : current ∉ l.map Prod.fst := by
    intro hin
    obtain ⟨x, hx, hx1⟩ := List.mem_map.mp hin
    obtain ⟨n, hn⟩ := queueChain_allocated _ _ _ hch x hx
    rw [hx1, hfresh] at hn
    exact Option.noConfusion hn
  have hnd2 : ((l ++ [(current, (event, hwnd, idObject, idChild))]).map Prod.fst).Nodup := by
    rw [List.map_append, List.nodup_append]
    refine ⟨hnd, by simp, ?_⟩
    intro x hx1 hx2
    have : x = current := by simpa using hx2
    exact hnotin (this ▸ hx1)
  unfold QueueEvent
  rw [if_pos h0]
  rcases List.eq_nil_or_concat l with hl | ⟨l0, te, hl⟩
  · subst hl
    have hhead : q.head = 0 := hch
    rw [if_pos hhead]
    refine ⟨⟨rfl, h0,
      { event := event, hwnd := hwnd, idObject := idObject, idChild := idChild, prior := 0,
        next := 0 }, by simp [heapSet], rfl, rfl⟩, hnd2, rfl⟩
  · obtain ⟨t, e⟩ := te
    rw [List.concat_eq_append] at hl
    subst hl
    have htl : q.tail = t := by simpa using htail
    have hhead : q.head ≠ 0 := by
      cases l0 with
      | nil => exact (queueChain_head_ne_zero _ _ _ _ hch).2
      | cons y ys => exact (queueChain_head_ne_zero _ _ _ _ hch).2
    obtain ⟨nt, hnt⟩ := queueChain_allocated _ _ _ hch (t, e) (by simp)
    have hta : t ≠ current := by
      intro h1
      rw [h1, hfresh] at hnt
      exact Option.noConfusion hnt
    rw [if_neg hhead]
    dsimp only
    have hread : heapSet q.heap current
        (some { event := event, hwnd := hwnd, idObject := idObject, idChild := idChild,
                prior := q.tail, next := 0 }) q.tail = some nt := by
      rw [htl]
      simp [heapSet, hta, hnt]
    rw [hread]
    dsimp only
    refine ⟨?_, hnd2, by simp⟩
    rw [htl, List.append_assoc]
    exact queueChain_snoc q.heap current t e nt _ hfresh h0 hnt rfl l0 q.head hch hnd

/-- A pass of the consumer on a queue that is not empty hands over the oldest
notification and leaves the others in order. -/
theorem DequeueEvent_repr (q : EventQueue) (a : Nat) (p : Nat × Nat × Int × Int)
    (rest : List (Nat × (Nat × Nat × Int × Int))) (hR : queueRepr q ((a, p) :: rest)) :
    ∃ n, (DequeueEvent q).1 = some n ∧ eventPayload n = p ∧ queueRepr (DequeueEvent q).2 rest := by
  obtain ⟨hch, hnd, htail⟩ := hR
  obtain ⟨hha, ha0, n, hn, hp, hrest⟩ := hch
  have hnd2 : a ∉ rest.map Prod.fst ∧ (rest.map Prod.fst).Nodup := by simpa using hnd
  have hh0 : q.head ≠ 0 := hha ▸ ha0
  have hnh : q.heap q.head = some n := hha ▸ hn
  unfold DequeueEvent
  rw [if_pos hh0, hnh]
  dsimp only
  refine ⟨n, rfl, hp, ?_⟩
  cases rest with
  | nil =>
    have hnext : n.next = 0 := hrest
    rw [if_neg (not_not.mpr hnext)]
    exact ⟨rfl, by simp, rfl⟩
  | cons y r2 =>
    obtain ⟨b, pb⟩ := y
    obtain ⟨hnb, hb0, nb, hnb2, hpb, hr2⟩ := hrest
    have hnext : n.next ≠ 0 := hnb ▸ hb0
    rw [if_pos hnext]
    dsimp only
    have hba : b ≠ a := by
      intro h1
      apply hnd2.1
      rw [← h1]
      simp
    refine ⟨?_, hnd2.2, ?_⟩
    · rw [hnb, hnb2]
      dsimp only
      apply queueChain_congr q.heap _ ((b, pb) :: r2) b _ ⟨rfl, hb0, nb, hnb2, hpb, hr2⟩
      intro x hx m hm
      have hxa : x.1 ≠ a := by
        intro h1
        apply hnd2.1
        rw [← h1]
        exact List.mem_map_of_mem _ hx
      by_cases hxb : x.1 = b
      · rw [hxb] at hm ⊢
        rw [hnb2] at hm
        have hmm : nb = m := Option.some.inj hm
        subst hmm
        exact ⟨{ nb with prior := 0 }, by simp [heapSet, hha, hba], rfl, rfl⟩
      · exact ⟨m, by simp [heapSet, hha, hxa, hxb, hm], rfl, rfl⟩
    · simpa using htail

theorem DequeueEvent_empty (q : EventQueue) (hR : queueRepr q []) : DequeueEvent q = (none, q) := by
  have hhead : q.head = 0 := hR.1
  unfold DequeueEvent
  rw [if_neg (not_not.mpr hhead)]

/-- The pointers of `QueueEvent` and of the consumer loop implement the
first-in first-out queue. -/
theorem runQueue_fifoRun (ops : List QueueOp) (q : EventQueue)
    (l : List (Nat × (Nat × Nat × Int × Int))) (hR : queueRepr q l)
    (hA : allocFresh q ops = true) :
    (runQueue q ops).map eventPayload = fifoRun (l.map Prod.snd) ops := by
  induction ops generalizing q l with
  | nil => cases l <;> simp [runQueue, fifoRun]
  | cons op ops ih =>
    cases op with
    | enqueue current event hwnd idObject idChild =>
      simp only [allocFresh, Bool.and_eq_true, decide_eq_true_eq, Option.isNone_iff_eq_none] at hA
      obtain ⟨⟨h0, hfresh⟩, hrest⟩ := hA
      have hR2 := QueueEvent_repr q l current event hwnd idObject idChild hR h0 hfresh
      have := ih _ _ hR2 hrest
      simp only [runQueue, fifoRun]
      rw [this, List.map_append]
      rfl
    | dequeue =>
      simp only [allocFresh] at hA
      cases l with
      | nil =>
        have hd := DequeueEvent_empty q hR
        simp only [runQueue, hd, List.map_nil, fifoRun]
        rw [hd] at hA
        exact ih q [] hR hA
      | cons x rest =>
        obtain ⟨a, p⟩ := x
        obtain ⟨n, hn, hp, hR2⟩ := DequeueEvent_repr q a p rest hR
        simp only [runQueue, hn, List.map_cons, fifoRun, hp]
        rw [ih _ _ hR2 hA]

theorem fifoRun_enqueued (ops : List QueueOp) (l : List (Nat × Nat × Int × Int)) :
    fifoRun l ops <+: l ++ enqueued ops := by
  induction ops generalizing l with
  | nil => cases l <;> simp [fifoRun]
  | cons op ops ih =>
    cases op with
    | enqueue current event hwnd idObject idChild =>
      simp only [fifoRun, enqueued]
      have := ih (l ++ [(event, hwnd, idObject, idChild)])
      simpa using this
    | dequeue =>
      cases l with
      | nil => exact ih []
      | cons p l =>
        simp only [fifoRun, enqueued, List.cons_append]
        exact (List.cons_prefix_cons).mpr ⟨rfl, ih l⟩

/-- C18: starting from the empty queue, for every sequence of calls of
`QueueEvent`, each with a successful allocation of a free address, and of
passes of the consumer loop, the notifications handed to `ProcessEvent` are
those the first-in first-out queue of the specification hands over: they come
out in exactly the order in which they were queued, each with the event kind,
window handle, `idObject` and `idChild` it was queued with. -/
theorem QueueEvent_first_in_first_out (ops : List QueueOp)
    (h : allocFresh emptyQueue ops = true) :
    (runQueue emptyQueue ops).map eventPayload = fifoRun [] ops ∧
      (runQueue emptyQueue ops).map eventPayload <+: enqueued ops := by
  have hR : queueRepr emptyQueue [] := ⟨rfl, by simp, rfl⟩
  have h1 := runQueue_fifoRun ops emptyQueue [] hR h
  refine ⟨h1, ?_⟩
  rw [h1]
  simpa using fifoRun_enqueued ops []

/-- Instance of C18: three notifications queued at the addresses 16, 32 and,
after the first one has been freed, 16 again, with the consumer running in
between, come out in the order queued. -/
theorem QueueEvent_first_in_first_out_witness :
    (runQueue emptyQueue
        [QueueOp.enqueue 16 EVENT_CONSOLE_CARET 1 0 5,
          QueueOp.enqueue 32 EVENT_CONSOLE_UPDATE_REGION 1 3 4, QueueOp.dequeue,
          QueueOp.enqueue 16 EVENT_CONSOLE_UPDATE_SCROLL 1 0 (-2), QueueOp.dequeue,
          QueueOp.dequeue, QueueOp.dequeue]).map eventPayload =
      [(EVENT_CONSOLE_CARET, 1, 0, 5), (EVENT_CONSOLE_UPDATE_REGION, 1, 3, 4),
        (EVENT_CONSOLE_UPDATE_SCROLL, 1, 0, -2)] :=
  (QueueEvent_first_in_first_out _ (by decide)).1.trans (by decide)

/-! ## Claims about the process entry -/

theorem wcsstr_none (str strSearch : List Nat) (h : ¬ strSearch <:+: str) :
    wcsstr str strSearch = none := by
  induction str with
  | nil =>
    unfold wcsstr
    rw [if_neg]
    intro h1
    exact h (h1 ▸ List.infix_refl _)
  | cons c cs ih =>
    unfold wcsstr
    have hp : ¬ strSearch.isPrefixOf (c :: cs) = true := by
      intro h1
      exact h (List.isPrefixOf_iff_prefix.mp h1).isInfix
    rw [if_neg hp]
    apply ih
    intro h1
    obtain ⟨s, t, hst⟩ := h1
    exact h ⟨c :: s, t, by simp [← hst]⟩

/-- What `wcsstr` returns is a tail of the string that starts with the text
searched for. -/
theorem wcsstr_some (str strSearch option : List Nat) (h : wcsstr str strSearch = some option) :
    strSearch <+: option ∧ option <:+ str := by
  induction str with
  | nil =>
    unfold wcsstr at h
    split_ifs at h with h1
    have ho : option = [] := (Option.some.inj h).symm
    subst ho
    subst h1
    exact ⟨List.prefix_refl _, List.suffix_refl _⟩
  | cons c cs ih =>
    unfold wcsstr at h
    split_ifs at h with h1
    · have ho : c :: cs = option := Option.some.inj h
      subst ho
      exact ⟨List.isPrefixOf_iff_prefix.mp h1, List.suffix_refl _⟩
    · obtain ⟨i1, i2⟩ := ih h
      exact ⟨i1, i2.trans (List.suffix_cons c cs)⟩

theorem dropWhile_spaces (l : List Nat) (h : ∀ u ∈ l, u = 0x20) :
    l.dropWhile (fun c => c == 0x20) = [] := by
  rw [List.dropWhile_eq_nil_iff]
  intro u hu
  simp [h u hu]

/-- C19: with no argument (`ac = 1`) `wmain` does not reach `exit(255)` by
defined behaviour: it jumps to `usage:` and hands `printf` the variable
`cmdline` that was never assigned, so what the process does is undefined,
whatever the command line.  With an argument count other than 1, `wmain`
calls `exit(255)`, and so starts no child, when the command line holds neither
the directive `---pty` nor the directive `-c` between blanks, and when the text
after the directive it selects, the first `---pty` or else the first `-c`,
consists of blanks only. -/
theorem wmain_malformed :
    (∀ cmdline, wmain 1 cmdline = WmainOutcome.undefined ∧
        wmain 1 cmdline ≠ WmainOutcome.exit 255) ∧
      (∀ ac cmdline, ac ≠ 1 → ¬ " ---pty ".toList.map Char.toNat <:+: cmdline →
        ¬ " -c ".toList.map Char.toNat <:+: cmdline →
        wmain ac (some cmdline) = WmainOutcome.exit 255) ∧
      (∀ ac cmdline option, ac ≠ 1 →
        wcsstr cmdline (" ---pty ".toList.map Char.toNat) = some option →
        (∀ u ∈ option.drop (" ---pty ".toList.map Char.toNat).length, u = 0x20) →
        wmain ac (some cmdline) = WmainOutcome.exit 255) ∧
      (∀ ac cmdline option, ac ≠ 1 →
        wcsstr cmdline (" ---pty ".toList.map Char.toNat) = none →
        wcsstr cmdline (" -c ".toList.map Char.toNat) = some option →
        (∀ u ∈ option.drop (" -c ".toList.map Char.toNat).length, u = 0x20) →
        wmain ac (some cmdline) = WmainOutcome.exit 255) := by
  have d1 : " ---pty ".toList.map Char.toNat = [0x20, 0x2D, 0x2D, 0x2D, 0x70, 0x74, 0x79, 0x20] := by
    decide
  have d2 : " -c ".toList.map Char.toNat = [0x20, 0x2D, 0x63, 0x20] := by decide
  rw [d1, d2]
  refine ⟨?_, ?_, ?_, ?_⟩
  · intro cmdline
    have h : wmain 1 cmdline = WmainOutcome.undefined := by
      unfold wmain
      rw [if_pos rfl]
    rw [h]
    exact ⟨rfl, by decide⟩
  · intro ac cmdline hac h1 h2
    unfold wmain
    rw [if_neg hac]
    dsimp only
    rw [wcsstr_none _ _ h1, wcsstr_none _ _ h2]
  · intro ac cmdline option hac h1 h2
    unfold wmain
    rw [if_neg hac]
    dsimp only
    rw [h1]
    dsimp only
    rw [show wcslen [0x20, 0x2D, 0x2D, 0x2D, 0x70, 0x74, 0x79, 0x20] =
      [0x20, 0x2D, 0x2D, 0x2D, 0x70, 0x74, 0x79, 0x20].length from rfl, dropWhile_spaces _ h2]
    simp [wcharAt]
  · intro ac cmdline option hac h0 h1 h2
    unfold wmain
    rw [if_neg hac]
    dsimp only
    rw [h0]
    dsimp only
    rw [h1]
    dsimp only
    rw [show wcslen [0x20, 0x2D, 0x63, 0x20] = [0x20, 0x2D, 0x63, 0x20].length from rfl,
      dropWhile_spaces _ h2]
    simp [wcharAt]

/-- Instances of C19: with two arguments counted, a command line without a
directive, the directive `---pty` followed by three blanks, and the directive
`-c` followed by two blanks all end in `exit(255)`; the bare program name,
counted as one argument, ends in undefined behaviour. -/
theorem wmain_malformed_witness :
    wmain 2 (some ("ssh-shellhost.exe dir".toList.map Char.toNat)) = WmainOutcome.exit 255 ∧
      wmain 2 (some ("ssh-shellhost.exe ---pty    ".toList.map Char.toNat)) =
        WmainOutcome.exit 255 ∧
      wmain 2 (some ("ssh-shellhost.exe -c   ".toList.map Char.toNat)) = WmainOutcome.exit 255 ∧
      wmain 1 (some ("ssh-shellhost.exe".toList.map Char.toNat)) = WmainOutcome.undefined :=
  ⟨wmain_malformed.2.1 2 _ (by decide) (by decide) (by decide),
    wmain_malformed.2.2.1 2 _ (" ---pty    ".toList.map Char.toNat) (by decide) (by decide)
      (by decide),
    wmain_malformed.2.2.2 2 _ (" -c   ".toList.map Char.toNat) (by decide) (by decide)
      (by decide) (by decide),
    (wmain_malformed.1 _).1⟩

/-! ## Claims about the session start -/

/-- C20, as amended: `start_with_pty` returns the exit code of the child when
the child ran: the code `MonitorChild` read, when the console was attached and
the monitor thread started, and the code read in the attach loop, when the
child ended before its console could be attached.  When a library or one of
the entry points `SetCurrentConsoleFontEx`, `UnhookWinEvent` and
`SetWinEventHook` cannot be resolved, or a standard handle is
`INVALID_HANDLE_VALUE`, it returns -1, not 255.  The status 255 comes from
`exit(255)`, when the command buffer cannot be allocated or the system
directory cannot be retrieved. -/
theorem start_with_pty_status (IS_INVALID_HANDLE : Int → Bool) (env : PtyEnv)
    (child_exit_code : Nat) :
    (env.malloc_cmd = false ∨ (env.malloc_cmd = true ∧ env.GetSystemDirectoryW = false) →
        start_with_pty IS_INVALID_HANDLE env child_exit_code = some (PtyOutcome.exit 255)) ∧
      (env.malloc_cmd = true ∧ env.GetSystemDirectoryW = true ∧ env.kernel32_wcsncpy_s = 0 ∧
          env.kernel32_wcscat_s = 0 ∧ env.user32_wcsncpy_s = 0 ∧ env.user32_wcscat_s = 0 →
        (env.LoadLibraryW_kernel32 = false ∨ env.LoadLibraryW_user32 = false ∨
            env.SetCurrentConsoleFontEx = false ∨ env.UnhookWinEvent = false ∨
            env.SetWinEventHook = false →
          start_with_pty IS_INVALID_HANDLE env child_exit_code = some (PtyOutcome.ret (-1))) ∧
        (env.pipe_in = INVALID_HANDLE_VALUE ∨ env.pipe_out = INVALID_HANDLE_VALUE ∨
            env.pipe_ctrl = INVALID_HANDLE_VALUE →
          start_with_pty IS_INVALID_HANDLE env child_exit_code = some (PtyOutcome.ret (-1))) ∧
        (env.LoadLibraryW_kernel32 = true ∧ env.LoadLibraryW_user32 = true ∧
            env.SetCurrentConsoleFontEx = true ∧ env.UnhookWinEvent = true ∧
            env.SetWinEventHook = true ∧ env.pipe_in ≠ INVALID_HANDLE_VALUE ∧
            env.pipe_out ≠ INVALID_HANDLE_VALUE ∧ env.pipe_ctrl ≠ INVALID_HANDLE_VALUE ∧
            env.SetHandleInformation = true ∧ env.CreateProcess = true →
          (∀ last code, attachLoop env.attach child_exit_code = some (true, last) →
            IS_INVALID_HANDLE env.monitor_thread = false →
            env.MonitorChild_exit_code = some code →
            start_with_pty IS_INVALID_HANDLE env child_exit_code =
              some (PtyOutcome.ret (toLONG code))) ∧
          (∀ code, attachLoop env.attach child_exit_code = some (false, code) →
            IS_INVALID_HANDLE INVALID_HANDLE_VALUE = true →
            start_with_pty IS_INVALID_HANDLE env child_exit_code =
              some (PtyOutcome.ret (toLONG code))))) := by
  refine ⟨?_, ?_⟩
  · intro h
    unfold start_with_pty
    rcases h with h | ⟨h1, h2⟩
    · rw [if_pos h]
    · rw [if_neg (by rw [h1]; exact fun h => Bool.noConfusion h), if_pos h2]
  · rintro ⟨h1, h2, h3, h4, h5, h6⟩
    have n1 : ¬ env.malloc_cmd = false := by rw [h1]; exact fun h => Bool.noConfusion h
    have n2 : ¬ env.GetSystemDirectoryW = false := by rw [h2]; exact fun h => Bool.noConfusion h
    have n3 : ¬ env.kernel32_wcsncpy_s ≠ 0 := not_not.mpr h3
    have n4 : ¬ env.kernel32_wcscat_s ≠ 0 := not_not.mpr h4
    have n5 : ¬ env.user32_wcsncpy_s ≠ 0 := not_not.mpr h5
    have n6 : ¬ env.user32_wcscat_s ≠ 0 := not_not.mpr h6
    refine ⟨?_, ?_, ?_⟩
    · intro hlib
      unfold start_with_pty
      rw [if_neg n1, if_neg n2, if_neg n3, if_neg n4, if_neg n5, if_neg n6, if_pos hlib]
    · intro hpipe
      unfold start_with_pty
      rw [if_neg n1, if_neg n2, if_neg n3, if_neg n4, if_neg n5, if_neg n6]
      by_cases hlib : env.LoadLibraryW_kernel32 = false ∨ env.LoadLibraryW_user32 = false ∨
          env.SetCurrentConsoleFontEx = false ∨ env.UnhookWinEvent = false ∨
          env.SetWinEventHook = false
      · rw [if_pos hlib]
      · rw [if_neg hlib, if_pos hpipe]
    · rintro ⟨l1, l2, l3, l4, l5, p1, p2, p3, s1, s2⟩
      have hlib : ¬ (env.LoadLibraryW_kernel32 = false ∨ env.LoadLibraryW_user32 = false ∨
          env.SetCurrentConsoleFontEx = false ∨ env.UnhookWinEvent = false ∨
          env.SetWinEventHook = false) := by
        rw [l1, l2, l3, l4, l5]
        decide
      have hpipe : ¬ (env.pipe_in = INVALID_HANDLE_VALUE ∨ env.pipe_out = INVALID_HANDLE_VALUE ∨
          env.pipe_ctrl = INVALID_HANDLE_VALUE) := by
        intro h
        rcases h with h | h | h
        · exact p1 h
        · exact p2 h
        · exact p3 h
      have n7 : ¬ env.SetHandleInformation = false := by
        rw [s1]; exact fun h => Bool.noConfusion h
      have n8 : ¬ env.CreateProcess = false := by rw [s2]; exact fun h => Bool.noConfusion h
      refine ⟨?_, ?_⟩
      · intro last code hattach hmon hcode
        have hm : ¬ IS_INVALID_HANDLE env.monitor_thread = true := by
          rw [hmon]; exact fun h => Bool.noConfusion h
        have hclean : start_with_pty_cleanup IS_INVALID_HANDLE env env.monitor_thread last =
            PtyOutcome.ret (toLONG code) := by
          unfold start_with_pty_cleanup
          dsimp only
          rw [if_pos hmon, hcode]
        unfold start_with_pty
        rw [if_neg n1, if_neg n2, if_neg n3, if_neg n4, if_neg n5, if_neg n6, if_neg hlib,
          if_neg hpipe, if_neg n7, if_neg n8, hattach]
        dsimp only
        rw [if_neg hm, hclean]
        simp
      · intro code hattach hinv
        have hclean : start_with_pty_cleanup IS_INVALID_HANDLE env INVALID_HANDLE_VALUE code =
            PtyOutcome.ret (toLONG code) := by
          unfold start_with_pty_cleanup
          dsimp only
          rw [if_neg (by rw [hinv]; exact fun h => Bool.noConfusion h)]
        unfold start_with_pty
        rw [if_neg n1, if_neg n2, if_neg n3, if_neg n4, if_neg n5, if_neg n6, if_neg hlib,
          if_neg hpipe, if_neg n7, if_neg n8, hattach]
        dsimp only
        rw [hclean]

/-- Instances of the amended C20: a child that ends with code 3 after a
session gives the return value 3; without the entry point `SetWinEventHook`,
and with an invalid standard output handle, the return value is -1; without
memory for the command buffer the process exits with 255. -/
theorem start_with_pty_status_witness :
    start_with_pty exampleIsInvalidHandle (examplePtyEnv 3) 0 = some (PtyOutcome.ret 3) ∧
      start_with_pty exampleIsInvalidHandle { examplePtyEnv 3 with SetWinEventHook := false } 0 =
        some (PtyOutcome.ret (-1)) ∧
      start_with_pty exampleIsInvalidHandle
          { examplePtyEnv 3 with pipe_out := INVALID_HANDLE_VALUE } 0 =
        some (PtyOutcome.ret (-1)) ∧
      start_with_pty exampleIsInvalidHandle { examplePtyEnv 3 with malloc_cmd := false } 0 =
        some (PtyOutcome.exit 255) :=
  ⟨((start_with_pty_status exampleIsInvalidHandle (examplePtyEnv 3) 0).2 (by decide)).2.2
      (by decide) |>.1 STILL_ACTIVE 3 (by decide) (by decide) (by decide),
    ((start_with_pty_status exampleIsInvalidHandle
      { examplePtyEnv 3 with SetWinEventHook := false } 0).2 (by decide)).1 (by decide),
    ((start_with_pty_status exampleIsInvalidHandle
      { examplePtyEnv 3 with pipe_out := INVALID_HANDLE_VALUE } 0).2 (by decide)).2.1
      (by decide),
    (start_with_pty_status exampleIsInvalidHandle
      { examplePtyEnv 3 with malloc_cmd := false } 0).1 (by decide)⟩

/-- C20 as stated fails when the entry point `SetWinEventHook` cannot be
resolved: `start_with_pty` returns -1, which is not the status 255. -/
theorem start_with_pty_status_counterexample :
    ({ examplePtyEnv 3 with SetWinEventHook := false } : PtyEnv).SetWinEventHook = false ∧
      start_with_pty exampleIsInvalidHandle { examplePtyEnv 3 with SetWinEventHook := false } 0 =
        some (PtyOutcome.ret (-1)) ∧
      start_with_pty exampleIsInvalidHandle { examplePtyEnv 3 with SetWinEventHook := false } 0 ≠
        some (PtyOutcome.ret 255) ∧
      start_with_pty exampleIsInvalidHandle { examplePtyEnv 3 with SetWinEventHook := false } 0 ≠
        some (PtyOutcome.exit 255) := by
  decide

/-- When the child cannot be created, `start_with_pty` returns the value
`child_exit_code` had at entry, 0 in this program, where `start_as_shell`
ends with the status 255. -/
theorem start_with_pty_CreateProcess_fails :
    start_with_pty exampleIsInvalidHandle { examplePtyEnv 3 with CreateProcess := false } 0 =
      some (PtyOutcome.ret 0) := by
  decide

/-! ## Claims about the decoder loop -/

/-- C22, the divergence of the code: the test
`(modifier_key < 2) && (modifier_key > 7)` holds for no value, so a modifier
value outside 2..7 is not rejected.  On `ESC [ 1 ; 9 A` the modifier value
read is 9, yet `ProcessModifierKeySequence` with the length 6 returns the
virtual key `VK_UP`, sending nothing, and the decoder consumes the six units
as a modifier sequence: of `ESC [ 1 ; 9 A x` only the key stroke of `x` is
sent. -/
theorem ProcessModifierKeySequence_out_of_range :
    _wtoi ((0x1B :: "[1;9A".toList.map Char.toNat).drop (6 - 2)) = 9 ∧
      ProcessModifierKeySequence (initialize_keylen keys)
          (0x1B :: "[1;9A".toList.map Char.toNat) 6 = ([], VK_UP) ∧
      (ProcessModifierKeySequence (initialize_keylen keys)
          (0x1B :: "[1;9A".toList.map Char.toNat) 6).2 ≠ 0 ∧
      ProcessIncomingKeysStep (initialize_keylen keys)
          (0x1B :: "[1;9Ax".toList.map Char.toNat) = ([], "x".toList.map Char.toNat) ∧
      ProcessIncomingKeys (initialize_keylen keys) (0x1B :: "[1;9Ax".toList.map Char.toNat) =
        some (SendKeyStroke 0 0x78 0) := by
  decide!

/-- After `initialize_keylen` every row of the table has a length between 1
and 5. -/
theorem keys_in_key_len_range :
    ∀ k ∈ initialize_keylen keys, 1 ≤ k.in_key_len ∧ k.in_key_len ≤ 5 := by
  decide

/-- The buffer left after one pass is the buffer advanced by
`ProcessIncomingKeysAdvance` units. -/
theorem ProcessIncomingKeysStep_drop (ks : List key_translation) (buf : List Nat) :
    (ProcessIncomingKeysStep ks buf).2 = buf.drop (ProcessIncomingKeysAdvance ks buf) := by
  unfold ProcessIncomingKeysStep ProcessIncomingKeysAdvance
  dsimp only
  cases CheckKeyTranslations ks buf (wcslen buf) with
  | some j => rfl
  | none =>
    dsimp only
    by_cases h7 : (if wcslen buf ≥ MAX_CTRL_SEQ_LEN then
        ProcessModifierKeySequence ks buf MAX_CTRL_SEQ_LEN else ([], 0)).2 ≠ 0
    · rw [if_pos h7, if_pos h7]
    · rw [if_neg h7, if_neg h7]
      by_cases h6 : (if wcslen buf ≥ MAX_CTRL_SEQ_LEN - 1 then
          ProcessModifierKeySequence ks buf (MAX_CTRL_SEQ_LEN - 1) else ([], 0)).2 ≠ 0
      · rw [if_pos h6, if_pos h6]
      · rw [if_neg h6, if_neg h6]
        by_cases hesc : wcsncmp buf [ESC] (wcslen [ESC]) = 0
        · rw [if_pos hesc, if_pos hesc]
          cases CheckKeyTranslations ks (List.drop (wcslen [ESC]) buf)
              (wcslen buf - wcslen [ESC]) with
          | none => rfl
          | some j =>
            dsimp only
            by_cases halt : (keyAt ks j).ctrlState &&& LEFT_ALT_PRESSED = 0
            · rw [if_pos halt, if_pos halt]
            · rw [if_neg halt, if_neg halt]
        · rw [if_neg hesc, if_neg hesc]
          by_cases hc : wcharAt buf 0 = 0x03
          · rw [if_pos hc]
          · rw [if_neg hc]

/-- On a table whose rows have lengths between 1 and 5, one pass over a
non-empty buffer advances by at least one unit, at most seven units, and at
most the units left. -/
theorem ProcessIncomingKeysAdvance_bounds (ks : List key_translation)
    (hks : ∀ k ∈ ks, 1 ≤ k.in_key_len ∧ k.in_key_len ≤ 5) (buf : List Nat)
    (hpos : 0 < wcslen buf) :
    1 ≤ ProcessIncomingKeysAdvance ks buf ∧ ProcessIncomingKeysAdvance ks buf ≤ 7 ∧
      ProcessIncomingKeysAdvance ks buf ≤ wcslen buf := by
  unfold ProcessIncomingKeysAdvance
  dsimp only
  cases hT : CheckKeyTranslations ks buf (wcslen buf) with
  | some j =>
    dsimp only
    obtain ⟨hmem, _, hmatch, _⟩ := CheckKeyTranslations_some ks buf (wcslen buf) j hT
    have hr := hks _ hmem
    exact ⟨hr.1, by omega, hmatch.1⟩
  | none =>
    dsimp only
    by_cases h7 : (if wcslen buf ≥ MAX_CTRL_SEQ_LEN then
        ProcessModifierKeySequence ks buf MAX_CTRL_SEQ_LEN else ([], 0)).2 ≠ 0
    · rw [if_pos h7]
      have hlen : wcslen buf ≥ MAX_CTRL_SEQ_LEN := by
        by_contra hlt
        rw [if_neg hlt] at h7
        exact h7 rfl
      exact ⟨by decide, by decide, hlen⟩
    · rw [if_neg h7]
      by_cases h6 : (if wcslen buf ≥ MAX_CTRL_SEQ_LEN - 1 then
          ProcessModifierKeySequence ks buf (MAX_CTRL_SEQ_LEN - 1) else ([], 0)).2 ≠ 0
      · rw [if_pos h6]
        have hlen : wcslen buf ≥ MAX_CTRL_SEQ_LEN - 1 := by
          by_contra hlt
          rw [if_neg hlt] at h6
          exact h6 rfl
        exact ⟨by decide, by decide, hlen⟩
      · rw [if_neg h6]
        by_cases hesc : wcsncmp buf [ESC] (wcslen [ESC]) = 0
        · rw [if_pos hesc]
          have h1 : wcslen [ESC] = 1 := rfl
          cases hA : CheckKeyTranslations ks (List.drop (wcslen [ESC]) buf)
              (wcslen buf - wcslen [ESC]) with
          | none =>
            dsimp only
            rw [h1]
            exact ⟨le_refl 1, by omega, hpos⟩
          | some j =>
            dsimp only
            obtain ⟨hmem, _, hmatch, _⟩ := CheckKeyTranslations_some ks _ _ j hA
            have hr := hks _ hmem
            have hle := hmatch.1
            rw [h1] at hle ⊢
            by_cases halt : (keyAt ks j).ctrlState &&& LEFT_ALT_PRESSED = 0
            · rw [if_pos halt]
              refine ⟨by omega, by omega, ?_⟩
              omega
            · rw [if_neg halt]
              exact ⟨le_refl 1, by omega, hpos⟩
        · rw [if_neg hesc]
          exact ⟨le_refl 1, by omega, hpos⟩

/-- On such a table the loop returns a result on every buffer, given more
passes than the buffer has units. -/
theorem ProcessIncomingKeysLoop_returns (ks : List key_translation)
    (hks : ∀ k ∈ ks, 1 ≤ k.in_key_len ∧ k.in_key_len ≤ 5) (fuel : Nat) (buf : List Nat)
    (hfuel : wcslen buf < fuel) : ∃ sent, ProcessIncomingKeysLoop ks fuel buf = some sent := by
  induction fuel generalizing buf with
  | zero => omega
  | succ n ih =>
    rw [ProcessIncomingKeysLoop]
    by_cases hpos : wcslen buf > 0
    · rw [if_pos hpos]
      have hb := ProcessIncomingKeysAdvance_bounds ks hks buf hpos
      have hlen : wcslen (ProcessIncomingKeysStep ks buf).2 < n := by
        rw [ProcessIncomingKeysStep_drop]
        unfold wcslen at hfuel hb ⊢
        rw [List.length_drop]
        omega
      obtain ⟨sent, hsent⟩ := ih _ hlen
      rw [hsent]
      exact ⟨_, rfl⟩
    · rw [if_neg hpos]
      exact ⟨_, rfl⟩

/-- On such a table the buffers met by the loop are non-empty until, after at
most as many passes as the buffer has units, the buffer is empty. -/
theorem ProcessIncomingKeysStep_iterate (ks : List key_translation)
    (hks : ∀ k ∈ ks, 1 ≤ k.in_key_len ∧ k.in_key_len ≤ 5) (len : Nat) (buf : List Nat)
    (hlen : wcslen buf ≤ len) :
    ∃ n, n ≤ wcslen buf ∧ (fun b => (ProcessIncomingKeysStep ks b).2)^[n] buf = [] ∧
      ∀ m, m < n → 0 < wcslen ((fun b => (ProcessIncomingKeysStep ks b).2)^[m] buf) := by
  induction len generalizing buf with
  | zero =>
    refine ⟨0, Nat.zero_le _, ?_, fun m hm => absurd hm (by omega)⟩
    have h0 : buf.length = 0 := by
      unfold wcslen at hlen
      omega
    simpa using h0
  | succ len ih =>
    by_cases hpos : wcslen buf > 0
    · have hb := ProcessIncomingKeysAdvance_bounds ks hks buf hpos
      have hl : wcslen (ProcessIncomingKeysStep ks buf).2 =
          wcslen buf - ProcessIncomingKeysAdvance ks buf := by
        rw [ProcessIncomingKeysStep_drop]
        unfold wcslen
        rw [List.length_drop]
      obtain ⟨n, hn, hend, hbefore⟩ := ih (ProcessIncomingKeysStep ks buf).2 (by omega)
      refine ⟨n + 1, by omega, ?_, ?_⟩
      · rw [Function.iterate_succ_apply]
        exact hend
      · intro m hm
        cases m with
        | zero => exact hpos
        | succ m2 =>
          rw [Function.iterate_succ_apply]
          exact hbefore m2 (by omega)
    · refine ⟨0, Nat.zero_le _, ?_, fun m hm => absurd hm (by omega)⟩
      have h0 : buf.length = 0 := by
        unfold wcslen at hpos
        omega
      simpa using h0

/-- C24: after `initialize_keylen` every row of the table has a length between
1 and 5, and `ProcessIncomingKeys` returns on every buffer, given as the units
before its terminator: each pass of the loop over a non-empty buffer advances
by at least one unit, at most seven units and at most the units left, and the
loop ends, after at most as many passes as the buffer has units, exactly when
no unit is left. -/
theorem ProcessIncomingKeys_terminates (buf : List Nat) :
    (∀ k ∈ initialize_keylen keys, 1 ≤ k.in_key_len ∧ k.in_key_len ≤ 5) ∧
      (∀ b : List Nat, 0 < wcslen b →
        1 ≤ ProcessIncomingKeysAdvance (initialize_keylen keys) b ∧
          ProcessIncomingKeysAdvance (initialize_keylen keys) b ≤ 7 ∧
          ProcessIncomingKeysAdvance (initialize_keylen keys) b ≤ wcslen b ∧
          (ProcessIncomingKeysStep (initialize_keylen keys) b).2 =
            b.drop (ProcessIncomingKeysAdvance (initialize_keylen keys) b)) ∧
      (∃ sent, ProcessIncomingKeys (initialize_keylen keys) buf = some sent) ∧
      (∃ n, n ≤ wcslen buf ∧
        (fun b => (ProcessIncomingKeysStep (initialize_keylen keys) b).2)^[n] buf = [] ∧
        ∀ m, m < n →
          0 < wcslen ((fun b => (ProcessIncomingKeysStep (initialize_keylen keys) b).2)^[m]
            buf)) := by
  refine ⟨keys_in_key_len_range, fun b hb => ?_, ?_, ?_⟩
  · obtain ⟨h1, h2, h3⟩ :=
      ProcessIncomingKeysAdvance_bounds (initialize_keylen keys) keys_in_key_len_range b hb
    exact ⟨h1, h2, h3, ProcessIncomingKeysStep_drop _ b⟩
  · exact ProcessIncomingKeysLoop_returns (initialize_keylen keys) keys_in_key_len_range _ buf
      (Nat.lt_succ_self _)
  · exact ProcessIncomingKeysStep_iterate (initialize_keylen keys) keys_in_key_len_range
      (wcslen buf) buf (le_refl _)

/-- Instance of C24: on `ESC [ A x` the first pass advances by the three units
of the cursor-up sequence and leaves `x`. -/
theorem ProcessIncomingKeys_terminates_witness :
    0 < wcslen (0x1B :: "[Ax".toList.map Char.toNat) ∧
      ProcessIncomingKeysAdvance (initialize_keylen keys)
          (0x1B :: "[Ax".toList.map Char.toNat) = 3 ∧
      (ProcessIncomingKeysStep (initialize_keylen keys)
          (0x1B :: "[Ax".toList.map Char.toNat)).2 = "x".toList.map Char.toNat ∧
      1 ≤ ProcessIncomingKeysAdvance (initialize_keylen keys)
          (0x1B :: "[Ax".toList.map Char.toNat) :=
  ⟨by decide, by decide,
    (((ProcessIncomingKeys_terminates []).2.1 (0x1B :: "[Ax".toList.map Char.toNat)
      (by decide)).2.2.2).trans (by decide),
    ((ProcessIncomingKeys_terminates []).2.1 (0x1B :: "[Ax".toList.map Char.toNat)
      (by decide)).1⟩

/-! ## Claims about caret, scroll and layout events -/

/-- An event of the child console, with a valid output handle and a kind in
range, passes the four tests at the head of `ProcessEvent`. -/
theorem ProcessEvent_gates (api : ConsoleApi) (s : HostState) (current : consoleEvent)
    (hev : ¬ (current.event < EVENT_CONSOLE_CARET ∨ current.event > EVENT_CONSOLE_LAYOUT))
    (hout : s.child_out ≠ INVALID_HANDLE_VALUE ∧ s.child_out ≠ 0)
    (hpid : api.GetWindowThreadProcessId current.hwnd = s.childProcessId) :
    ProcessEvent api s (some current) =
      if current.event = EVENT_CONSOLE_CARET then
        ProcessEventCaret { s with consoleInfo := api.GetConsoleScreenBufferInfoEx }
          current.idChild
      else if current.event = EVENT_CONSOLE_UPDATE_REGION then
        ProcessEventRegion api { s with consoleInfo := api.GetConsoleScreenBufferInfoEx }
          current.idObject current.idChild
      else if current.event = EVENT_CONSOLE_UPDATE_SIMPLE then
        ProcessEventSimple api { s with consoleInfo := api.GetConsoleScreenBufferInfoEx }
          current.idObject current.idChild
      else if current.event = EVENT_CONSOLE_UPDATE_SCROLL then
        ProcessEventScroll { s with consoleInfo := api.GetConsoleScreenBufferInfoEx }
          current.idChild
      else if current.event = EVENT_CONSOLE_LAYOUT then
        ProcessEventLayout { s with consoleInfo := api.GetConsoleScreenBufferInfoEx }
      else
        { ret := ERROR_SUCCESS, written := [], reads := [],
          state := { s with consoleInfo := api.GetConsoleScreenBufferInfoEx } } := by
  unfold ProcessEvent
  dsimp only
  rw [if_neg hev, if_neg (fun h => h.elim hout.1 hout.2), if_neg (fun h => h hpid.symm)]

/-- A caret event of the child console is handled by the caret case. -/
theorem ProcessEvent_caret (api : ConsoleApi) (s : HostState) (current : consoleEvent)
    (hev : current.event = EVENT_CONSOLE_CARET)
    (hout : s.child_out ≠ INVALID_HANDLE_VALUE ∧ s.child_out ≠ 0)
    (hpid : api.GetWindowThreadProcessId current.hwnd = s.childProcessId) :
    ProcessEvent api s (some current) =
      ProcessEventCaret { s with consoleInfo := api.GetConsoleScreenBufferInfoEx }
        current.idChild := by
  rw [ProcessEvent_gates api s current (by rw [hev]; decide) hout hpid, if_pos hev]

/-- A simple update of the child console is handled by the simple case. -/
theorem ProcessEvent_simple (api : ConsoleApi) (s : HostState) (current : consoleEvent)
    (hev : current.event = EVENT_CONSOLE_UPDATE_SIMPLE)
    (hout : s.child_out ≠ INVALID_HANDLE_VALUE ∧ s.child_out ≠ 0)
    (hpid : api.GetWindowThreadProcessId current.hwnd = s.childProcessId) :
    ProcessEvent api s (some current) =
      ProcessEventSimple api { s with consoleInfo := api.GetConsoleScreenBufferInfoEx }
        current.idObject current.idChild := by
  rw [ProcessEvent_gates api s current (by rw [hev]; decide) hout hpid, hev,
    if_neg (by decide), if_neg (by decide), if_pos rfl]

/-- A scroll event of the child console is handled by the scroll case. -/
theorem ProcessEvent_scroll (api : ConsoleApi) (s : HostState) (current : consoleEvent)
    (hev : current.event = EVENT_CONSOLE_UPDATE_SCROLL)
    (hout : s.child_out ≠ INVALID_HANDLE_VALUE ∧ s.child_out ≠ 0)
    (hpid : api.GetWindowThreadProcessId current.hwnd = s.childProcessId) :
    ProcessEvent api s (some current) =
      ProcessEventScroll { s with consoleInfo := api.GetConsoleScreenBufferInfoEx }
        current.idChild := by
  rw [ProcessEvent_gates api s current (by rw [hev]; decide) hout hpid, hev,
    if_neg (by decide), if_neg (by decide), if_neg (by decide), if_pos rfl]

/-- A layout event of the child console is handled by the layout case. -/
theorem ProcessEvent_layout (api : ConsoleApi) (s : HostState) (current : consoleEvent)
    (hev : current.event = EVENT_CONSOLE_LAYOUT)
    (hout : s.child_out ≠ INVALID_HANDLE_VALUE ∧ s.child_out ≠ 0)
    (hpid : api.GetWindowThreadProcessId current.hwnd = s.childProcessId) :
    ProcessEvent api s (some current) =
      ProcessEventLayout { s with consoleInfo := api.GetConsoleScreenBufferInfoEx } := by
  rw [ProcessEvent_gates api s current (by rw [hev]; decide) hout hpid, hev,
    if_neg (by decide), if_neg (by decide), if_neg (by decide), if_neg (by decide), if_pos rfl]

/-- A word below 0x8000 keeps its value when it is stored in a `SHORT`. -/
theorem toSHORT_of_lt (w : Nat) (h : w < 32768) : toSHORT (w : Int) = (w : Int) := by
  unfold toSHORT
  omega

/-- The value stored in a `SHORT` lies in the range of the type. -/
theorem toSHORT_range (z : Int) : -32768 ≤ toSHORT z ∧ toSHORT z ≤ 32767 := by
  unfold toSHORT
  omega

/-- The cursor move of `SendSetCursor` is `ESC [ Y ; X H`, written when ANSI
emulation is enabled. -/
theorem SendSetCursor_eq (b : Bool) (X Y : Int) :
    SendSetCursor b X Y =
      if b = true then [[0x1B, 0x5B] ++ fmt_d Y ++ [0x3B] ++ fmt_d X ++ [0x48]] else [] := by
  unfold SendSetCursor
  dsimp only
  cases b with
  | false => simp
  | true => simp

/-- C25: a caret event of the child console, with a valid output handle,
stores the low and the high word of `idChild` in the `SHORT` variables
`lastX` and `lastY` (the word itself when it is below 0x8000).  If the new
column is 0 and the new row is greater than `currentLine`, it writes
`row - currentLine` line feeds followed by the move `ESC [ row+1 ; column+1 H`
and sets `currentLine` to the row; otherwise it writes only that move and
leaves `currentLine` unchanged.  The writes are made when ANSI emulation is
enabled. -/
theorem ProcessEvent_caret_moved (api : ConsoleApi) (s : HostState) (current : consoleEvent)
    (hev : current.event = EVENT_CONSOLE_CARET)
    (hout : s.child_out ≠ INVALID_HANDLE_VALUE ∧ s.child_out ≠ 0)
    (hpid : api.GetWindowThreadProcessId current.hwnd = s.childProcessId)
    (hline : -32768 ≤ s.currentLine ∧ s.currentLine ≤ 32767) :
    (ProcessEvent api s (some current)).ret = ERROR_SUCCESS ∧
      (ProcessEvent api s (some current)).state.lastX = toSHORT (LOWORD current.idChild) ∧
      (ProcessEvent api s (some current)).state.lastY = toSHORT (HIWORD current.idChild) ∧
      (LOWORD current.idChild < 32768 →
        (ProcessEvent api s (some current)).state.lastX = LOWORD current.idChild) ∧
      (HIWORD current.idChild < 32768 →
        (ProcessEvent api s (some current)).state.lastY = HIWORD current.idChild) ∧
      (toSHORT (LOWORD current.idChild) = 0 ∧
          toSHORT (HIWORD current.idChild) > s.currentLine →
        (ProcessEvent api s (some current)).written =
            (if s.bUseAnsiEmulation = true then
              List.replicate (toSHORT (HIWORD current.idChild) - s.currentLine).toNat [0x0A] ++
                [[0x1B, 0x5B] ++ fmt_d (toSHORT (HIWORD current.idChild) + 1) ++ [0x3B] ++
                  fmt_d (toSHORT (LOWORD current.idChild) + 1) ++ [0x48]]
            else []) ∧
          (ProcessEvent api s (some current)).state.currentLine =
            toSHORT (HIWORD current.idChild)) ∧
      (¬ (toSHORT (LOWORD current.idChild) = 0 ∧
          toSHORT (HIWORD current.idChild) > s.currentLine) →
        (ProcessEvent api s (some current)).written =
            (if s.bUseAnsiEmulation = true then
              [[0x1B, 0x5B] ++ fmt_d (toSHORT (HIWORD current.idChild) + 1) ++ [0x3B] ++
                fmt_d (toSHORT (LOWORD current.idChild) + 1) ++ [0x48]]
            else []) ∧
          (ProcessEvent api s (some current)).state.currentLine = s.currentLine) := by
  rw [ProcessEvent_caret api s current hev hout hpid]
  unfold ProcessEventCaret
  dsimp only
  have hr := toSHORT_range (HIWORD current.idChild)
  by_cases hc : toSHORT (LOWORD current.idChild) = 0 ∧
      toSHORT (HIWORD current.idChild) > s.currentLine
  · rw [if_pos hc]
    refine ⟨rfl, rfl, rfl, ?_, ?_, ?_, fun h => absurd hc h⟩
    · intro h
      exact toSHORT_of_lt _ h
    · intro h
      exact toSHORT_of_lt _ h
    · intro _
      refine ⟨?_, rfl⟩
      unfold CalculateAndSetCursor
      dsimp only
      rw [if_pos ⟨rfl, hc.2⟩, SendLFLoop_eq_replicate _ 65536 _ _ (by omega), SendSetCursor_eq]
      cases s.bUseAnsiEmulation <;> simp
  · rw [if_neg hc]
    refine ⟨rfl, rfl, rfl, ?_, ?_, fun h => absurd h hc, ?_⟩
    · intro h
      exact toSHORT_of_lt _ h
    · intro h
      exact toSHORT_of_lt _ h
    · intro _
      exact ⟨SendSetCursor_eq _ _ _, rfl⟩

/-- Instances of C25 on the console of 80 by 25 with tracked line 0: the
caret event for column 0 of row 3 writes three line feeds and `ESC [ 4 ; 1 H`
and sets the tracked line to 3; the caret event for column 5 of row 3 writes
only `ESC [ 4 ; 6 H` and leaves the tracked line at 0. -/
theorem ProcessEvent_caret_moved_witness :
    ((ProcessEvent exampleApi (exampleState false)
          (some (exampleEvent EVENT_CONSOLE_CARET 0 (3 * 65536)))).written =
        [[0x0A], [0x0A], [0x0A], 0x1B :: "[4;1H".toList.map Char.toNat] ∧
      (ProcessEvent exampleApi (exampleState false)
          (some (exampleEvent EVENT_CONSOLE_CARET 0 (3 * 65536)))).state.currentLine = 3) ∧
      ((ProcessEvent exampleApi (exampleState false)
          (some (exampleEvent EVENT_CONSOLE_CARET 0 (3 * 65536 + 5)))).written =
        [0x1B :: "[4;6H".toList.map Char.toNat] ∧
      (ProcessEvent exampleApi (exampleState false)
          (some (exampleEvent EVENT_CONSOLE_CARET 0 (3 * 65536 + 5)))).state.currentLine = 0) :=
  ⟨((ProcessEvent_caret_moved exampleApi (exampleState false)
        (exampleEvent EVENT_CONSOLE_CARET 0 (3 * 65536)) rfl (by decide) rfl
        (by decide)).2.2.2.2.2.1 (by decide)).imp (fun h => h.trans (by decide))
      (fun h => h.trans (by decide)),
    ((ProcessEvent_caret_moved exampleApi (exampleState false)
        (exampleEvent EVENT_CONSOLE_CARET 0 (3 * 65536 + 5)) rfl (by decide) rfl
        (by decide)).2.2.2.2.2.2 (by decide)).imp (fun h => h.trans (by decide))
      (fun h => h.trans (by decide))⟩

/-- C26, the divergence of the code: on the console of 80 by 25, whose buffer
has the size of the largest window and whose cursor is at the origin, a first
layout event enters full-screen mode and saves the offsets 5 and 3.  A second
layout event in the same situation leaves `bFullScreen` set, yet it writes
`ESC [ 2 J` again and overwrites the saved offsets with 0, so that the layout
event that leaves full-screen mode restores 0 and 0 in place of 5 and 3. -/
theorem ProcessEvent_layout_repeated :
    (ProcessEvent exampleApi (exampleState false)
        (some (exampleEvent EVENT_CONSOLE_LAYOUT 0 0))).state.bFullScreen = true ∧
      (ProcessEvent exampleApi (exampleState false)
        (some (exampleEvent EVENT_CONSOLE_LAYOUT 0 0))).state.savedViewPortY = 5 ∧
      (ProcessEvent exampleApi (exampleState false)
        (some (exampleEvent EVENT_CONSOLE_LAYOUT 0 0))).state.savedLastViewPortY = 3 ∧
      (ProcessEvent exampleApi
        (ProcessEvent exampleApi (exampleState false)
          (some (exampleEvent EVENT_CONSOLE_LAYOUT 0 0))).state
        (some (exampleEvent EVENT_CONSOLE_LAYOUT 0 0))).state.bFullScreen = true ∧
      (ProcessEvent exampleApi
        (ProcessEvent exampleApi (exampleState false)
          (some (exampleEvent EVENT_CONSOLE_LAYOUT 0 0))).state
        (some (exampleEvent EVENT_CONSOLE_LAYOUT 0 0))).written =
        [0x1B :: "[2J".toList.map Char.toNat] ∧
      (ProcessEvent exampleApi
        (ProcessEvent exampleApi (exampleState false)
          (some (exampleEvent EVENT_CONSOLE_LAYOUT 0 0))).state
        (some (exampleEvent EVENT_CONSOLE_LAYOUT 0 0))).state.savedViewPortY = 0 ∧
      (ProcessEvent exampleApi
        (ProcessEvent exampleApi (exampleState false)
          (some (exampleEvent EVENT_CONSOLE_LAYOUT 0 0))).state
        (some (exampleEvent EVENT_CONSOLE_LAYOUT 0 0))).state.savedLastViewPortY = 0 ∧
      (ProcessEvent scrollbackApi
        (ProcessEvent exampleApi
          (ProcessEvent exampleApi (exampleState false)
            (some (exampleEvent EVENT_CONSOLE_LAYOUT 0 0))).state
          (some (exampleEvent EVENT_CONSOLE_LAYOUT 0 0))).state
        (some (exampleEvent EVENT_CONSOLE_LAYOUT 0 0))).state.ViewPortY = 0 ∧
      (ProcessEvent scrollbackApi
        (ProcessEvent exampleApi
          (ProcessEvent exampleApi (exampleState false)
            (some (exampleEvent EVENT_CONSOLE_LAYOUT 0 0))).state
          (some (exampleEvent EVENT_CONSOLE_LAYOUT 0 0))).state
        (some (exampleEvent EVENT_CONSOLE_LAYOUT 0 0))).state.lastViewPortY = 0 := by
  decide

/-- C27: a layout event of the child console that finds the buffer at the
size of the largest window and the cursor at the origin, followed at once by
a layout event that does not, leaves `ViewPortY` and `lastViewPortY` at the
values they had before the first event and `bFullScreen` clear; the first
event sets `bFullScreen`, and each of the two events writes exactly the
clear-screen sequence, `ESC [ 2 J` with ANSI emulation enabled. -/
theorem ProcessEvent_layout_round_trip (api1 api2 : ConsoleApi) (s : HostState)
    (e1 e2 : consoleEvent)
    (hev1 : e1.event = EVENT_CONSOLE_LAYOUT) (hev2 : e2.event = EVENT_CONSOLE_LAYOUT)
    (hout : s.child_out ≠ INVALID_HANDLE_VALUE ∧ s.child_out ≠ 0)
    (hpid1 : api1.GetWindowThreadProcessId e1.hwnd = s.childProcessId)
    (hpid2 : api2.GetWindowThreadProcessId e2.hwnd = s.childProcessId)
    (hfull : api1.GetConsoleScreenBufferInfoEx.dwMaximumWindowSize.X =
        api1.GetConsoleScreenBufferInfoEx.dwSize.X ∧
      api1.GetConsoleScreenBufferInfoEx.dwMaximumWindowSize.Y =
        api1.GetConsoleScreenBufferInfoEx.dwSize.Y ∧
      (api1.GetConsoleScreenBufferInfoEx.dwCursorPosition.X = 0 ∧
        api1.GetConsoleScreenBufferInfoEx.dwCursorPosition.Y = 0))
    (hnot : ¬ (api2.GetConsoleScreenBufferInfoEx.dwMaximumWindowSize.X =
        api2.GetConsoleScreenBufferInfoEx.dwSize.X ∧
      api2.GetConsoleScreenBufferInfoEx.dwMaximumWindowSize.Y =
        api2.GetConsoleScreenBufferInfoEx.dwSize.Y ∧
      (api2.GetConsoleScreenBufferInfoEx.dwCursorPosition.X = 0 ∧
        api2.GetConsoleScreenBufferInfoEx.dwCursorPosition.Y = 0))) :
    (ProcessEvent api1 s (some e1)).state.bFullScreen = true ∧
      (ProcessEvent api1 s (some e1)).written =
        (if s.bUseAnsiEmulation = true then [0x1B :: "[2J".toList.map Char.toNat] else []) ∧
      (ProcessEvent api2 (ProcessEvent api1 s (some e1)).state (some e2)).written =
        (if s.bUseAnsiEmulation = true then [0x1B :: "[2J".toList.map Char.toNat] else []) ∧
      (ProcessEvent api2 (ProcessEvent api1 s (some e1)).state (some e2)).state.ViewPortY =
        s.ViewPortY ∧
      (ProcessEvent api2 (ProcessEvent api1 s (some e1)).state (some e2)).state.lastViewPortY =
        s.lastViewPortY ∧
      (ProcessEvent api2 (ProcessEvent api1 s (some e1)).state (some e2)).state.bFullScreen =
        false := by
  have h1 : ProcessEvent api1 s (some e1) =
      { ret := ERROR_SUCCESS, written := SendClearScreen s.bUseAnsiEmulation, reads := [],
        state :=
          { s with
            consoleInfo := api1.GetConsoleScreenBufferInfoEx,
            savedViewPortY := s.ViewPortY, savedLastViewPortY := s.lastViewPortY,
            ViewPortY := 0, lastViewPortY := 0, bFullScreen := true } } := by
    rw [ProcessEvent_layout api1 s e1 hev1 hout hpid1]
    unfold ProcessEventLayout
    dsimp only
    rw [if_pos hfull]
  rw [h1]
  dsimp only
  rw [ProcessEvent_layout api2
    { s with
      consoleInfo := api1.GetConsoleScreenBufferInfoEx,
      savedViewPortY := s.ViewPortY, savedLastViewPortY := s.lastViewPortY,
      ViewPortY := 0, lastViewPortY := 0, bFullScreen := true } e2 hev2 hout hpid2]
  unfold ProcessEventLayout
  dsimp only
  rw [if_neg hnot, if_pos rfl]
  dsimp only
  refine ⟨rfl, ?_, ?_, rfl, rfl, rfl⟩
  · cases s.bUseAnsiEmulation <;> rfl
  · cases s.bUseAnsiEmulation <;> rfl

/-- Instance of C27: on the console of 80 by 25 a layout event enters
full-screen mode from the offsets 5 and 3; a layout event on the console with
a buffer of 300 rows then restores 5 and 3 and clears `bFullScreen`, and each
of the two writes `ESC [ 2 J`. -/
theorem ProcessEvent_layout_round_trip_witness :
    (ProcessEvent exampleApi (exampleState false)
        (some (exampleEvent EVENT_CONSOLE_LAYOUT 0 0))).state.bFullScreen = true ∧
      (ProcessEvent exampleApi (exampleState false)
        (some (exampleEvent EVENT_CONSOLE_LAYOUT 0 0))).written =
        [0x1B :: "[2J".toList.map Char.toNat] ∧
      (ProcessEvent scrollbackApi
        (ProcessEvent exampleApi (exampleState false)
          (some (exampleEvent EVENT_CONSOLE_LAYOUT 0 0))).state
        (some (exampleEvent EVENT_CONSOLE_LAYOUT 0 0))).written =
        [0x1B :: "[2J".toList.map Char.toNat] ∧
      (ProcessEvent scrollbackApi
        (ProcessEvent exampleApi (exampleState false)
          (some (exampleEvent EVENT_CONSOLE_LAYOUT 0 0))).state
        (some (exampleEvent EVENT_CONSOLE_LAYOUT 0 0))).state.ViewPortY = 5 ∧
      (ProcessEvent scrollbackApi
        (ProcessEvent exampleApi (exampleState false)
          (some (exampleEvent EVENT_CONSOLE_LAYOUT 0 0))).state
        (some (exampleEvent EVENT_CONSOLE_LAYOUT 0 0))).state.lastViewPortY = 3 ∧
      (ProcessEvent scrollbackApi
        (ProcessEvent exampleApi (exampleState false)
          (some (exampleEvent EVENT_CONSOLE_LAYOUT 0 0))).state
        (some (exampleEvent EVENT_CONSOLE_LAYOUT 0 0))).state.bFullScreen = false :=
  ProcessEvent_layout_round_trip exampleApi scrollbackApi (exampleState false)
    (exampleEvent EVENT_CONSOLE_LAYOUT 0 0) (exampleEvent EVENT_CONSOLE_LAYOUT 0 0) rfl rfl
    (by decide) rfl rfl (by decide) (by decide)

/-- C28, as amended: a scroll event of the child console, with a valid output
handle, writes nothing, reads nothing and changes no variable other than
`ViewPortY` and the refreshed `consoleInfo`; a delta `d <= 0` adds `|d|` to
`ViewPortY` in unsigned 32-bit arithmetic, which is an increase by exactly
`|d|` when the sum is below 2^32. -/
theorem ProcessEvent_scroll_frame (api : ConsoleApi) (s : HostState) (current : consoleEvent)
    (hev : current.event = EVENT_CONSOLE_UPDATE_SCROLL)
    (hout : s.child_out ≠ INVALID_HANDLE_VALUE ∧ s.child_out ≠ 0)
    (hpid : api.GetWindowThreadProcessId current.hwnd = s.childProcessId)
    (hd : -2147483648 ≤ current.idChild ∧ current.idChild ≤ 2147483647) :
    (ProcessEvent api s (some current)).ret = ERROR_SUCCESS ∧
      (ProcessEvent api s (some current)).written = [] ∧
      (ProcessEvent api s (some current)).reads = [] ∧
      (ProcessEvent api s (some current)).state =
        { s with
          consoleInfo := api.GetConsoleScreenBufferInfoEx,
          ViewPortY := (ProcessEvent api s (some current)).state.ViewPortY } ∧
      (current.idChild ≤ 0 →
        (ProcessEvent api s (some current)).state.ViewPortY =
            (s.ViewPortY + current.idChild.natAbs) % 2 ^ 32 ∧
          (s.ViewPortY + current.idChild.natAbs < 2 ^ 32 →
            (ProcessEvent api s (some current)).state.ViewPortY =
              s.ViewPortY + current.idChild.natAbs)) := by
  rw [ProcessEvent_scroll api s current hev hout hpid]
  unfold ProcessEventScroll
  dsimp only
  by_cases hpos : current.idChild > 0
  · rw [if_pos hpos]
    by_cases hv : s.ViewPortY > 0
    · rw [if_pos hv]
      exact ⟨rfl, rfl, rfl, rfl, fun h => absurd hpos (by omega)⟩
    · rw [if_neg hv]
      exact ⟨rfl, rfl, rfl, rfl, fun h => absurd hpos (by omega)⟩
  · rw [if_neg hpos]
    refine ⟨rfl, rfl, rfl, rfl, fun _ => ?_⟩
    dsimp only
    have hmod : toDWORD ((s.ViewPortY : Int) +
        toLONG (if current.idChild < 0 then -current.idChild else current.idChild)) =
        (s.ViewPortY + current.idChild.natAbs) % 2 ^ 32 := by
      unfold toDWORD toLONG
      by_cases hneg : current.idChild < 0
      · rw [if_pos hneg]
        omega
      · rw [if_neg hneg]
        omega
    refine ⟨hmod, fun hlt => ?_⟩
    rw [hmod]
    exact Nat.mod_eq_of_lt hlt

/-- Instance of the amended C28: a scroll event with the delta -3 on the
offset 5 writes nothing and leaves the offset 8. -/
theorem ProcessEvent_scroll_frame_witness :
    (ProcessEvent exampleApi (exampleState false)
        (some (exampleEvent EVENT_CONSOLE_UPDATE_SCROLL 0 (-3)))).written = [] ∧
      (ProcessEvent exampleApi (exampleState false)
        (some (exampleEvent EVENT_CONSOLE_UPDATE_SCROLL 0 (-3)))).state.ViewPortY = 8 :=
  ⟨(ProcessEvent_scroll_frame exampleApi (exampleState false)
      (exampleEvent EVENT_CONSOLE_UPDATE_SCROLL 0 (-3)) rfl (by decide) rfl (by decide)).2.1,
    ((ProcessEvent_scroll_frame exampleApi (exampleState false)
      (exampleEvent EVENT_CONSOLE_UPDATE_SCROLL 0 (-3)) rfl (by decide) rfl
      (by decide)).2.2.2.2 (by decide)).2 (by decide)⟩

/-- C28 as stated fails at the end of the unsigned range: with the offset
4294967295 a scroll event with the delta -1 leaves the offset 0, which is not
an increase by 1. -/
theorem ProcessEvent_scroll_frame_counterexample :
    (exampleEvent EVENT_CONSOLE_UPDATE_SCROLL 0 (-1)).idChild ≤ 0 ∧
      (ProcessEvent exampleApi { exampleState false with ViewPortY := 4294967295 }
        (some (exampleEvent EVENT_CONSOLE_UPDATE_SCROLL 0 (-1)))).state.ViewPortY = 0 ∧
      (ProcessEvent exampleApi { exampleState false with ViewPortY := 4294967295 }
        (some (exampleEvent EVENT_CONSOLE_UPDATE_SCROLL 0 (-1)))).state.ViewPortY ≠
        4294967295 + 1 := by
  decide

/-- C29, the divergence of the code: with the offset 5 a scroll event of the
child console with the positive delta 7 leaves the offset 4294967294, the
difference `5 - 7` in unsigned 32-bit arithmetic, which is greater than 5. -/
theorem ProcessEvent_scroll_wraps :
    (exampleState false).ViewPortY = 5 ∧
      (exampleEvent EVENT_CONSOLE_UPDATE_SCROLL 0 7).idChild > 0 ∧
      (ProcessEvent exampleApi (exampleState false)
        (some (exampleEvent EVENT_CONSOLE_UPDATE_SCROLL 0 7))).state.ViewPortY = 4294967294 ∧
      (ProcessEvent exampleApi (exampleState false)
        (some (exampleEvent EVENT_CONSOLE_UPDATE_SCROLL 0 7))).state.ViewPortY >
        (exampleState false).ViewPortY := by
  decide

/-- C30, as amended: an event whose window belongs to a process other than the
child is ignored: `ProcessEvent` writes nothing, reads nothing and changes no
variable.  It returns `ERROR_SUCCESS` when the kind of the event is in range
and the child output handle is valid, and `ERROR_INVALID_PARAMETER` from the
earlier tests when it is not. -/
theorem ProcessEvent_foreign_window (api : ConsoleApi) (s : HostState) (current : consoleEvent)
    (hpid : api.GetWindowThreadProcessId current.hwnd ≠ s.childProcessId) :
    (ProcessEvent api s (some current)).written = [] ∧
      (ProcessEvent api s (some current)).reads = [] ∧
      (ProcessEvent api s (some current)).state = s ∧
      (EVENT_CONSOLE_CARET ≤ current.event ∧ current.event ≤ EVENT_CONSOLE_LAYOUT ∧
          s.child_out ≠ INVALID_HANDLE_VALUE ∧ s.child_out ≠ 0 →
        (ProcessEvent api s (some current)).ret = ERROR_SUCCESS) ∧
      (current.event < EVENT_CONSOLE_CARET ∨ current.event > EVENT_CONSOLE_LAYOUT ∨
          s.child_out = INVALID_HANDLE_VALUE ∨ s.child_out = 0 →
        (ProcessEvent api s (some current)).ret = ERROR_INVALID_PARAMETER) := by
  unfold ProcessEvent
  dsimp only
  by_cases hev : current.event < EVENT_CONSOLE_CARET ∨ current.event > EVENT_CONSOLE_LAYOUT
  · rw [if_pos hev]
    refine ⟨rfl, rfl, rfl, fun h => ?_, fun _ => rfl⟩
    rcases hev with h1 | h1
    · exact absurd h.1 (by omega)
    · exact absurd h.2.1 (by omega)
  · rw [if_neg hev]
    by_cases hout : s.child_out = INVALID_HANDLE_VALUE ∨ s.child_out = 0
    · rw [if_pos hout]
      refine ⟨rfl, rfl, rfl, fun h => ?_, fun _ => rfl⟩
      rcases hout with h1 | h1
      · exact absurd h1 h.2.2.1
      · exact absurd h1 h.2.2.2
    · rw [if_neg hout, if_pos (fun h => hpid h.symm)]
      refine ⟨rfl, rfl, rfl, fun _ => rfl, fun h => ?_⟩
      rcases h with h1 | h1 | h1 | h1
      · exact absurd (Or.inl h1) hev
      · exact absurd (Or.inr h1) hev
      · exact absurd (Or.inl h1) hout
      · exact absurd (Or.inr h1) hout

/-- Instance of the amended C30: a caret event of a window of process 7,
while the child is process 8, returns `ERROR_SUCCESS` with nothing written
and no variable changed. -/
theorem ProcessEvent_foreign_window_witness :
    (ProcessEvent exampleApi { exampleState false with childProcessId := 8 }
        (some (exampleEvent EVENT_CONSOLE_CARET 0 (3 * 65536)))).written = [] ∧
      (ProcessEvent exampleApi { exampleState false with childProcessId := 8 }
        (some (exampleEvent EVENT_CONSOLE_CARET 0 (3 * 65536)))).state =
        { exampleState false with childProcessId := 8 } ∧
      (ProcessEvent exampleApi { exampleState false with childProcessId := 8 }
        (some (exampleEvent EVENT_CONSOLE_CARET 0 (3 * 65536)))).ret = ERROR_SUCCESS :=
  ⟨(ProcessEvent_foreign_window exampleApi { exampleState false with childProcessId := 8 }
      (exampleEvent EVENT_CONSOLE_CARET 0 (3 * 65536)) (by decide)).1,
    (ProcessEvent_foreign_window exampleApi { exampleState false with childProcessId := 8 }
      (exampleEvent EVENT_CONSOLE_CARET 0 (3 * 65536)) (by decide)).2.2.1,
    (ProcessEvent_foreign_window exampleApi { exampleState false with childProcessId := 8 }
      (exampleEvent EVENT_CONSOLE_CARET 0 (3 * 65536)) (by decide)).2.2.2.1 (by decide)⟩

/-- C30 as stated fails for the kinds the hook delivers beyond the layout
event: the notification 0x4007, the end of an application, of a window of
process 7, while the child is process 8, returns `ERROR_INVALID_PARAMETER`
and not `ERROR_SUCCESS`. -/
theorem ProcessEvent_foreign_window_counterexample :
    exampleApi.GetWindowThreadProcessId (exampleEvent 0x4007 0 0).hwnd ≠
        ({ exampleState false with childProcessId := 8 } : HostState).childProcessId ∧
      (ProcessEvent exampleApi { exampleState false with childProcessId := 8 }
        (some (exampleEvent 0x4007 0 0))).ret = ERROR_INVALID_PARAMETER ∧
      (ProcessEvent exampleApi { exampleState false with childProcessId := 8 }
        (some (exampleEvent 0x4007 0 0))).ret ≠ ERROR_SUCCESS := by
  decide

/-- C23, the divergence of the code: the simple case computes the number of
cells without any test against the 1024 cells of `pBuffer`.  On a window of
1200 columns the update of column 0 asks `ReadConsoleOutput` for 1200 by 1
cells and hands the count 1200 to `SendBuffer`; on the window of 80 columns
the update of column 100 asks for -20 by 1 cells and hands the count
4294967276 to `SendBuffer`. -/
theorem ProcessEvent_simple_unbounded :
    MAX_EXPECTED_BUFFER_SIZE = 1024 ∧
      (ProcessEvent wideApi (exampleState false)
        (some (exampleEvent EVENT_CONSOLE_UPDATE_SIMPLE 0 0))).reads =
        [({ X := 1200, Y := 1 }, { X := 0, Y := 0 },
          { Left := 0, Top := 0, Right := 1199, Bottom := 0 })] ∧
      (ProcessEvent wideApi (exampleState false)
        (some (exampleEvent EVENT_CONSOLE_UPDATE_SIMPLE 0 0))).written =
        (CalculateAndSetCursor true 0 0 0 true).1 ++
          (SendBuffer true 0
            [{ UnicodeChar := 0x41, Attributes := 0x07 },
              { UnicodeChar := 0x42, Attributes := 0x07 },
              { UnicodeChar := 0x43, Attributes := 0x17 }] 1200).1 ∧
      (ProcessEvent exampleApi (exampleState false)
        (some (exampleEvent EVENT_CONSOLE_UPDATE_SIMPLE 100 0))).reads =
        [({ X := -20, Y := 1 }, { X := 0, Y := 0 },
          { Left := 100, Top := 0, Right := 79, Bottom := 0 })] ∧
      (ProcessEvent exampleApi (exampleState false)
        (some (exampleEvent EVENT_CONSOLE_UPDATE_SIMPLE 100 0))).written =
        (CalculateAndSetCursor true 0 100 0 true).1 ++
          (SendBuffer true 0
            [{ UnicodeChar := 0x41, Attributes := 0x07 },
              { UnicodeChar := 0x42, Attributes := 0x07 },
              { UnicodeChar := 0x43, Attributes := 0x17 }] 4294967276).1 := by
  refine ⟨rfl, by decide, ?_, by decide, ?_⟩
  · rw [ProcessEvent_simple wideApi (exampleState false)
      (exampleEvent EVENT_CONSOLE_UPDATE_SIMPLE 0 0) rfl (by decide) rfl]
    rfl
  · rw [ProcessEvent_simple exampleApi (exampleState false)
      (exampleEvent EVENT_CONSOLE_UPDATE_SIMPLE 100 0) rfl (by decide) rfl]
    rfl

/-! ## Claims about concurrent access to the event queue -/

theorem heapSet_self (heap : Nat → Option consoleEvent) (a : Nat) (v : Option consoleEvent) :
    heapSet heap a v a = v := by
  simp [heapSet]

theorem heapSet_other (heap : Nat → Option consoleEvent) (a b : Nat) (v : Option consoleEvent)
    (h : a ≠ b) : heapSet heap b v a = heap a := by
  simp [heapSet, h]

theorem heapUpdate_other (heap : Nat → Option consoleEvent) (a b : Nat)
    (f : consoleEvent → consoleEvent) (h : a ≠ b) : heapUpdate heap b f a = heap a := by
  unfold heapUpdate
  cases hb : heap b with
  | none => rfl
  | some n => exact heapSet_other heap a b _ h

theorem heapUpdate_self (heap : Nat → Option consoleEvent) (b : Nat)
    (f : consoleEvent → consoleEvent) (n : consoleEvent) (h : heap b = some n) :
    heapUpdate heap b f b = some (f n) := by
  unfold heapUpdate
  rw [h]
  exact heapSet_self heap b _

/-- An assignment to a field keeps every allocated event allocated. -/
theorem heapUpdate_allocated (heap : Nat → Option consoleEvent) (a b : Nat)
    (f : consoleEvent → consoleEvent) (h : ∃ n, heap a = some n) :
    ∃ n, heapUpdate heap b f a = some n := by
  by_cases hab : a = b
  · obtain ⟨n, hn⟩ := h
    rw [hab] at hn ⊢
    exact ⟨f n, heapUpdate_self heap b f n hn⟩
  · rw [heapUpdate_other heap a b f hab]
    exact h

/-- An assignment to a field of an event keeps, on every other field of every
event, what the heap holds. -/
theorem heapUpdate_same (heap : Nat → Option consoleEvent) (b : Nat)
    (f : consoleEvent → consoleEvent)
    (hf : ∀ n, eventPayload (f n) = eventPayload n ∧ (f n).next = n.next) (a : Nat)
    (n : consoleEvent) (h : heap a = some n) :
    ∃ n2, heapUpdate heap b f a = some n2 ∧ eventPayload n2 = eventPayload n ∧
      n2.next = n.next := by
  by_cases hab : a = b
  · rw [hab] at h ⊢
    exact ⟨f n, heapUpdate_self heap b f n h, (hf n).1, (hf n).2⟩
  · rw [heapUpdate_other heap a b f hab]
    exact ⟨n, h, rfl, rfl⟩

theorem queueChain_iff_chainTo (heap : Nat → Option consoleEvent) (a : Nat)
    (l : List (Nat × (Nat × Nat × Int × Int))) :
    queueChain heap a l ↔ queueChainTo heap a l 0 := by
  induction l generalizing a with
  | nil => exact Iff.rfl
  | cons y rest ih =>
    obtain ⟨b, p⟩ := y
    constructor
    · rintro ⟨hab, hb0, n, hn, hp, hrest⟩
      exact ⟨hab, hb0, n, hn, hp, (ih _).mp hrest⟩
    · rintro ⟨hab, hb0, n, hn, hp, hrest⟩
      exact ⟨hab, hb0, n, hn, hp, (ih _).mpr hrest⟩

/-- A chain up to `z` survives a change of the heap that keeps, on its events,
the notification and the link `next`. -/
theorem queueChainTo_congr (heap heap2 : Nat → Option consoleEvent)
    (l : List (Nat × (Nat × Nat × Int × Int))) (a z : Nat)
    (hsame : ∀ x ∈ l, ∀ n, heap x.1 = some n →
      ∃ n2, heap2 x.1 = some n2 ∧ eventPayload n2 = eventPayload n ∧ n2.next = n.next)
    (h : queueChainTo heap a l z) : queueChainTo heap2 a l z := by
  induction l generalizing a with
  | nil => exact h
  | cons y rest ih =>
    obtain ⟨b, p⟩ := y
    obtain ⟨hab, hb0, n, hn, hp, hrest⟩ := h
    obtain ⟨n2, hn2, hp2, hnext⟩ := hsame (b, p) (List.mem_cons_self _ _) n hn
    refine ⟨hab, hb0, n2, hn2, hp2.trans hp, ?_⟩
    rw [hnext]
    exact ih _ (fun x hx => hsame x (List.mem_cons_of_mem _ hx)) hrest

/-- A chain up to `z` followed by a chain from `z` is a chain. -/
theorem queueChainTo_append (heap : Nat → Option consoleEvent)
    (l l2 : List (Nat × (Nat × Nat × Int × Int))) (a z : Nat)
    (h : queueChainTo heap a l z) (h2 : queueChain heap z l2) : queueChain heap a (l ++ l2) := by
  induction l generalizing a with
  | nil =>
    have haz : a = z := h
    rw [haz]
    exact h2
  | cons y rest ih =>
    obtain ⟨b, p⟩ := y
    obtain ⟨hab, hb0, n, hn, hp, hrest⟩ := h
    exact ⟨hab, hb0, n, hn, hp, ih _ hrest⟩

/-- Only the empty chain starts at the null pointer. -/
theorem queueChain_null (heap : Nat → Option consoleEvent)
    (l : List (Nat × (Nat × Nat × Int × Int))) (h : queueChain heap 0 l) : l = [] := by
  cases l with
  | nil => rfl
  | cons y rest => exact absurd (queueChain_head_ne_zero heap 0 y rest h).2 (fun h0 => h0 rfl)

/-- The events of a chain are allocated: an address that is not allocated is
not linked. -/
theorem queueChain_not_mem (heap : Nat → Option consoleEvent) (a c : Nat)
    (l : List (Nat × (Nat × Nat × Int × Int))) (h : queueChain heap a l) (hc : heap c = none) :
    c ∉ l.map Prod.fst := by
  intro hin
  obtain ⟨x, hx, hx1⟩ := List.mem_map.mp hin
  obtain ⟨n, hn⟩ := queueChain_allocated heap a l h x hx
  rw [hx1, hc] at hn
  exact Option.noConfusion hn

/-- Linking the last event of a chain to `z` gives the chain up to `z`. -/
theorem queueChainTo_set_last (heap : Nat → Option consoleEvent) (z : Nat)
    (l0 : List (Nat × (Nat × Nat × Int × Int))) (t : Nat) (e : Nat × Nat × Int × Int) (a : Nat)
    (hch : queueChain heap a (l0 ++ [(t, e)]))
    (hnd : ((l0 ++ [(t, e)]).map Prod.fst).Nodup) :
    queueChainTo (heapUpdate heap t (fun n => { n with next := z })) a (l0 ++ [(t, e)]) z := by
  induction l0 generalizing a with
  | nil =>
    obtain ⟨hat, ht0, n, hn, hp, _⟩ := hch
    exact ⟨hat, ht0, { n with next := z }, heapUpdate_self heap t _ n hn, hp, rfl⟩
  | cons y l1 ih =>
    obtain ⟨b, pb⟩ := y
    obtain ⟨hab, hb0, n, hn, hp, hrest⟩ := hch
    have hnd2 : b ∉ (l1 ++ [(t, e)]).map Prod.fst ∧ ((l1 ++ [(t, e)]).map Prod.fst).Nodup := by
      simpa using hnd
    have hbt : b ≠ t := by
      intro h1
      apply hnd2.1
      rw [h1]
      simp
    refine ⟨hab, hb0, n, ?_, hp, ih _ hrest hnd2.2⟩
    rw [heapUpdate_other heap b t _ hbt]
    exact hn

/-- A well-linked queue survives a change of the heap that keeps, on its
events, the notification and the link `next`. -/
theorem queueRepr_congr (heap heap2 : Nat → Option consoleEvent) (head tail : Nat)
    (l : List (Nat × (Nat × Nat × Int × Int)))
    (hsame : ∀ x ∈ l, ∀ n, heap x.1 = some n →
      ∃ n2, heap2 x.1 = some n2 ∧ eventPayload n2 = eventPayload n ∧ n2.next = n.next)
    (h : queueRepr { heap := heap, head := head, tail := tail } l) :
    queueRepr { heap := heap2, head := head, tail := tail } l :=
  ⟨queueChain_congr heap heap2 l head hsame h.1, h.2.1, h.2.2⟩

/-- A heap that differs at one address only, which is not linked, keeps what
it holds on the events of the queue. -/
theorem same_of_not_mem (heap heap2 : Nat → Option consoleEvent) (c : Nat)
    (l : List (Nat × (Nat × Nat × Int × Int))) (hc : c ∉ l.map Prod.fst)
    (hother : ∀ a, a ≠ c → heap2 a = heap a) :
    ∀ x ∈ l, ∀ n, heap x.1 = some n →
      ∃ n2, heap2 x.1 = some n2 ∧ eventPayload n2 = eventPayload n ∧ n2.next = n.next := by
  intro x hx n hn
  have hxc : x.1 ≠ c := by
    intro h1
    apply hc
    rw [← h1]
    exact List.mem_map_of_mem _ hx
  exact ⟨n, by rw [hother x.1 hxc]; exact hn, rfl, rfl⟩

theorem QueueEventPc.critical_of_holds (ppc : QueueEventPc) (h : ppc.holds = true) :
    ppc.critical = true := by
  cases ppc <;> first | rfl | exact absurd h (by decide)

/-- What the consumer holds stays held under a change that keeps held events
held. -/
theorem consumerHolds_mono (cpc : ProcessEventQueuePc) (ccur : Nat)
    (heap heap2 : Nat → Option consoleEvent) (l l2 : List (Nat × (Nat × Nat × Int × Int)))
    (h : consumerHolds cpc ccur heap l)
    (hheld : cpc.holds = true → heldEvent heap l ccur → heldEvent heap2 l2 ccur) :
    consumerHolds cpc ccur heap2 l2 := by
  cases cpc <;> simp only [consumerHolds] at h ⊢ <;>
    first
    | trivial
    | exact hheld rfl h
    | exact h.imp id (hheld rfl)

/-- At the statements where the consumer holds an event, a pointer that is
not null refers to an allocated event outside the queue. -/
theorem consumerHolds_held (cpc : ProcessEventQueuePc) (ccur : Nat)
    (heap : Nat → Option consoleEvent) (l : List (Nat × (Nat × Nat × Int × Int)))
    (h : consumerHolds cpc ccur heap l) (hh : cpc.holds = true) (h0 : ccur ≠ 0) :
    heldEvent heap l ccur := by
  cases cpc <;> simp only [consumerHolds, ProcessEventQueuePc.holds] at h hh ⊢ <;>
    first
    | exact h
    | exact h.resolve_left h0
    | exact absurd hh (by decide)

/-- The new event stays as it is under a change of the heap elsewhere. -/
theorem newEvent_congr (heap heap2 : Nat → Option consoleEvent)
    (l : List (Nat × (Nat × Nat × Int × Int))) (a : Nat) (args : Nat × Nat × Int × Int)
    (k : Nat) (hsame : heap2 a = heap a) (h : newEvent heap l a args k) :
    newEvent heap2 l a args k := by
  unfold newEvent at h ⊢
  rw [hsame]
  exact h

/-- The invariant of the critical section of `QueueEvent` does not depend on
the heap at an address that is neither linked nor held by the producer. -/
theorem producerInv_congr (ppc : QueueEventPc) (args : Nat × Nat × Int × Int) (pcur : Nat)
    (heap heap2 : Nat → Option consoleEvent) (head tail c : Nat)
    (l : List (Nat × (Nat × Nat × Int × Int)))
    (hother : ∀ a, a ≠ c → heap2 a = heap a) (hc : c ∉ l.map Prod.fst)
    (hcp : ppc.holds = true → c ≠ pcur)
    (h : producerInv ppc args pcur { heap := heap, head := head, tail := tail } l) :
    producerInv ppc args pcur { heap := heap2, head := head, tail := tail } l := by
  have hsame := same_of_not_mem heap heap2 c l hc hother
  have hq := queueRepr_congr heap heap2 head tail l hsame
  have hc1 := queueChain_congr heap heap2 l head hsame
  have hc2 := queueChainTo_congr heap heap2 l head pcur hsame
  have hn : ppc.holds = true → ∀ k, newEvent heap l pcur args k → newEvent heap2 l pcur args k :=
    fun hh k => newEvent_congr heap heap2 l pcur args k (hother pcur (hcp hh).symm)
  cases ppc <;> simp only [producerInv, QueueEventPc.holds] at h hn ⊢ <;>
    first
    | exact h
    | exact hq h
    | exact ⟨hq h.1, h.2.imp id (hn trivial 0)⟩
    | exact ⟨hq h.1, hn trivial _ h.2⟩
    | exact ⟨hq h.1, h.2.1, hn trivial _ h.2.2⟩
    | exact ⟨hc1 h.1, h.2⟩
    | exact ⟨hc2 h.1, h.2.1, hn trivial _ h.2.2⟩

/-- The invariant of the critical section of `FreeQueueEvent` does not depend
on the heap at an address that is not linked. -/
theorem teardownInv_congr (tpc : FreeQueueEventPc) (tcur : Nat)
    (heap heap2 : Nat → Option consoleEvent) (head tail c : Nat)
    (l : List (Nat × (Nat × Nat × Int × Int)))
    (hother : ∀ a, a ≠ c → heap2 a = heap a) (hc : c ∉ l.map Prod.fst)
    (h : teardownInv tpc tcur { heap := heap, head := head, tail := tail } l) :
    teardownInv tpc tcur { heap := heap2, head := head, tail := tail } l := by
  have hsame := same_of_not_mem heap heap2 c l hc hother
  have hq := queueRepr_congr heap heap2 head tail l hsame
  have hc1 := queueChain_congr heap heap2 l head hsame
  cases tpc <;> simp only [teardownInv] at h ⊢ <;>
    first
    | exact h
    | exact hq h
    | exact hc1 h
    | exact ⟨hc1 h.1, h.2⟩

/-- Every statement of the consumer keeps the invariant. -/
theorem ProcessEventQueueStep_invariant (s : QueueSystem)
    (l : List (Nat × (Nat × Nat × Int × Int))) (h : queueInvariant s l) :
    ∃ l2, queueInvariant (ProcessEventQueueStep s) l2 := by
  obtain ⟨heap, head, tail, owner, ppc, pargs, pcur, cpc, ccur, tpc, tcur⟩ := s
  unfold queueInvariant at h
  obtain ⟨hnd, hop, hoc, hot, hch, hdp, hdt, hown⟩ := h
  dsimp only [QueueSystem.queue] at hnd hop hoc hot hch hdp hdt hown
  have hnp : owner = some QueueThread.consumer → ppc.holds = true → False := fun ho hh =>
    absurd ((hop.mp (QueueEventPc.critical_of_holds ppc hh)).symm.trans ho) (by decide)
  have hnt : owner = some QueueThread.consumer → tpc = FreeQueueEventPc.free → False :=
    fun ho ht =>
      absurd ((hot.mp (by rw [ht]; rfl)).symm.trans ho) (by decide)
  cases cpc with
  | test_head =>
    unfold ProcessEventQueueStep
    dsimp only
    by_cases hh : head ≠ 0
    · rw [if_pos hh]
      refine ⟨l, ?_⟩
      unfold queueInvariant
      dsimp only [QueueSystem.queue]
      exact ⟨hnd, hop, by simpa [ProcessEventQueuePc.critical] using hoc, hot, trivial,
        fun _ h => absurd h (by decide), fun _ h => absurd h (by decide), hown⟩
    · rw [if_neg hh]
      exact ⟨l, hnd, hop, hoc, hot, hch, hdp, hdt, hown⟩
  | enter =>
    unfold ProcessEventQueueStep
    dsimp only
    by_cases ho : owner = none
    · subst ho
      rw [if_pos rfl]
      refine ⟨l, ?_⟩
      unfold queueInvariant
      dsimp only [QueueSystem.queue]
      exact ⟨hnd, by simpa using hop, by simp [ProcessEventQueuePc.critical],
        by simpa using hot, trivial, fun _ h => absurd h (by decide),
        fun _ h => absurd h (by decide), hown⟩
    · rw [if_neg ho]
      exact ⟨l, hnd, hop, hoc, hot, hch, hdp, hdt, hown⟩
  | read_head =>
    have ho : owner = some QueueThread.consumer := hoc.mp rfl
    subst ho
    refine ⟨l, ?_⟩
    unfold ProcessEventQueueStep queueInvariant
    dsimp only [QueueSystem.queue]
    exact ⟨hnd, hop, by simp [ProcessEventQueuePc.critical], hot, trivial,
      fun _ h => absurd h (by decide), fun _ h => absurd h (by decide), hown, rfl⟩
  | test_current =>
    have ho : owner = some QueueThread.consumer := hoc.mp rfl
    subst ho
    unfold ProcessEventQueueStep
    dsimp only
    by_cases hc0 : ccur ≠ 0
    · rw [if_pos hc0]
      refine ⟨l, ?_⟩
      unfold queueInvariant
      dsimp only [QueueSystem.queue]
      exact ⟨hnd, hop, by simp [ProcessEventQueuePc.critical], hot, trivial,
        fun _ h => absurd h (by decide), fun _ h => absurd h (by decide), hown.1, hown.2, hc0⟩
    · rw [if_neg hc0]
      refine ⟨l, ?_⟩
      unfold queueInvariant
      dsimp only [QueueSystem.queue]
      exact ⟨hnd, hop, by simp [ProcessEventQueuePc.critical], hot, Or.inl (not_not.mp hc0),
        fun _ _ h0 => absurd (not_not.mp hc0) h0, fun _ _ h0 => absurd (not_not.mp hc0) h0,
        hown.1⟩
  | test_next =>
    have ho : owner = some QueueThread.consumer := hoc.mp rfl
    subst ho
    unfold ProcessEventQueueStep
    dsimp only
    by_cases hn : nextOf heap ccur ≠ 0
    · rw [if_pos hn]
      refine ⟨l, ?_⟩
      unfold queueInvariant
      dsimp only [QueueSystem.queue]
      exact ⟨hnd, hop, by simp [ProcessEventQueuePc.critical], hot, trivial,
        fun _ h => absurd h (by decide), fun _ h => absurd h (by decide),
        hown.1, hown.2.1, hown.2.2, hn⟩
    · rw [if_neg hn]
      refine ⟨l, ?_⟩
      unfold queueInvariant
      dsimp only [QueueSystem.queue]
      exact ⟨hnd, hop, by simp [ProcessEventQueuePc.critical], hot, trivial,
        fun _ h => absurd h (by decide), fun _ h => absurd h (by decide),
        hown.1, hown.2.1, hown.2.2, not_not.mp hn⟩
  | head_next =>
    have ho : owner = some QueueThread.consumer := hoc.mp rfl
    subst ho
    obtain ⟨⟨hchain, _, htail⟩, hcur, hc0, hnext⟩ := hown
    dsimp only at hchain htail hcur hnext
    cases l with
    | nil =>
      have hh0 : head = 0 := hchain
      exact absurd (hcur.trans hh0) hc0
    | cons y rest =>
      obtain ⟨a, p⟩ := y
      obtain ⟨hha, ha0, n, hn, _, hrest⟩ := hchain
      have hnd2 : a ∉ rest.map Prod.fst ∧ (rest.map Prod.fst).Nodup := by simpa using hnd
      have hca : ccur = a := hcur.trans hha
      have hnx : nextOf heap ccur = n.next := by
        unfold nextOf
        rw [hca, hn]
      rw [hnx] at hnext
      refine ⟨rest, ?_⟩
      unfold ProcessEventQueueStep queueInvariant
      dsimp only [QueueSystem.queue]
      rw [hnx]
      refine ⟨hnd2.2, hop, by simp [ProcessEventQueuePc.critical], hot,
        ⟨hc0, ⟨n, by rw [hca]; exact hn⟩, by rw [hca]; exact hnd2.1⟩,
        fun hh => (hnp rfl hh).elim, fun ht => (hnt rfl ht).elim, hrest, hnd2.2, ?_⟩
      cases rest with
      | nil => exact absurd hrest hnext
      | cons y2 r2 => simpa using htail
  | head_prior =>
    have ho : owner = some QueueThread.consumer := hoc.mp rfl
    subst ho
    refine ⟨l, ?_⟩
    unfold ProcessEventQueueStep queueInvariant
    dsimp only [QueueSystem.queue]
    refine ⟨hnd, hop, by simp [ProcessEventQueuePc.critical], hot,
      Or.inr ⟨hch.1, heapUpdate_allocated heap ccur head _ hch.2.1, hch.2.2⟩,
      fun hh => (hnp rfl hh).elim, fun ht => (hnt rfl ht).elim, ?_⟩
    exact queueRepr_congr heap _ head tail l
      (fun x _ n hn =>
        heapUpdate_same heap head (fun m => { m with prior := 0 }) (fun m => ⟨rfl, rfl⟩) x.1 n hn)
      hown
  | head_null =>
    have ho : owner = some QueueThread.consumer := hoc.mp rfl
    subst ho
    obtain ⟨⟨hchain, _, htail⟩, hcur, hc0, hnext⟩ := hown
    dsimp only at hchain htail hcur hnext
    cases l with
    | nil =>
      have hh0 : head = 0 := hchain
      exact absurd (hcur.trans hh0) hc0
    | cons y rest =>
      obtain ⟨a, p⟩ := y
      obtain ⟨hha, ha0, n, hn, _, hrest⟩ := hchain
      have hca : ccur = a := hcur.trans hha
      refine ⟨[], ?_⟩
      unfold ProcessEventQueueStep queueInvariant
      dsimp only [QueueSystem.queue]
      exact ⟨List.nodup_nil, hop, by simp [ProcessEventQueuePc.critical], hot,
        ⟨hc0, ⟨n, by rw [hca]; exact hn⟩, by simp⟩,
        fun hh => (hnp rfl hh).elim, fun ht => (hnt rfl ht).elim, rfl, rfl⟩
  | tail_null =>
    have ho : owner = some QueueThread.consumer := hoc.mp rfl
    subst ho
    obtain ⟨hl, hh0⟩ := hown
    dsimp only at hh0
    subst hl
    subst hh0
    refine ⟨[], ?_⟩
    unfold ProcessEventQueueStep queueInvariant
    dsimp only [QueueSystem.queue]
    exact ⟨hnd, hop, by simp [ProcessEventQueuePc.critical], hot, Or.inr hch,
      fun hh => (hnp rfl hh).elim, fun ht => (hnt rfl ht).elim, rfl, List.nodup_nil, rfl⟩
  | leave =>
    have ho : owner = some QueueThread.consumer := hoc.mp rfl
    subst ho
    refine ⟨l, ?_⟩
    unfold ProcessEventQueueStep queueInvariant
    dsimp only [QueueSystem.queue]
    exact ⟨hnd, by simpa using hop, by simp [ProcessEventQueuePc.critical],
      by simpa using hot, hch, fun hh => (hnp rfl hh).elim, fun ht => (hnt rfl ht).elim, hown⟩
  | test_current2 =>
    unfold ProcessEventQueueStep
    dsimp only
    by_cases hc0 : ccur ≠ 0
    · rw [if_pos hc0]
      refine ⟨l, ?_⟩
      unfold queueInvariant
      dsimp only [QueueSystem.queue]
      exact ⟨hnd, hop, by simpa [ProcessEventQueuePc.critical] using hoc, hot,
        hch.resolve_left hc0, fun hh _ h0 => hdp hh rfl h0, fun ht _ h0 => hdt ht rfl h0, hown⟩
    · rw [if_neg hc0]
      refine ⟨l, ?_⟩
      unfold queueInvariant
      dsimp only [QueueSystem.queue]
      exact ⟨hnd, hop, by simpa [ProcessEventQueuePc.critical] using hoc, hot, trivial,
        fun _ h => absurd h (by decide), fun _ h => absurd h (by decide), hown⟩
  | process =>
    refine ⟨l, ?_⟩
    unfold ProcessEventQueueStep queueInvariant
    dsimp only [QueueSystem.queue]
    exact ⟨hnd, hop, by simpa [ProcessEventQueuePc.critical] using hoc, hot, hch,
      fun hh _ h0 => hdp hh rfl h0, fun ht _ h0 => hdt ht rfl h0, hown⟩
  | free =>
    have hother : ∀ a, a ≠ ccur → heapSet heap ccur none a = heap a :=
      fun a ha => heapSet_other heap a ccur none ha
    refine ⟨l, ?_⟩
    unfold ProcessEventQueueStep queueInvariant
    dsimp only [QueueSystem.queue]
    refine ⟨hnd, hop, by simpa [ProcessEventQueuePc.critical] using hoc, hot, trivial,
      fun _ h => absurd h (by decide), fun _ h => absurd h (by decide), ?_⟩
    cases owner with
    | none =>
      exact queueRepr_congr heap _ head tail l (same_of_not_mem heap _ ccur l hch.2.2 hother)
        hown
    | some t =>
      cases t with
      | producer =>
        exact producerInv_congr ppc pargs pcur heap _ head tail ccur l hother hch.2.2
          (fun hh => hdp hh rfl hch.1) hown
      | consumer => exact hown.elim
      | teardown => exact teardownInv_congr tpc tcur heap _ head tail ccur l hother hch.2.2 hown

/-- Every statement of `FreeQueueEvent` keeps the invariant. -/
theorem FreeQueueEventStep_invariant (s : QueueSystem)
    (l : List (Nat × (Nat × Nat × Int × Int))) (h : queueInvariant s l) :
    ∃ l2, queueInvariant (FreeQueueEventStep s) l2 := by
  obtain ⟨heap, head, tail, owner, ppc, pargs, pcur, cpc, ccur, tpc, tcur⟩ := s
  unfold queueInvariant at h
  obtain ⟨hnd, hop, hoc, hot, hch, hdp, hdt, hown⟩ := h
  dsimp only [QueueSystem.queue] at hnd hop hoc hot hch hdp hdt hown
  cases tpc with
  | idle =>
    refine ⟨l, ?_⟩
    unfold FreeQueueEventStep queueInvariant
    dsimp only [QueueSystem.queue]
    exact ⟨hnd, hop, hoc, by simpa [FreeQueueEventPc.critical] using hot, hch, hdp,
      fun ht => absurd ht (by decide), hown⟩
  | enter =>
    unfold FreeQueueEventStep
    dsimp only
    by_cases ho : owner = none
    · subst ho
      rw [if_pos rfl]
      refine ⟨l, ?_⟩
      unfold queueInvariant
      dsimp only [QueueSystem.queue]
      exact ⟨hnd, by simpa using hop, by simpa using hoc, by simp [FreeQueueEventPc.critical],
        hch, hdp, fun ht => absurd ht (by decide), hown.1⟩
    · rw [if_neg ho]
      exact ⟨l, hnd, hop, hoc, hot, hch, hdp, hdt, hown⟩
  | test_head =>
    have ho : owner = some QueueThread.teardown := hot.mp rfl
    subst ho
    dsimp only [teardownInv] at hown
    unfold FreeQueueEventStep
    dsimp only
    by_cases hh : head ≠ 0
    · rw [if_pos hh]
      refine ⟨l, ?_⟩
      unfold queueInvariant
      dsimp only [QueueSystem.queue]
      exact ⟨hnd, hop, hoc, by simp [FreeQueueEventPc.critical], hch, hdp,
        fun ht => absurd ht (by decide), hown, hh⟩
    · rw [if_neg hh]
      have hh0 : head = 0 := not_not.mp hh
      subst hh0
      have hl : l = [] := queueChain_null heap l hown
      subst hl
      refine ⟨[], ?_⟩
      unfold queueInvariant
      dsimp only [QueueSystem.queue]
      exact ⟨hnd, hop, hoc, by simp [FreeQueueEventPc.critical], hch, hdp,
        fun ht => absurd ht (by decide), rfl, rfl⟩
  | read_head =>
    have ho : owner = some QueueThread.teardown := hot.mp rfl
    subst ho
    refine ⟨l, ?_⟩
    unfold FreeQueueEventStep queueInvariant
    dsimp only [QueueSystem.queue]
    exact ⟨hnd, hop, hoc, by simp [FreeQueueEventPc.critical], hch, hdp,
      fun ht => absurd ht (by decide), hown.1, rfl, hown.2⟩
  | advance =>
    have ho : owner = some QueueThread.teardown := hot.mp rfl
    subst ho
    obtain ⟨hchain, hcur, hh0⟩ := hown
    dsimp only at hchain hcur hh0
    cases l with
    | nil => exact absurd hchain hh0
    | cons y rest =>
      obtain ⟨a, p⟩ := y
      obtain ⟨hha, ha0, n, hn, _, hrest⟩ := hchain
      have hnd2 : a ∉ rest.map Prod.fst ∧ (rest.map Prod.fst).Nodup := by simpa using hnd
      have hca : tcur = a := hcur.trans hha
      have hnx : nextOf heap tcur = n.next := by
        unfold nextOf
        rw [hca, hn]
      refine ⟨rest, ?_⟩
      unfold FreeQueueEventStep queueInvariant
      dsimp only [QueueSystem.queue]
      rw [hnx]
      refine ⟨hnd2.2, hop, hoc, by simp [FreeQueueEventPc.critical], ?_, hdp, ?_, hrest, ?_⟩
      · apply consumerHolds_mono cpc ccur heap heap _ _ hch
        intro _ hheld
        refine ⟨hheld.1, hheld.2.1, fun hin => hheld.2.2 ?_⟩
        rw [List.map_cons]
        exact List.mem_cons_of_mem _ hin
      · intro _ hh h0
        have hheld := consumerHolds_held cpc ccur heap _ hch hh h0
        intro hct
        apply hheld.2.2
        rw [hct, hca]
        simp
      · rw [hca]
        exact hnd2.1
  | free =>
    have ho : owner = some QueueThread.teardown := hot.mp rfl
    subst ho
    obtain ⟨hchain, hnotin⟩ := hown
    dsimp only at hchain hnotin
    have hother : ∀ a, a ≠ tcur → heapSet heap tcur none a = heap a :=
      fun a ha => heapSet_other heap a tcur none ha
    refine ⟨l, ?_⟩
    unfold FreeQueueEventStep queueInvariant
    dsimp only [QueueSystem.queue]
    refine ⟨hnd, hop, hoc, by simp [FreeQueueEventPc.critical], ?_, hdp,
      fun ht => absurd ht (by decide), ?_⟩
    · apply consumerHolds_mono cpc ccur heap _ l l hch
      intro hh hheld
      refine ⟨hheld.1, ?_, hheld.2.2⟩
      rw [hother ccur (hdt rfl hh hheld.1)]
      exact hheld.2.1
    · exact queueChain_congr heap _ l head (same_of_not_mem heap _ tcur l hnotin hother) hchain
  | head_null =>
    have ho : owner = some QueueThread.teardown := hot.mp rfl
    subst ho
    refine ⟨l, ?_⟩
    unfold FreeQueueEventStep queueInvariant
    dsimp only [QueueSystem.queue]
    exact ⟨hnd, hop, hoc, by simp [FreeQueueEventPc.critical], hch, hdp,
      fun ht => absurd ht (by decide), hown.1, rfl⟩
  | tail_null =>
    have ho : owner = some QueueThread.teardown := hot.mp rfl
    subst ho
    obtain ⟨hl, hh0⟩ := hown
    dsimp only at hh0
    subst hl
    subst hh0
    refine ⟨[], ?_⟩
    unfold FreeQueueEventStep queueInvariant
    dsimp only [QueueSystem.queue]
    exact ⟨hnd, hop, hoc, by simp [FreeQueueEventPc.critical], hch, hdp,
      fun ht => absurd ht (by decide), rfl, List.nodup_nil, rfl⟩
  | leave =>
    have ho : owner = some QueueThread.teardown := hot.mp rfl
    subst ho
    refine ⟨l, ?_⟩
    unfold FreeQueueEventStep queueInvariant
    dsimp only [QueueSystem.queue]
    exact ⟨hnd, by simpa using hop, by simpa using hoc, by simp [FreeQueueEventPc.critical],
      hch, hdp, fun ht => absurd ht (by decide), hown⟩

/-- An assignment to a field of the new event that is held by the producer:
the fields assigned before keep their values. -/
theorem newEvent_update (heap : Nat → Option consoleEvent)
    (l : List (Nat × (Nat × Nat × Int × Int))) (a : Nat) (args : Nat × Nat × Int × Int)
    (k k2 : Nat) (f : consoleEvent → consoleEvent) (h : newEvent heap l a args k)
    (hf : ∀ n : consoleEvent,
      ((1 ≤ k → n.event = args.1) ∧ (2 ≤ k → n.hwnd = args.2.1) ∧
        (3 ≤ k → n.idChild = args.2.2.2) ∧ (4 ≤ k → n.idObject = args.2.2.1) ∧
        (5 ≤ k → n.next = 0)) →
      ((1 ≤ k2 → (f n).event = args.1) ∧ (2 ≤ k2 → (f n).hwnd = args.2.1) ∧
        (3 ≤ k2 → (f n).idChild = args.2.2.2) ∧ (4 ≤ k2 → (f n).idObject = args.2.2.1) ∧
        (5 ≤ k2 → (f n).next = 0))) :
    newEvent (heapUpdate heap a f) l a args k2 := by
  obtain ⟨ha0, hnotin, n, hn, hfields⟩ := h
  exact ⟨ha0, hnotin, f n, heapUpdate_self heap a f n hn, hf n hfields⟩

/-- Once its four values are assigned, the new event carries the notification
of the call. -/
theorem newEvent_payload (heap : Nat → Option consoleEvent)
    (l : List (Nat × (Nat × Nat × Int × Int))) (a : Nat) (args : Nat × Nat × Int × Int)
    (k : Nat) (h : newEvent heap l a args k) (hk : 4 ≤ k) :
    ∃ n, heap a = some n ∧ eventPayload n = args ∧ (5 ≤ k → n.next = 0) := by
  obtain ⟨_, _, n, hn, h1, h2, h3, h4, h5⟩ := h
  refine ⟨n, hn, ?_, h5⟩
  unfold eventPayload
  rw [h1 (by omega), h2 (by omega), h3 (by omega), h4 (by omega)]

/-- An assignment by the producer to a field of the event it holds keeps the
invariant, the queue being well linked before and after. -/
theorem queueInvariant_private_write (heap : Nat → Option consoleEvent) (head tail : Nat)
    (ppc ppc2 : QueueEventPc) (pargs : Nat × Nat × Int × Int) (pcur : Nat)
    (cpc : ProcessEventQueuePc) (ccur : Nat) (tpc : FreeQueueEventPc) (tcur : Nat)
    (l : List (Nat × (Nat × Nat × Int × Int))) (f : consoleEvent → consoleEvent) (k k2 : Nat)
    (hnd : (l.map Prod.fst).Nodup)
    (hoc : cpc.critical = true ↔ some QueueThread.producer = some QueueThread.consumer)
    (hot : tpc.critical = true ↔ some QueueThread.producer = some QueueThread.teardown)
    (hch : consumerHolds cpc ccur heap l)
    (hdp : ppc.holds = true → cpc.holds = true → ccur ≠ 0 → ccur ≠ pcur)
    (hdt : tpc = FreeQueueEventPc.free → cpc.holds = true → ccur ≠ 0 → ccur ≠ tcur)
    (hholds : ppc.holds = true) (hcrit : ppc2.critical = true)
    (hq : queueRepr { heap := heap, head := head, tail := tail } l)
    (hnew : newEvent heap l pcur pargs k)
    (hf : ∀ n : consoleEvent,
      ((1 ≤ k → n.event = pargs.1) ∧ (2 ≤ k → n.hwnd = pargs.2.1) ∧
        (3 ≤ k → n.idChild = pargs.2.2.2) ∧ (4 ≤ k → n.idObject = pargs.2.2.1) ∧
        (5 ≤ k → n.next = 0)) →
      ((1 ≤ k2 → (f n).event = pargs.1) ∧ (2 ≤ k2 → (f n).hwnd = pargs.2.1) ∧
        (3 ≤ k2 → (f n).idChild = pargs.2.2.2) ∧ (4 ≤ k2 → (f n).idObject = pargs.2.2.1) ∧
        (5 ≤ k2 → (f n).next = 0)))
    (hgoal : queueRepr { heap := heapUpdate heap pcur f, head := head, tail := tail } l →
      newEvent (heapUpdate heap pcur f) l pcur pargs k2 →
      producerInv ppc2 pargs pcur
        { heap := heapUpdate heap pcur f, head := head, tail := tail } l) :
    queueInvariant
      { heap := heapUpdate heap pcur f, head := head, tail := tail,
        owner := some QueueThread.producer, ppc := ppc2, pargs := pargs, pcur := pcur,
        cpc := cpc, ccur := ccur, tpc := tpc, tcur := tcur } l := by
  unfold queueInvariant
  dsimp only [QueueSystem.queue]
  refine ⟨hnd, ⟨fun _ => rfl, fun _ => hcrit⟩, hoc, hot, ?_, fun _ hh h0 => hdp hholds hh h0,
    hdt, ?_⟩
  · apply consumerHolds_mono cpc ccur heap _ l l hch
    intro _ hheld
    exact ⟨hheld.1, heapUpdate_allocated heap ccur pcur f hheld.2.1, hheld.2.2⟩
  · apply hgoal
    · exact queueRepr_congr heap _ head tail l
        (same_of_not_mem heap _ pcur l hnew.2.1 (fun a ha => heapUpdate_other heap a pcur f ha)) hq
    · exact newEvent_update heap l pcur pargs k k2 f hnew hf

/-- Every statement of `QueueEvent` keeps the invariant. -/
theorem QueueEventStep_invariant (s : QueueSystem) (l : List (Nat × (Nat × Nat × Int × Int)))
    (event hwnd : Nat) (idObject idChild : Int) (addr : Nat) (garbage : consoleEvent)
    (h : queueInvariant s l) :
    ∃ l2, queueInvariant (QueueEventStep s event hwnd idObject idChild addr garbage) l2 := by
  obtain ⟨heap, head, tail, owner, ppc, pargs, pcur, cpc, ccur, tpc, tcur⟩ := s
  unfold queueInvariant at h
  obtain ⟨hnd, hop, hoc, hot, hch, hdp, hdt, hown⟩ := h
  dsimp only [QueueSystem.queue] at hnd hop hoc hot hch hdp hdt hown
  cases ppc with
  | idle =>
    refine ⟨l, ?_⟩
    unfold QueueEventStep queueInvariant
    dsimp only [QueueSystem.queue]
    refine ⟨hnd, by simpa [QueueEventPc.critical] using hop, hoc, hot, hch,
      fun h => absurd h (by decide), hdt, ?_⟩
    cases owner with
    | none => exact hown
    | some t =>
      cases t with
      | producer => exact hown.elim
      | consumer => exact hown
      | teardown => exact hown
  | enter =>
    unfold QueueEventStep
    dsimp only
    by_cases ho : owner = none
    · subst ho
      rw [if_pos rfl]
      refine ⟨l, ?_⟩
      unfold queueInvariant
      dsimp only [QueueSystem.queue]
      exact ⟨hnd, by simp [QueueEventPc.critical], by simpa using hoc, by simpa using hot, hch,
        fun h => absurd h (by decide), hdt, hown⟩
    · rw [if_neg ho]
      exact ⟨l, hnd, hop, hoc, hot, hch, hdp, hdt, hown⟩
  | malloc =>
    have ho : owner = some QueueThread.producer := hop.mp rfl
    subst ho
    dsimp only [producerInv] at hown
    unfold QueueEventStep
    dsimp only
    by_cases ha : addr = 0
    · rw [if_pos ha]
      refine ⟨l, ?_⟩
      unfold queueInvariant
      dsimp only [QueueSystem.queue]
      exact ⟨hnd, by simp [QueueEventPc.critical], hoc, hot, hch, fun _ _ h0 => h0, hdt, hown,
        Or.inl rfl⟩
    · rw [if_neg ha]
      by_cases hf : heap addr = none
      · rw [if_pos hf]
        have hother : ∀ a, a ≠ addr → heapSet heap addr (some garbage) a = heap a :=
          fun a h1 => heapSet_other heap a addr _ h1
        have hnotin : addr ∉ l.map Prod.fst := queueChain_not_mem heap head addr l hown.1 hf
        have hne : ∀ c, (∃ n, heap c = some n) → c ≠ addr := by
          intro c hc hca
          obtain ⟨n, hn⟩ := hc
          rw [hca, hf] at hn
          exact Option.noConfusion hn
        refine ⟨l, ?_⟩
        unfold queueInvariant
        dsimp only [QueueSystem.queue]
        refine ⟨hnd, by simp [QueueEventPc.critical], hoc, hot, ?_, ?_, hdt, ?_, Or.inr ?_⟩
        · apply consumerHolds_mono cpc ccur heap _ l l hch
          intro _ hheld
          refine ⟨hheld.1, ?_, hheld.2.2⟩
          rw [hother ccur (hne ccur hheld.2.1)]
          exact hheld.2.1
        · intro _ hh h0
          exact hne ccur (consumerHolds_held cpc ccur heap l hch hh h0).2.1
        · exact queueRepr_congr heap _ head tail l (same_of_not_mem heap _ addr l hnotin hother)
            hown
        · exact ⟨ha, hnotin, garbage, heapSet_self heap addr _, fun h1 => absurd h1 (by decide),
            fun h1 => absurd h1 (by decide), fun h1 => absurd h1 (by decide),
            fun h1 => absurd h1 (by decide), fun h1 => absurd h1 (by decide)⟩
      · rw [if_neg hf]
        exact ⟨l, hnd, hop, hoc, hot, hch, hdp, hdt, hown⟩
  | test_current =>
    have ho : owner = some QueueThread.producer := hop.mp rfl
    subst ho
    dsimp only [producerInv] at hown
    unfold QueueEventStep
    dsimp only
    by_cases hp0 : pcur ≠ 0
    · rw [if_pos hp0]
      refine ⟨l, ?_⟩
      unfold queueInvariant
      dsimp only [QueueSystem.queue]
      exact ⟨hnd, by simp [QueueEventPc.critical], hoc, hot, hch,
        fun _ hh h0 => hdp rfl hh h0, hdt, hown.1, hown.2.resolve_left hp0⟩
    · rw [if_neg hp0]
      refine ⟨l, ?_⟩
      unfold queueInvariant
      dsimp only [QueueSystem.queue]
      exact ⟨hnd, by simp [QueueEventPc.critical], hoc, hot, hch,
        fun h => absurd h (by decide), hdt, hown.1⟩
  | test_head =>
    have ho : owner = some QueueThread.producer := hop.mp rfl
    subst ho
    dsimp only [producerInv] at hown
    unfold QueueEventStep
    dsimp only
    by_cases hh : head = 0
    · rw [if_pos hh]
      refine ⟨l, ?_⟩
      unfold queueInvariant
      dsimp only [QueueSystem.queue]
      exact ⟨hnd, by simp [QueueEventPc.critical], hoc, hot, hch,
        fun _ hh h0 => hdp rfl hh h0, hdt, hown.1, hh, hown.2⟩
    · rw [if_neg hh]
      refine ⟨l, ?_⟩
      unfold queueInvariant
      dsimp only [QueueSystem.queue]
      exact ⟨hnd, by simp [QueueEventPc.critical], hoc, hot, hch,
        fun _ hh h0 => hdp rfl hh h0, hdt, hown.1, hh, hown.2⟩
  | a_event =>
    have ho : owner = some QueueThread.producer := hop.mp rfl
    subst ho
    exact ⟨l, queueInvariant_private_write heap head tail QueueEventPc.a_event
      QueueEventPc.a_hwnd pargs pcur cpc ccur tpc tcur l _ 0 1 hnd hoc hot hch hdp hdt rfl rfl
      hown.1 hown.2.2 (by intro n _; simp)
      (fun hq hn => ⟨hq, hown.2.1, hn⟩)⟩
  | a_hwnd =>
    have ho : owner = some QueueThread.producer := hop.mp rfl
    subst ho
    exact ⟨l, queueInvariant_private_write heap head tail QueueEventPc.a_hwnd
      QueueEventPc.a_idChild pargs pcur cpc ccur tpc tcur l _ 1 2 hnd hoc hot hch hdp hdt rfl
      rfl hown.1 hown.2.2 (by intro n hn; simp at hn ⊢; exact hn)
      (fun hq hn => ⟨hq, hown.2.1, hn⟩)⟩
  | a_idChild =>
    have ho : owner = some QueueThread.producer := hop.mp rfl
    subst ho
    exact ⟨l, queueInvariant_private_write heap head tail QueueEventPc.a_idChild
      QueueEventPc.a_idObject pargs pcur cpc ccur tpc tcur l _ 2 3 hnd hoc hot hch hdp hdt rfl
      rfl hown.1 hown.2.2 (by intro n hn; simp at hn ⊢; exact hn)
      (fun hq hn => ⟨hq, hown.2.1, hn⟩)⟩
  | a_idObject =>
    have ho : owner = some QueueThread.producer := hop.mp rfl
    subst ho
    exact ⟨l, queueInvariant_private_write heap head tail QueueEventPc.a_idObject
      QueueEventPc.a_next pargs pcur cpc ccur tpc tcur l _ 3 4 hnd hoc hot hch hdp hdt rfl
      rfl hown.1 hown.2.2 (by intro n hn; simp at hn ⊢; exact hn)
      (fun hq hn => ⟨hq, hown.2.1, hn⟩)⟩
  | a_next =>
    have ho : owner = some QueueThread.producer := hop.mp rfl
    subst ho
    exact ⟨l, queueInvariant_private_write heap head tail QueueEventPc.a_next
      QueueEventPc.a_prior pargs pcur cpc ccur tpc tcur l _ 4 5 hnd hoc hot hch hdp hdt rfl
      rfl hown.1 hown.2.2 (by intro n hn; simp at hn ⊢; exact hn)
      (fun hq hn => ⟨hq, hown.2.1, hn⟩)⟩
  | a_prior =>
    have ho : owner = some QueueThread.producer := hop.mp rfl
    subst ho
    exact ⟨l, queueInvariant_private_write heap head tail QueueEventPc.a_prior
      QueueEventPc.a_head pargs pcur cpc ccur tpc tcur l _ 5 5 hnd hoc hot hch hdp hdt rfl
      rfl hown.1 hown.2.2 (by intro n hn; simp at hn ⊢; exact hn)
      (fun hq hn => ⟨hq, hown.2.1, hn⟩)⟩
  | a_head =>
    have ho : owner = some QueueThread.producer := hop.mp rfl
    subst ho
    obtain ⟨hq, hh0, hnew⟩ := hown
    dsimp only at hq hh0 hnew
    subst hh0
    have hl : l = [] := queueChain_null heap l hq.1
    subst hl
    obtain ⟨n, hn, hpay, hnext⟩ := newEvent_payload heap [] pcur pargs 5 hnew (by decide)
    refine ⟨[(pcur, pargs)], ?_⟩
    unfold QueueEventStep queueInvariant
    dsimp only [QueueSystem.queue]
    refine ⟨by simp, by simp [QueueEventPc.critical], hoc, hot, ?_,
      fun h => absurd h (by decide), hdt, ⟨rfl, hnew.1, n, hn, hpay, hnext (le_refl 5)⟩, rfl⟩
    apply consumerHolds_mono cpc ccur heap heap [] _ hch
    intro hh hheld
    refine ⟨hheld.1, hheld.2.1, ?_⟩
    have hne := hdp rfl hh hheld.1
    simpa using hne
  | a_tail =>
    have ho : owner = some QueueThread.producer := hop.mp rfl
    subst ho
    obtain ⟨hchain, hlast⟩ := hown
    dsimp only at hchain hlast
    refine ⟨l, ?_⟩
    unfold QueueEventStep queueInvariant
    dsimp only [QueueSystem.queue]
    refine ⟨hnd, by simp [QueueEventPc.critical], hoc, hot, hch,
      fun h => absurd h (by decide), hdt, hchain, hnd, ?_⟩
    dsimp only
    rw [hlast]
    rfl
  | b_event =>
    have ho : owner = some QueueThread.producer := hop.mp rfl
    subst ho
    exact ⟨l, queueInvariant_private_write heap head tail QueueEventPc.b_event
      QueueEventPc.b_hwnd pargs pcur cpc ccur tpc tcur l _ 0 1 hnd hoc hot hch hdp hdt rfl rfl
      hown.1 hown.2.2 (by intro n _; simp)
      (fun hq hn => ⟨hq, hown.2.1, hn⟩)⟩
  | b_hwnd =>
    have ho : owner = some QueueThread.producer := hop.mp rfl
    subst ho
    exact ⟨l, queueInvariant_private_write heap head tail QueueEventPc.b_hwnd
      QueueEventPc.b_idChild pargs pcur cpc ccur tpc tcur l _ 1 2 hnd hoc hot hch hdp hdt rfl
      rfl hown.1 hown.2.2 (by intro n hn; simp at hn ⊢; exact hn)
      (fun hq hn => ⟨hq, hown.2.1, hn⟩)⟩
  | b_idChild =>
    have ho : owner = some QueueThread.producer := hop.mp rfl
    subst ho
    exact ⟨l, queueInvariant_private_write heap head tail QueueEventPc.b_idChild
      QueueEventPc.b_idObject pargs pcur cpc ccur tpc tcur l _ 2 3 hnd hoc hot hch hdp hdt rfl
      rfl hown.1 hown.2.2 (by intro n hn; simp at hn ⊢; exact hn)
      (fun hq hn => ⟨hq, hown.2.1, hn⟩)⟩
  | b_idObject =>
    have ho : owner = some QueueThread.producer := hop.mp rfl
    subst ho
    exact ⟨l, queueInvariant_private_write heap head tail QueueEventPc.b_idObject
      QueueEventPc.b_tail_next pargs pcur cpc ccur tpc tcur l _ 3 4 hnd hoc hot hch hdp hdt rfl
      rfl hown.1 hown.2.2 (by intro n hn; simp at hn ⊢; exact hn)
      (fun hq hn => ⟨hq, hown.2.1, hn⟩)⟩
  | b_tail_next =>
    have ho : owner = some QueueThread.producer := hop.mp rfl
    subst ho
    obtain ⟨hq, hh0, hnew⟩ := hown
    dsimp only at hq hh0 hnew
    obtain ⟨hchain, _, htail⟩ := hq
    dsimp only at hchain htail
    rcases List.eq_nil_or_concat l with hl | ⟨l0, te, hl⟩
    · subst hl
      exact absurd hchain hh0
    · obtain ⟨t, e⟩ := te
      rw [List.concat_eq_append] at hl
      subst hl
      have htl : tail = t := by simpa using htail
      have hpt : pcur ≠ t := by
        intro h1
        apply hnew.2.1
        rw [h1]
        simp
      refine ⟨l0 ++ [(t, e)], ?_⟩
      unfold QueueEventStep queueInvariant
      dsimp only [QueueSystem.queue]
      refine ⟨hnd, by simp [QueueEventPc.critical], hoc, hot, ?_,
        fun _ hh h0 => hdp rfl hh h0, hdt, ?_, htail, ?_⟩
      · apply consumerHolds_mono cpc ccur heap _ _ _ hch
        intro _ hheld
        exact ⟨hheld.1, heapUpdate_allocated heap ccur tail _ hheld.2.1, hheld.2.2⟩
      · rw [htl]
        exact queueChainTo_set_last heap pcur l0 t e head hchain hnd
      · exact newEvent_congr heap _ _ pcur pargs 4
          (heapUpdate_other heap pcur tail _ (by rw [htl]; exact hpt)) hnew
  | b_prior =>
    have ho : owner = some QueueThread.producer := hop.mp rfl
    subst ho
    obtain ⟨hchain, htail, hnew⟩ := hown
    dsimp only at hchain htail hnew
    refine ⟨l, ?_⟩
    unfold QueueEventStep queueInvariant
    dsimp only [QueueSystem.queue]
    refine ⟨hnd, by simp [QueueEventPc.critical], hoc, hot, ?_,
      fun _ hh h0 => hdp rfl hh h0, hdt, ?_, htail, ?_⟩
    · apply consumerHolds_mono cpc ccur heap _ _ _ hch
      intro _ hheld
      exact ⟨hheld.1, heapUpdate_allocated heap ccur pcur _ hheld.2.1, hheld.2.2⟩
    · exact queueChainTo_congr heap _ l head pcur
        (same_of_not_mem heap _ pcur l hnew.2.1 (fun a ha => heapUpdate_other heap a pcur _ ha))
        hchain
    · exact newEvent_update heap l pcur pargs 4 4 _ hnew
        (by intro n hn; simp at hn ⊢; exact hn)
  | b_next =>
    have ho : owner = some QueueThread.producer := hop.mp rfl
    subst ho
    obtain ⟨hchain, htail, hnew⟩ := hown
    dsimp only at hchain htail hnew
    have hnew5 := newEvent_update heap l pcur pargs 4 5 (fun n => { n with next := 0 }) hnew
      (by intro n hn; simp at hn ⊢; exact hn)
    obtain ⟨n, hn, hpay, hnext⟩ := newEvent_payload _ l pcur pargs 5 hnew5 (by decide)
    refine ⟨l ++ [(pcur, pargs)], ?_⟩
    unfold QueueEventStep queueInvariant
    dsimp only [QueueSystem.queue]
    refine ⟨?_, by simp [QueueEventPc.critical], hoc, hot, ?_,
      fun h => absurd h (by decide), hdt, ?_, ?_⟩
    · rw [List.map_append, List.nodup_append]
      refine ⟨hnd, by simp, ?_⟩
      intro x hx1 hx2
      have : x = pcur := by simpa using hx2
      exact hnew.2.1 (this ▸ hx1)
    · apply consumerHolds_mono cpc ccur heap _ _ _ hch
      intro hh hheld
      refine ⟨hheld.1, heapUpdate_allocated heap ccur pcur _ hheld.2.1, ?_⟩
      have hne := hdp rfl hh hheld.1
      have hnotin := hheld.2.2
      simp only [List.map_append, List.map_cons, List.map_nil, List.mem_append,
        List.mem_singleton, not_or]
      exact ⟨hnotin, hne⟩
    · apply queueChainTo_append _ l [(pcur, pargs)] head pcur
      · exact queueChainTo_congr heap _ l head pcur
          (same_of_not_mem heap _ pcur l hnew.2.1
            (fun a ha => heapUpdate_other heap a pcur _ ha)) hchain
      · exact ⟨rfl, hnew.1, n, hn, hpay, hnext (le_refl 5)⟩
    · simp
  | b_tail =>
    have ho : owner = some QueueThread.producer := hop.mp rfl
    subst ho
    obtain ⟨hchain, hlast⟩ := hown
    dsimp only at hchain hlast
    refine ⟨l, ?_⟩
    unfold QueueEventStep queueInvariant
    dsimp only [QueueSystem.queue]
    refine ⟨hnd, by simp [QueueEventPc.critical], hoc, hot, hch,
      fun h => absurd h (by decide), hdt, hchain, hnd, ?_⟩
    dsimp only
    rw [hlast]
    rfl
  | leave =>
    have ho : owner = some QueueThread.producer := hop.mp rfl
    subst ho
    refine ⟨l, ?_⟩
    unfold QueueEventStep queueInvariant
    dsimp only [QueueSystem.queue]
    exact ⟨hnd, by simp [QueueEventPc.critical], by simpa using hoc, by simpa using hot, hch,
      fun h => absurd h (by decide), hdt, hown⟩

/-- The invariant holds before any notification. -/
theorem queueInvariant_initial : queueInvariant initialQueueSystem [] := by
  unfold queueInvariant initialQueueSystem
  dsimp only [QueueSystem.queue]
  exact ⟨List.nodup_nil, by decide, by decide, by decide, trivial,
    fun h => absurd h (by decide), fun h => absurd h (by decide), rfl, List.nodup_nil, rfl⟩

/-- Every step of a schedule keeps the invariant. -/
theorem stepQueueSystem_invariant (s : QueueSystem) (a : QueueAction)
    (l : List (Nat × (Nat × Nat × Int × Int))) (h : queueInvariant s l) :
    ∃ l2, queueInvariant (stepQueueSystem s a) l2 := by
  cases a with
  | producer event hwnd idObject idChild addr garbage =>
    exact QueueEventStep_invariant s l event hwnd idObject idChild addr garbage h
  | consumer => exact ProcessEventQueueStep_invariant s l h
  | teardown => exact FreeQueueEventStep_invariant s l h

/-- The invariant holds after every schedule. -/
theorem runQueueSystem_invariant (sched : List QueueAction) (s : QueueSystem)
    (l : List (Nat × (Nat × Nat × Int × Int))) (h : queueInvariant s l) :
    ∃ l2, queueInvariant (runQueueSystem s sched) l2 := by
  induction sched generalizing s l with
  | nil => exact ⟨l, h⟩
  | cons a rest ih =>
    obtain ⟨l1, h1⟩ := stepQueueSystem_invariant s a l h
    exact ih _ l1 h1

/-- A thread that does not own the critical section changes neither `head`
nor `tail`, and changes the heap only by the `free(current)` of the consumer. -/
theorem stepQueueSystem_frame (s : QueueSystem) (a : QueueAction)
    (l : List (Nat × (Nat × Nat × Int × Int))) (h : queueInvariant s l)
    (hne : s.owner ≠ some a.thread) :
    (stepQueueSystem s a).head = s.head ∧ (stepQueueSystem s a).tail = s.tail ∧
      ((stepQueueSystem s a).heap = s.heap ∨
        (a.thread = QueueThread.consumer ∧ s.cpc = ProcessEventQueuePc.free ∧
          (stepQueueSystem s a).heap = heapSet s.heap s.ccur none)) := by
  obtain ⟨heap, head, tail, owner, ppc, pargs, pcur, cpc, ccur, tpc, tcur⟩ := s
  unfold queueInvariant at h
  obtain ⟨_, hop, hoc, hot, _⟩ := h
  dsimp only at hop hoc hot hne
  cases a with
  | producer event hwnd idObject idChild addr garbage =>
    unfold stepQueueSystem QueueEventStep
    cases ppc <;>
      first
      | exact absurd (hop.mp rfl) hne
      | exact ⟨rfl, rfl, Or.inl rfl⟩
      | (dsimp only; split_ifs <;> exact ⟨rfl, rfl, Or.inl rfl⟩)
  | consumer =>
    unfold stepQueueSystem ProcessEventQueueStep
    cases cpc <;>
      first
      | exact absurd (hoc.mp rfl) hne
      | exact ⟨rfl, rfl, Or.inl rfl⟩
      | exact ⟨rfl, rfl, Or.inr ⟨rfl, rfl, rfl⟩⟩
      | (dsimp only; split_ifs <;> exact ⟨rfl, rfl, Or.inl rfl⟩)
  | teardown =>
    unfold stepQueueSystem FreeQueueEventStep
    cases tpc <;>
      first
      | exact absurd (hot.mp rfl) hne
      | exact ⟨rfl, rfl, Or.inl rfl⟩
      | (dsimp only; split_ifs <;> exact ⟨rfl, rfl, Or.inl rfl⟩)

/-- C21, as amended: under every interleaving of the statements of
`QueueEvent`, of the consumer loop of `ProcessEventQueue` and of
`FreeQueueEvent`, from the empty queue on: a thread is between
`EnterCriticalSection` and `LeaveCriticalSection` exactly when it owns
`criticalSection`, so at most one thread is; a step of a thread that does not
own it changes neither `head` nor `tail` and changes the heap only by the
`free(current)` of the consumer; whenever the critical section is free the
queue is well linked and the event the consumer is about to free is not
linked in it; and a thread that reads `head`, `tail` or a link inside its
critical section reads a well-linked queue.  The test `while (head)` of the
consumer is the one access outside the critical section. -/
theorem QueueEvent_mutual_exclusion (sched : List QueueAction) (a : QueueAction) :
    (((runQueueSystem initialQueueSystem sched).ppc.critical = true ↔
        (runQueueSystem initialQueueSystem sched).owner = some QueueThread.producer) ∧
      ((runQueueSystem initialQueueSystem sched).cpc.critical = true ↔
        (runQueueSystem initialQueueSystem sched).owner = some QueueThread.consumer) ∧
      ((runQueueSystem initialQueueSystem sched).tpc.critical = true ↔
        (runQueueSystem initialQueueSystem sched).owner = some QueueThread.teardown)) ∧
    ((runQueueSystem initialQueueSystem sched).owner ≠ some a.thread →
      (stepQueueSystem (runQueueSystem initialQueueSystem sched) a).head =
          (runQueueSystem initialQueueSystem sched).head ∧
        (stepQueueSystem (runQueueSystem initialQueueSystem sched) a).tail =
          (runQueueSystem initialQueueSystem sched).tail ∧
        ((stepQueueSystem (runQueueSystem initialQueueSystem sched) a).heap =
            (runQueueSystem initialQueueSystem sched).heap ∨
          (a.thread = QueueThread.consumer ∧
            (runQueueSystem initialQueueSystem sched).cpc = ProcessEventQueuePc.free ∧
            (stepQueueSystem (runQueueSystem initialQueueSystem sched) a).heap =
              heapSet (runQueueSystem initialQueueSystem sched).heap
                (runQueueSystem initialQueueSystem sched).ccur none))) ∧
    ((runQueueSystem initialQueueSystem sched).owner = none →
      ∃ l, queueRepr (runQueueSystem initialQueueSystem sched).queue l ∧
        ((runQueueSystem initialQueueSystem sched).cpc = ProcessEventQueuePc.free →
          (runQueueSystem initialQueueSystem sched).ccur ∉ l.map Prod.fst)) ∧
    ((runQueueSystem initialQueueSystem sched).ppc = QueueEventPc.test_head ∨
        (runQueueSystem initialQueueSystem sched).ppc = QueueEventPc.b_tail_next →
      ∃ l, queueRepr (runQueueSystem initialQueueSystem sched).queue l) ∧
    ((runQueueSystem initialQueueSystem sched).cpc = ProcessEventQueuePc.read_head ∨
        (runQueueSystem initialQueueSystem sched).cpc = ProcessEventQueuePc.test_current ∨
        (runQueueSystem initialQueueSystem sched).cpc = ProcessEventQueuePc.test_next ∨
        (runQueueSystem initialQueueSystem sched).cpc = ProcessEventQueuePc.head_next →
      ∃ l, queueRepr (runQueueSystem initialQueueSystem sched).queue l) ∧
    ((runQueueSystem initialQueueSystem sched).tpc = FreeQueueEventPc.test_head ∨
        (runQueueSystem initialQueueSystem sched).tpc = FreeQueueEventPc.read_head ∨
        (runQueueSystem initialQueueSystem sched).tpc = FreeQueueEventPc.advance →
      ∃ l, queueChain (runQueueSystem initialQueueSystem sched).heap
        (runQueueSystem initialQueueSystem sched).head l) := by
  obtain ⟨l, hinv⟩ := runQueueSystem_invariant sched initialQueueSystem [] queueInvariant_initial
  have hframe := stepQueueSystem_frame (runQueueSystem initialQueueSystem sched) a l hinv
  generalize runQueueSystem initialQueueSystem sched = s at hinv hframe ⊢
  obtain ⟨heap, head, tail, owner, ppc, pargs, pcur, cpc, ccur, tpc, tcur⟩ := s
  unfold queueInvariant at hinv
  obtain ⟨hnd, hop, hoc, hot, hch, hdp, hdt, hown⟩ := hinv
  dsimp only [QueueSystem.queue] at hnd hop hoc hot hch hdp hdt hown ⊢
  refine ⟨⟨hop, hoc, hot⟩, hframe, ?_, ?_, ?_, ?_⟩
  · intro ho
    subst ho
    refine ⟨l, hown, fun hc => ?_⟩
    subst hc
    exact hch.2.2
  · intro hp
    have ho : owner = some QueueThread.producer := by
      rcases hp with h1 | h1 <;> exact hop.mp (by rw [h1]; rfl)
    subst ho
    rcases hp with h1 | h1 <;> subst h1 <;> exact ⟨l, hown.1⟩
  · intro hc
    have ho : owner = some QueueThread.consumer := by
      rcases hc with h1 | h1 | h1 | h1 <;> exact hoc.mp (by rw [h1]; rfl)
    subst ho
    rcases hc with h1 | h1 | h1 | h1 <;> subst h1
    · exact ⟨l, hown⟩
    · exact ⟨l, hown.1⟩
    · exact ⟨l, hown.1⟩
    · exact ⟨l, hown.1⟩
  · intro ht
    have ho : owner = some QueueThread.teardown := by
      rcases ht with h1 | h1 | h1 <;> exact hot.mp (by rw [h1]; rfl)
    subst ho
    rcases ht with h1 | h1 | h1 <;> subst h1
    · exact ⟨l, hown⟩
    · exact ⟨l, hown.1⟩
    · exact ⟨l, hown.1⟩

/-- Instance of C21: after `exampleSchedule` the producer owns the critical
section with `head` set to the new event and `tail` still null, and the
consumer waits: its step changes nothing of the queue.  Once the producer has
executed `tail = current` and left the critical section, the queue is well
linked. -/
theorem QueueEvent_mutual_exclusion_witness :
    ((runQueueSystem initialQueueSystem exampleSchedule).owner = some QueueThread.producer ∧
      (runQueueSystem initialQueueSystem exampleSchedule).ppc = QueueEventPc.a_tail ∧
      (runQueueSystem initialQueueSystem exampleSchedule).cpc = ProcessEventQueuePc.enter ∧
      (runQueueSystem initialQueueSystem exampleSchedule).head = 100 ∧
      (runQueueSystem initialQueueSystem exampleSchedule).tail = 0) ∧
    ((stepQueueSystem (runQueueSystem initialQueueSystem exampleSchedule)
          QueueAction.consumer).head =
        (runQueueSystem initialQueueSystem exampleSchedule).head ∧
      (stepQueueSystem (runQueueSystem initialQueueSystem exampleSchedule)
          QueueAction.consumer).tail =
        (runQueueSystem initialQueueSystem exampleSchedule).tail) ∧
    ((runQueueSystem initialQueueSystem
          (exampleSchedule ++ [exampleProducerStep, exampleProducerStep])).owner = none ∧
      ∃ l, queueRepr
        (runQueueSystem initialQueueSystem
          (exampleSchedule ++ [exampleProducerStep, exampleProducerStep])).queue l) :=
  ⟨by decide,
    ⟨((QueueEvent_mutual_exclusion exampleSchedule QueueAction.consumer).2.1 (by decide)).1,
      ((QueueEvent_mutual_exclusion exampleSchedule QueueAction.consumer).2.1 (by decide)).2.1⟩,
    by decide,
    ((QueueEvent_mutual_exclusion (exampleSchedule ++ [exampleProducerStep, exampleProducerStep])
      QueueAction.consumer).2.2.1 (by decide)).imp (fun _ h => h.1)⟩

/-- The events of a chain are not at the null address. -/
theorem queueChain_ne_zero (heap : Nat → Option consoleEvent) (a : Nat)
    (l : List (Nat × (Nat × Nat × Int × Int))) (h : queueChain heap a l) :
    ∀ x ∈ l, x.1 ≠ 0 := by
  induction l generalizing a with
  | nil => simp
  | cons y rest ih =>
    obtain ⟨b, p⟩ := y
    obtain ⟨_, hb0, n, _, _, hrest⟩ := h
    intro x hx
    rcases List.mem_cons.mp hx with h1 | h1
    · subst h1
      exact hb0
    · exact ih _ hrest x h1

/-- In a well-linked queue `tail` is null only when `head` is. -/
theorem queueRepr_tail_ne_zero (q : EventQueue) (l : List (Nat × (Nat × Nat × Int × Int)))
    (h : queueRepr q l) (hh : q.head ≠ 0) : q.tail ≠ 0 := by
  obtain ⟨hchain, _, htail⟩ := h
  rcases List.eq_nil_or_concat l with hl | ⟨l0, te, hl⟩
  · subst hl
    exact absurd hchain hh
  · rw [List.concat_eq_append] at hl
    subst hl
    have ht : q.tail = te.1 := by simpa using htail
    rw [ht]
    exact queueChain_ne_zero q.heap q.head _ hchain te (by simp)

/-- C21 as stated fails for the test `while (head)` of the consumer, which is
made outside the critical section.  After `exampleScheduleStart` the producer
owns the critical section and is about to execute `tail = current`: `head` is
the new event and `tail` is still null, so the queue is not well linked.  The
step of the consumer reads `head` in this state and, finding it not null, goes
on to `EnterCriticalSection`. -/
theorem QueueEvent_mutual_exclusion_counterexample :
    (runQueueSystem initialQueueSystem exampleScheduleStart).owner =
        some QueueThread.producer ∧
      (runQueueSystem initialQueueSystem exampleScheduleStart).ppc = QueueEventPc.a_tail ∧
      (runQueueSystem initialQueueSystem exampleScheduleStart).head = 100 ∧
      (runQueueSystem initialQueueSystem exampleScheduleStart).tail = 0 ∧
      (¬ ∃ l, queueRepr (runQueueSystem initialQueueSystem exampleScheduleStart).queue l) ∧
      (runQueueSystem initialQueueSystem exampleScheduleStart).cpc =
        ProcessEventQueuePc.test_head ∧
      (stepQueueSystem (runQueueSystem initialQueueSystem exampleScheduleStart)
        QueueAction.consumer).cpc = ProcessEventQueuePc.enter :=
  ⟨by decide, by decide, by decide, by decide,
    fun ⟨l, h⟩ => queueRepr_tail_ne_zero _ l h (by decide) (by decide), by decide, by decide⟩

/-! ## Claims about rejected events and trailing cells -/

/-- C32: `ProcessEvent` returns `ERROR_INVALID_PARAMETER`, writes nothing,
reads nothing and changes no variable when the event pointer is null, when
the kind of the event is below `EVENT_CONSOLE_CARET` or above
`EVENT_CONSOLE_LAYOUT`, and when the child output handle is
`INVALID_HANDLE_VALUE` or null. -/
theorem ProcessEvent_invalid (api : ConsoleApi) (s : HostState) :
    ProcessEvent api s none =
        { ret := ERROR_INVALID_PARAMETER, written := [], reads := [], state := s } ∧
      ∀ current : consoleEvent,
        current.event < EVENT_CONSOLE_CARET ∨ current.event > EVENT_CONSOLE_LAYOUT ∨
            s.child_out = INVALID_HANDLE_VALUE ∨ s.child_out = 0 →
          ProcessEvent api s (some current) =
            { ret := ERROR_INVALID_PARAMETER, written := [], reads := [], state := s } := by
  refine ⟨rfl, fun current h => ?_⟩
  unfold ProcessEvent
  dsimp only
  by_cases hev : current.event < EVENT_CONSOLE_CARET ∨ current.event > EVENT_CONSOLE_LAYOUT
  · rw [if_pos hev]
  · rw [if_neg hev]
    have hout : s.child_out = INVALID_HANDLE_VALUE ∨ s.child_out = 0 := by
      rcases h with h1 | h1 | h1 | h1
      · exact absurd (Or.inl h1) hev
      · exact absurd (Or.inr h1) hev
      · exact Or.inl h1
      · exact Or.inr h1
    rw [if_pos hout]

/-- Instances of C32 on the console of 80 by 25: the notification 0x4006, the
start of an application, is rejected, and so is a caret event while the child
output handle is `INVALID_HANDLE_VALUE` or null. -/
theorem ProcessEvent_invalid_witness :
    ProcessEvent exampleApi (exampleState false) (some (exampleEvent 0x4006 0 0)) =
        { ret := ERROR_INVALID_PARAMETER, written := [], reads := [],
          state := exampleState false } ∧
      ProcessEvent exampleApi { exampleState false with child_out := INVALID_HANDLE_VALUE }
          (some (exampleEvent EVENT_CONSOLE_CARET 0 (3 * 65536))) =
        { ret := ERROR_INVALID_PARAMETER, written := [], reads := [],
          state := { exampleState false with child_out := INVALID_HANDLE_VALUE } } ∧
      ProcessEvent exampleApi { exampleState false with child_out := 0 }
          (some (exampleEvent EVENT_CONSOLE_CARET 0 (3 * 65536))) =
        { ret := ERROR_INVALID_PARAMETER, written := [], reads := [],
          state := { exampleState false with child_out := 0 } } :=
  ⟨(ProcessEvent_invalid exampleApi (exampleState false)).2 (exampleEvent 0x4006 0 0)
      (by decide),
    (ProcessEvent_invalid exampleApi
      { exampleState false with child_out := INVALID_HANDLE_VALUE }).2
      (exampleEvent EVENT_CONSOLE_CARET 0 (3 * 65536)) (by decide),
    (ProcessEvent_invalid exampleApi { exampleState false with child_out := 0 }).2
      (exampleEvent EVENT_CONSOLE_CARET 0 (3 * 65536)) (by decide)⟩

/-- The writes of `SendCharacter` for a character that is not null: the
attribute sequence, when ANSI emulation is enabled and the attributes differ
from the remembered ones, then the bytes of the character unless the cell is a
trailing one. -/
theorem SendCharacter_not_null (b : Bool) (p a c : Nat) (hc : c ≠ 0) :
    SendCharacter b p a c =
      ((if b = true ∧ a ≠ p then [formatted_output a] else []) ++
        (if a &&& COMMON_LVB_TRAILING_BYTE = 0 then [WideCharToMultiByte c] else []), a) := by
  unfold SendCharacter
  rw [if_neg hc]
  dsimp only
  rw [if_pos (WideCharToMultiByte_length_pos c)]

/-- C31: for a null character `SendCharacter` writes nothing and leaves the
remembered attributes unchanged.  For a cell flagged
`COMMON_LVB_TRAILING_BYTE` it writes at most the attribute sequence and never
the bytes of a character.  So where a leading cell with a character that is
not null is followed by its trailing cell, the loop of `SendBuffer` writes for
the two cells the bytes of the character exactly once, between the attribute
sequences that may be due, and `SendBuffer` over the two cells alone does the
same. -/
theorem SendCharacter_trailing (b : Bool) (p a : Nat) :
    SendCharacter b p a 0 = ([], p) ∧
      (a &&& COMMON_LVB_TRAILING_BYTE ≠ 0 → ∀ c,
        (SendCharacter b p a c).1 =
            (if c ≠ 0 ∧ b = true ∧ a ≠ p then [formatted_output a] else []) ∧
          ∀ c2, WideCharToMultiByte c2 ∉ (SendCharacter b p a c).1) ∧
      (∀ (buffer : List CHAR_INFO) (i n : Nat) (lead trail : CHAR_INFO),
        buffer.get? i = some lead → buffer.get? (i + 1) = some trail →
        lead.UnicodeChar ≠ 0 → lead.Attributes &&& COMMON_LVB_TRAILING_BYTE = 0 →
        trail.Attributes &&& COMMON_LVB_TRAILING_BYTE ≠ 0 →
        SendBufferFrom b buffer (n + 2) i p =
            ((if b = true ∧ lead.Attributes ≠ p then [formatted_output lead.Attributes]
                else []) ++
              [WideCharToMultiByte lead.UnicodeChar] ++
              (if trail.UnicodeChar ≠ 0 ∧ b = true ∧ trail.Attributes ≠ lead.Attributes then
                [formatted_output trail.Attributes]
              else []) ++
              (SendBufferFrom b buffer n (i + 2)
                (if trail.UnicodeChar = 0 then lead.Attributes else trail.Attributes)).1,
            (SendBufferFrom b buffer n (i + 2)
              (if trail.UnicodeChar = 0 then lead.Attributes else trail.Attributes)).2) ∧
          ((if b = true ∧ lead.Attributes ≠ p then [formatted_output lead.Attributes]
                else []) ++
              [WideCharToMultiByte lead.UnicodeChar] ++
              (if trail.UnicodeChar ≠ 0 ∧ b = true ∧ trail.Attributes ≠ lead.Attributes then
                [formatted_output trail.Attributes]
              else [])).count (WideCharToMultiByte lead.UnicodeChar) = 1) ∧
      (∀ lead trail : CHAR_INFO,
        lead.UnicodeChar ≠ 0 → lead.Attributes &&& COMMON_LVB_TRAILING_BYTE = 0 →
        trail.Attributes &&& COMMON_LVB_TRAILING_BYTE ≠ 0 →
        (SendBuffer b p [lead, trail] 2).1.count (WideCharToMultiByte lead.UnicodeChar) = 1) := by
  have hcount : ∀ (x y u : Nat) (c1 c2 : Prop) [Decidable c1] [Decidable c2],
      ((if c1 then [formatted_output x] else []) ++ [WideCharToMultiByte u] ++
        (if c2 then [formatted_output y] else [])).count (WideCharToMultiByte u) = 1 := by
    intro x y u c1 c2 _ _
    have hx := formatted_output_ne_character x u
    have hy := formatted_output_ne_character y u
    by_cases h1 : c1 <;> by_cases h2 : c2 <;> simp [h1, h2, List.count_cons, hx, hy]
  have hpair : ∀ (buffer : List CHAR_INFO) (i n : Nat) (lead trail : CHAR_INFO),
      buffer.get? i = some lead → buffer.get? (i + 1) = some trail →
      lead.UnicodeChar ≠ 0 → lead.Attributes &&& COMMON_LVB_TRAILING_BYTE = 0 →
      trail.Attributes &&& COMMON_LVB_TRAILING_BYTE ≠ 0 →
      SendBufferFrom b buffer (n + 2) i p =
        ((if b = true ∧ lead.Attributes ≠ p then [formatted_output lead.Attributes]
            else []) ++
          [WideCharToMultiByte lead.UnicodeChar] ++
          (if trail.UnicodeChar ≠ 0 ∧ b = true ∧ trail.Attributes ≠ lead.Attributes then
            [formatted_output trail.Attributes]
          else []) ++
          (SendBufferFrom b buffer n (i + 2)
            (if trail.UnicodeChar = 0 then lead.Attributes else trail.Attributes)).1,
        (SendBufferFrom b buffer n (i + 2)
          (if trail.UnicodeChar = 0 then lead.Attributes else trail.Attributes)).2) := by
    intro buffer i n lead trail hl ht hc hla hta
    have hgl : buffer.getD i { UnicodeChar := 0, Attributes := 0 } = lead := by
      rw [List.getD_eq_getElem?_getD, ← List.get?_eq_getElem?, hl]
      rfl
    have hgt : buffer.getD (i + 1) { UnicodeChar := 0, Attributes := 0 } = trail := by
      rw [List.getD_eq_getElem?_getD, ← List.get?_eq_getElem?, ht]
      rfl
    rw [SendBufferFrom, SendBufferFrom]
    dsimp only
    rw [hgl, hgt, SendCharacter_not_null b p _ _ hc, if_pos hla]
    dsimp only
    by_cases hc2 : trail.UnicodeChar = 0
    · rw [hc2, if_pos rfl]
      have h0 : SendCharacter b lead.Attributes trail.Attributes 0 = ([], lead.Attributes) := rfl
      rw [h0]
      simp
    · rw [SendCharacter_not_null b _ _ _ hc2, if_neg hta, if_neg hc2]
      dsimp only
      simp [hc2, List.append_assoc]
  refine ⟨rfl, ?_, ?_, ?_⟩
  · intro ha c
    by_cases hc : c = 0
    · subst hc
      have h0 : SendCharacter b p a 0 = ([], p) := rfl
      rw [h0]
      simp
    · rw [SendCharacter_not_null b p a c hc, if_neg ha]
      dsimp only
      refine ⟨by simp [hc], fun c2 hin => ?_⟩
      by_cases h1 : b = true ∧ a ≠ p
      · rw [if_pos h1] at hin
        have heq : WideCharToMultiByte c2 = formatted_output a := by simpa using hin
        exact formatted_output_ne_character a c2 heq.symm
      · rw [if_neg h1] at hin
        simp at hin
  · intro buffer i n lead trail hl ht hc hla hta
    exact ⟨hpair buffer i n lead trail hl ht hc hla hta, hcount _ _ _ _ _⟩
  · intro lead trail hc hla hta
    unfold SendBuffer
    rw [if_neg (by decide), hpair [lead, trail] 0 0 lead trail rfl rfl hc hla hta]
    have hnil : ∀ q, SendBufferFrom b [lead, trail] 0 (0 + 2) q = ([], q) := fun q => rfl
    rw [hnil]
    dsimp only
    rw [List.append_nil]
    exact hcount _ _ _ _ _

/-- Instance of C31: the glyph U+3042 in a leading cell (attributes 0x0107)
followed by its trailing cell (attributes 0x0207) is written once, as the
bytes E3 81 82, after the attribute sequence of the leading cell and before
the one of the trailing cell. -/
theorem SendCharacter_trailing_witness :
    (SendBuffer true 0
        [{ UnicodeChar := 0x3042, Attributes := 0x0107 },
          { UnicodeChar := 0x3042, Attributes := 0x0207 }] 2).1 =
        [0x1B :: "[0;39;24;27;37;40m".toList.map Char.toNat, [0xE3, 0x81, 0x82],
          0x1B :: "[0;39;24;27;37;40m".toList.map Char.toNat] ∧
      (SendBuffer true 0
        [{ UnicodeChar := 0x3042, Attributes := 0x0107 },
          { UnicodeChar := 0x3042, Attributes := 0x0207 }] 2).1.count
        (WideCharToMultiByte 0x3042) = 1 :=
  ⟨by decide,
    (SendCharacter_trailing true 0 0).2.2.2 { UnicodeChar := 0x3042, Attributes := 0x0107 }
      { UnicodeChar := 0x3042, Attributes := 0x0207 } (by decide) (by decide) (by decide)⟩

/-! ## Claims about short escape sequences -/

/-- For a length below `MIN_CTRL_SEQ_LEN` the first test of
`ProcessModifierKeySequence` returns 0 with nothing sent. -/
theorem ProcessModifierKeySequence_below_min (ks : List key_translation) (buf : List Nat)
    (buf_len : Nat) (h : buf_len < 6) : ProcessModifierKeySequence ks buf buf_len = ([], 0) := by
  unfold ProcessModifierKeySequence
  have h2 : buf_len < MIN_CTRL_SEQ_LEN := h
  rw [if_pos h2]

/-- No row is found at the head of a buffer that no input of the table
opens. -/
theorem CheckKeyTranslations_none_of_not_opened (buf : List Nat)
    (hT : ∀ k ∈ initialize_keylen keys, ¬ k.in_ <+: buf) :
    CheckKeyTranslations (initialize_keylen keys) buf (wcslen buf) = none := by
  apply CheckKeyTranslationsFrom_none
  intro k hk hm
  exact hT k hk ((keys_match_iff_opens k hk buf).mp hm)

/-- One pass over a buffer of fewer than 6 units that no input of the table
opens, neither at its first unit nor at its second: a literal ESCAPE key
stroke for ESC, the interrupt for 0x03, and otherwise the literal key stroke
of the unit; one unit is consumed. -/
theorem ProcessIncomingKeysStep_short (u : Nat) (rest : List Nat)
    (hlen : wcslen (u :: rest) < 6)
    (hT : ∀ k ∈ initialize_keylen keys, ¬ k.in_ <+: u :: rest)
    (hT2 : ∀ k ∈ initialize_keylen keys, ¬ k.in_ <+: rest) :
    ProcessIncomingKeysStep (initialize_keylen keys) (u :: rest) =
      (if u = ESC then SendKeyStroke VK_ESCAPE 0x1B 0
        else if u = 0x03 then [ConsoleInput.GenerateConsoleCtrlEvent CTRL_C_EVENT 0]
        else SendKeyStroke 0 u 0, rest) := by
  by_cases hu : u = ESC
  · subst hu
    rw [ProcessIncomingKeysStep_esc rest hT (fun h => absurd h (by omega))
      (fun h => absurd h (by omega)), CheckKeyTranslations_none_of_not_opened rest hT2,
      if_pos rfl]
  · rw [if_neg hu]
    by_cases h3 : u = 0x03
    · subst h3
      rw [if_pos rfl]
      exact ProcessIncomingKeysStep_ctrl_c rest
    · rw [if_neg h3]
      unfold ProcessIncomingKeysStep
      dsimp only
      rw [CheckKeyTranslations_none_of_not_opened (u :: rest) hT]
      dsimp only
      have hne : wcharAt (u :: rest) 0 ≠ ESC := by simpa [wcharAt] using hu
      simp only [ProcessModifierKeySequence_not_esc _ _ _ hne, ite_self, wcsncmp_one, wcslen,
        List.length_singleton]
      simp [wcharAt, hu, h3]

/-- The decoder on a buffer of fewer than 6 units in which no input of the
table occurs: one literal key stroke per unit, ESCAPE for ESC, and the
interrupt for 0x03. -/
theorem ProcessIncomingKeys_short_units (buf : List Nat) (hlen : wcslen buf < 6)
    (hT : ∀ k ∈ initialize_keylen keys, ¬ k.in_ <:+: buf) :
    ProcessIncomingKeys (initialize_keylen keys) buf =
      some (buf.flatMap fun u =>
        if u = ESC then SendKeyStroke VK_ESCAPE 0x1B 0
        else if u = 0x03 then [ConsoleInput.GenerateConsoleCtrlEvent CTRL_C_EVENT 0]
        else SendKeyStroke 0 u 0) := by
  induction buf with
  | nil => rfl
  | cons u rest ih =>
    have hlen2 : wcslen rest < 6 := by
      unfold wcslen at hlen ⊢
      rw [List.length_cons] at hlen
      omega
    rw [ProcessIncomingKeys_cons_one _ _ _ _
        (ProcessIncomingKeysStep_short u rest hlen (fun k hk hp => hT k hk hp.isInfix)
          (fun k hk hp =>
            hT k hk (hp.isInfix.trans (List.suffix_cons u rest).isInfix))),
      ih hlen2 (fun k hk hp => hT k hk (hp.trans (List.suffix_cons u rest).isInfix))]
    rfl

/-- C34: `ProcessModifierKeySequence` returns 0 and sends nothing for every
length below 6, and on a buffer of fewer than 6 units the decoder makes
neither of its two calls.  So the first pass over such a buffer that starts
with ESC and is opened by no input of the table is the ALT form or the literal
ESCAPE key stroke; and a buffer of fewer than 6 units in which no input of the
table occurs is decoded unit by unit, by the literal ESCAPE key stroke and the
single-unit rule.  The buffer `ESC [ 1 ; 5` yields the ESCAPE key stroke
followed by the literal key strokes of `[`, `1`, `;` and `5`. -/
theorem ProcessModifierKeySequence_short_input (buf : List Nat) :
    (∀ (ks : List key_translation) (b : List Nat) (buf_len : Nat), buf_len < 6 →
        ProcessModifierKeySequence ks b buf_len = ([], 0)) ∧
      (wcslen buf < 6 →
        (if wcslen buf ≥ MAX_CTRL_SEQ_LEN then
            ProcessModifierKeySequence (initialize_keylen keys) buf MAX_CTRL_SEQ_LEN
          else ([], 0)) = ([], 0) ∧
        (if wcslen buf ≥ MAX_CTRL_SEQ_LEN - 1 then
            ProcessModifierKeySequence (initialize_keylen keys) buf (MAX_CTRL_SEQ_LEN - 1)
          else ([], 0)) = ([], 0)) ∧
      (∀ rest : List Nat, wcslen (ESC :: rest) < 6 →
        (∀ k ∈ initialize_keylen keys, ¬ k.in_ <+: ESC :: rest) →
        ProcessIncomingKeysStep (initialize_keylen keys) (ESC :: rest) =
          match CheckKeyTranslations (initialize_keylen keys) rest (wcslen rest) with
          | some j =>
            if (keyAt (initialize_keylen keys) j).ctrlState &&& LEFT_ALT_PRESSED = 0 then
              (SendKeyStroke (keyAt (initialize_keylen keys) j).vk
                  (keyAt (initialize_keylen keys) j).out
                  ((keyAt (initialize_keylen keys) j).ctrlState ||| LEFT_ALT_PRESSED),
                rest.drop (keyAt (initialize_keylen keys) j).in_key_len)
            else (SendKeyStroke VK_ESCAPE 0x1B 0, rest)
          | none => (SendKeyStroke VK_ESCAPE 0x1B 0, rest)) ∧
      (wcslen buf < 6 → (∀ k ∈ initialize_keylen keys, ¬ k.in_ <:+: buf) →
        ProcessIncomingKeys (initialize_keylen keys) buf =
          some (buf.flatMap fun u =>
            if u = ESC then SendKeyStroke VK_ESCAPE 0x1B 0
            else if u = 0x03 then [ConsoleInput.GenerateConsoleCtrlEvent CTRL_C_EVENT 0]
            else SendKeyStroke 0 u 0)) ∧
      ProcessIncomingKeys (initialize_keylen keys) (0x1B :: "[1;5".toList.map Char.toNat) =
        some (SendKeyStroke VK_ESCAPE 0x1B 0 ++ SendKeyStroke 0 0x5B 0 ++ SendKeyStroke 0 0x31 0 ++
          SendKeyStroke 0 0x3B 0 ++ SendKeyStroke 0 0x35 0) := by
  refine ⟨fun ks b n h => ProcessModifierKeySequence_below_min ks b n h, fun hlen => ?_,
    fun rest hlen hT => ?_, fun hlen hT => ProcessIncomingKeys_short_units buf hlen hT, ?_⟩
  · have h7 : ¬ wcslen buf ≥ MAX_CTRL_SEQ_LEN := by
      unfold MAX_CTRL_SEQ_LEN
      omega
    have h6 : ¬ wcslen buf ≥ MAX_CTRL_SEQ_LEN - 1 := by
      unfold MAX_CTRL_SEQ_LEN
      omega
    rw [if_neg h7, if_neg h6]
    exact ⟨rfl, rfl⟩
  · exact ProcessIncomingKeysStep_esc rest hT (fun h => absurd h (by omega))
      (fun h => absurd h (by omega))
  · decide

/-- Instance of C34: in `ESC [ 1 ; 5` no input of the table occurs, and the
decoder sends the ESCAPE key stroke and the four literal key strokes. -/
theorem ProcessModifierKeySequence_short_input_witness :
    wcslen (0x1B :: "[1;5".toList.map Char.toNat) < 6 ∧
      (∀ k ∈ initialize_keylen keys, ¬ k.in_ <:+: 0x1B :: "[1;5".toList.map Char.toNat) ∧
      ProcessIncomingKeys (initialize_keylen keys) (0x1B :: "[1;5".toList.map Char.toNat) =
        some ([ConsoleInput.WriteConsoleInputW
                { bKeyDown := true, wRepeatCount := 1, wVirtualKeyCode := VK_ESCAPE,
                  UnicodeChar := 0x1B, dwControlKeyState := 0 },
              ConsoleInput.WriteConsoleInputW
                { bKeyDown := false, wRepeatCount := 1, wVirtualKeyCode := VK_ESCAPE,
                  UnicodeChar := 0x1B, dwControlKeyState := 0 }] ++
          ("[1;5".toList.map Char.toNat).flatMap fun u =>
            [ConsoleInput.WriteConsoleInputW
                { bKeyDown := true, wRepeatCount := 1, wVirtualKeyCode := 0,
                  UnicodeChar := u, dwControlKeyState := 0 },
              ConsoleInput.WriteConsoleInputW
                { bKeyDown := false, wRepeatCount := 1, wVirtualKeyCode := 0,
                  UnicodeChar := u, dwControlKeyState := 0 }]) :=
  ⟨by decide, by decide,
    ((ProcessModifierKeySequence_short_input (0x1B :: "[1;5".toList.map Char.toNat)).2.2.2.1
      (by decide) (by decide)).trans (by decide)⟩

/-! ## Claims about the teardown of the event queue -/

/-- In a well-linked queue `head` is null exactly when `tail` is. -/
theorem queueRepr_head_tail (q : EventQueue) (l : List (Nat × (Nat × Nat × Int × Int)))
    (h : queueRepr q l) : q.head = 0 ↔ q.tail = 0 := by
  constructor
  · intro hh
    obtain ⟨hchain, _, htail⟩ := h
    rw [hh] at hchain
    have hl : l = [] := queueChain_null q.heap l hchain
    subst hl
    exact htail
  · intro ht
    by_contra hh
    exact queueRepr_tail_ne_zero q l h hh ht

/-- On a chain of distinct events the loop of `FreeQueueEvent` frees every
event of the chain once, in order, and nothing else, and ends with `head`
null. -/
theorem FreeQueueEventLoop_chain (l : List (Nat × (Nat × Nat × Int × Int))) (q : EventQueue)
    (fuel : Nat) (hch : queueChain q.heap q.head l) (hnd : (l.map Prod.fst).Nodup)
    (hfuel : l.length ≤ fuel) :
    ∃ q2, FreeQueueEventLoop fuel q = some (l.map Prod.fst, q2) ∧ q2.head = 0 ∧
      q2.tail = q.tail ∧ (∀ a ∈ l.map Prod.fst, q2.heap a = none) ∧
      ∀ a, a ∉ l.map Prod.fst → q2.heap a = q.heap a := by
  induction l generalizing q fuel with
  | nil =>
    have hh : q.head = 0 := hch
    refine ⟨q, ?_, hh, rfl, by simp, fun _ _ => rfl⟩
    cases fuel with
    | zero =>
      unfold FreeQueueEventLoop
      rw [if_neg (not_not.mpr hh)]
      rfl
    | succ f =>
      unfold FreeQueueEventLoop
      rw [if_neg (not_not.mpr hh)]
      rfl
  | cons y rest ih =>
    obtain ⟨a, p⟩ := y
    obtain ⟨hha, ha0, n, hn, _, hrest⟩ := hch
    have hnd2 : a ∉ rest.map Prod.fst ∧ (rest.map Prod.fst).Nodup := by simpa using hnd
    cases fuel with
    | zero => simp at hfuel
    | succ f =>
      have hh : q.head ≠ 0 := hha ▸ ha0
      have hnx : nextOf q.heap q.head = n.next := by
        unfold nextOf
        rw [hha, hn]
      have hother : ∀ x, x ≠ a → heapSet q.heap q.head none x = q.heap x := by
        intro x hx
        rw [hha]
        exact heapSet_other q.heap x a none hx
      have hch1 : queueChain (heapSet q.heap q.head none) n.next rest :=
        queueChain_congr q.heap _ rest n.next
          (same_of_not_mem q.heap _ a rest hnd2.1 hother) hrest
      obtain ⟨q2, hloop, hq2h, hq2t, hfreed, hkept⟩ :=
        ih { heap := heapSet q.heap q.head none, head := n.next, tail := q.tail } f hch1
          hnd2.2 (by simpa using hfuel)
      refine ⟨q2, ?_, hq2h, hq2t, ?_, ?_⟩
      · unfold FreeQueueEventLoop
        rw [if_pos hh]
        dsimp only
        rw [hnx, hloop]
        dsimp only
        rw [hha]
        rfl
      · intro x hx
        rw [List.map_cons, List.mem_cons] at hx
        by_cases hxr : x ∈ rest.map Prod.fst
        · exact hfreed x hxr
        · have hxa : x = a := hx.resolve_right hxr
          rw [hkept x hxr]
          dsimp only
          rw [hxa, hha]
          exact heapSet_self q.heap a none
      · intro x hx
        rw [List.map_cons, List.mem_cons, not_or] at hx
        rw [hkept x hx.2]
        exact hother x hx.1

/-- On a well-linked queue `FreeQueueEvent` frees every queued event once and
nothing else, and leaves `head` and `tail` null. -/
theorem FreeQueueEvent_repr (l : List (Nat × (Nat × Nat × Int × Int))) (q : EventQueue)
    (fuel : Nat) (hR : queueRepr q l) (hfuel : l.length ≤ fuel) :
    ∃ q2, FreeQueueEvent fuel q = some (l.map Prod.fst, q2) ∧ q2.head = 0 ∧ q2.tail = 0 ∧
      (∀ a ∈ l.map Prod.fst, q.heap a ≠ none ∧ q2.heap a = none) ∧
      ∀ a, a ∉ l.map Prod.fst → q2.heap a = q.heap a := by
  obtain ⟨q1, hloop, _, _, hfreed, hkept⟩ := FreeQueueEventLoop_chain l q fuel hR.1 hR.2.1 hfuel
  refine ⟨{ heap := q1.heap, head := 0, tail := 0 }, ?_, rfl, rfl, ?_, hkept⟩
  · unfold FreeQueueEvent
    rw [hloop]
  · intro a ha
    refine ⟨?_, hfreed a ha⟩
    obtain ⟨x, hx, hx1⟩ := List.mem_map.mp ha
    obtain ⟨n, hn⟩ := queueChain_allocated q.heap q.head l hR.1 x hx
    rw [← hx1, hn]
    exact Option.noConfusion

/-- After calls whose allocations fail or return fresh addresses the queue is
well linked, with at most one event per call more than before. -/
theorem runQueueCalls_repr (calls : List QueueCall) (fuel : Nat) (q : EventQueue)
    (l : List (Nat × (Nat × Nat × Int × Int))) (hR : queueRepr q l)
    (hfresh : callsFresh fuel q calls = true) (hfuel : l.length + calls.length ≤ fuel) :
    ∃ q2 l2, runQueueCalls fuel q calls = some q2 ∧ queueRepr q2 l2 ∧
      l2.length ≤ l.length + calls.length := by
  induction calls generalizing q l with
  | nil => exact ⟨q, l, rfl, hR, Nat.le_refl _⟩
  | cons c rest ih =>
    simp only [List.length_cons, List.length_nil] at hfuel ⊢
    cases c with
    | queue_event current event hwnd idObject idChild =>
      unfold callsFresh at hfresh
      rw [Bool.and_eq_true, Bool.or_eq_true, decide_eq_true_eq] at hfresh
      unfold runQueueCalls
      rcases hfresh.1 with h0 | hnew
      · have hq : QueueEvent q current event hwnd idObject idChild = q := by
          unfold QueueEvent
          rw [if_neg (not_not.mpr h0)]
        rw [hq] at hfresh ⊢
        obtain ⟨q2, l2, h1, h2, h3⟩ := ih q l hR hfresh.2 (by omega)
        exact ⟨q2, l2, h1, h2, by omega⟩
      · by_cases h0 : current = 0
        · have hq : QueueEvent q current event hwnd idObject idChild = q := by
            unfold QueueEvent
            rw [if_neg (not_not.mpr h0)]
          rw [hq] at hfresh ⊢
          obtain ⟨q2, l2, h1, h2, h3⟩ := ih q l hR hfresh.2 (by omega)
          exact ⟨q2, l2, h1, h2, by omega⟩
        · have hnone : q.heap current = none := by
            cases hc : q.heap current with
            | none => rfl
            | some v => rw [hc] at hnew; simp at hnew
          obtain ⟨q2, l2, h1, h2, h3⟩ :=
            ih _ _ (QueueEvent_repr q l current event hwnd idObject idChild hR h0 hnone)
              hfresh.2 (by rw [List.length_append, List.length_singleton]; omega)
          refine ⟨q2, l2, h1, h2, ?_⟩
          rw [List.length_append, List.length_singleton] at h3
          omega
    | dequeue =>
      unfold callsFresh at hfresh
      unfold runQueueCalls
      cases l with
      | nil =>
        rw [DequeueEvent_empty q hR] at hfresh ⊢
        obtain ⟨q2, l2, h1, h2, h3⟩ :=
          ih q [] hR hfresh (by simp only [List.length_nil] at hfuel ⊢; omega)
        simp only [List.length_nil] at h3 ⊢
        exact ⟨q2, l2, h1, h2, by omega⟩
      | cons y l1 =>
        obtain ⟨a, p⟩ := y
        obtain ⟨_, _, _, hR1⟩ := DequeueEvent_repr q a p l1 hR
        simp only [List.length_cons] at hfuel ⊢
        obtain ⟨q2, l2, h1, h2, h3⟩ := ih _ l1 hR1 hfresh (by omega)
        exact ⟨q2, l2, h1, h2, by omega⟩
    | free_queue_event =>
      obtain ⟨qf, hfree, hh, ht, _, _⟩ := FreeQueueEvent_repr l q fuel hR (by omega)
      unfold callsFresh at hfresh
      unfold runQueueCalls
      rw [hfree] at hfresh ⊢
      dsimp only at hfresh ⊢
      have hRf : queueRepr qf [] := ⟨hh, List.nodup_nil, ht⟩
      obtain ⟨q2, l2, h1, h2, h3⟩ :=
        ih qf [] hRf hfresh (by simp only [List.length_nil]; omega)
      refine ⟨q2, l2, h1, h2, ?_⟩
      simp only [List.length_nil] at h3
      omega

/-- C33: after every sequence of calls of `QueueEvent`, of passes of the
consumer and of calls of `FreeQueueEvent`, from the empty queue on, each
allocation failing or returning a fresh address, the queue is well linked and
`head` is null exactly when `tail` is; and `FreeQueueEvent` called then
returns having passed to `free` each queued event once and nothing else, with
`head` and `tail` null.  Under every interleaving of the statements of the
three threads the same equivalence holds whenever the critical section is
free. -/
theorem FreeQueueEvent_empties (calls : List QueueCall) (fuel : Nat)
    (hfresh : callsFresh fuel emptyQueue calls = true) (hfuel : calls.length ≤ fuel) :
    (∃ q l, runQueueCalls fuel emptyQueue calls = some q ∧ queueRepr q l ∧
        (q.head = 0 ↔ q.tail = 0) ∧
        ∃ q2, FreeQueueEvent fuel q = some (l.map Prod.fst, q2) ∧ q2.head = 0 ∧ q2.tail = 0 ∧
          (l.map Prod.fst).Nodup ∧
          (∀ a ∈ l.map Prod.fst, q.heap a ≠ none ∧ q2.heap a = none) ∧
          ∀ a, a ∉ l.map Prod.fst → q2.heap a = q.heap a) ∧
      ∀ sched : List QueueAction,
        (runQueueSystem initialQueueSystem sched).owner = none →
          ((runQueueSystem initialQueueSystem sched).head = 0 ↔
            (runQueueSystem initialQueueSystem sched).tail = 0) := by
  constructor
  · have hR0 : queueRepr emptyQueue [] := ⟨rfl, List.nodup_nil, rfl⟩
    obtain ⟨q, l, hrun, hR, hlen⟩ :=
      runQueueCalls_repr calls fuel emptyQueue [] hR0 hfresh
        (by simp only [List.length_nil]; omega)
    obtain ⟨q2, hfree, hh, ht, hfreed, hkept⟩ :=
      FreeQueueEvent_repr l q fuel hR (by simp only [List.length_nil] at hlen; omega)
    exact ⟨q, l, hrun, hR, queueRepr_head_tail q l hR, q2, hfree, hh, ht, hR.2.1, hfreed, hkept⟩
  · intro sched ho
    obtain ⟨l, hinv⟩ :=
      runQueueSystem_invariant sched initialQueueSystem [] queueInvariant_initial
    unfold queueInvariant at hinv
    obtain ⟨_, _, _, _, _, _, _, hown⟩ := hinv
    rw [ho] at hown
    exact queueRepr_head_tail _ l hown

/-- Instance of C33: after `exampleCalls` the queue holds the events at 200
and 300; `FreeQueueEvent` frees exactly these two, in this order, and the
queue it leaves has `head` and `tail` null. -/
theorem FreeQueueEvent_empties_witness :
    ((runQueueCalls 4 emptyQueue exampleCalls).bind fun q =>
        (FreeQueueEvent 4 q).map fun r => (r.1, r.2.head, r.2.tail)) =
        some ([200, 300], 0, 0) ∧
      ∃ q, runQueueCalls 4 emptyQueue exampleCalls = some q ∧ (q.head = 0 ↔ q.tail = 0) :=
  ⟨by decide,
    match (FreeQueueEvent_empties exampleCalls 4 (by decide) (by decide)).1 with
    | ⟨q, _, hrun, _, hiff, _⟩ => ⟨q, hrun, hiff⟩⟩

end ShellHost
